import Mathlib

/-!
# Verification of the `create-skill-proxy` lifecycle scripts

A shallow embedding of the three lifecycle scripts of the repository
(`scripts/create-proxy.py`, `scripts/verify-proxy.py`,
`scripts/update-proxy.py`) together with proofs about the pinning /
integrity-verification protocol they implement.

External collaborators (the HTTP client, the YAML library, the SHA-256
implementation, the filesystem) are modelled as explicit parameters:

* network responses are values of `HttpResp` supplied by a `Remote` record
  (a transport exception is `HttpResp.exn`, everything else is a status
  code plus the decoded response text);
* the filesystem is a partial map `String → Option String` from paths to
  file contents, and each operation's outcome records the list of writes
  it performed;
* `yaml.safe_load` / `yaml.dump` and `hashlib.sha256` are opaque function
  parameters (`digest` models the composite
  `hashlib.sha256(text.encode("utf-8")).hexdigest()` used identically by
  all three scripts).

Python string primitives used by the scripts (`str.split`, `str.strip`,
`str.find`, slicing, and the three regular expressions appearing in the
sources) are implemented over `List Char` with Python semantics.
-/

set_option maxHeartbeats 1000000

namespace PyStr

/-- Boolean list-equality based predicate: `pat` occurs at the head of `l`
(Python `str.startswith`, and the building block of substring search). -/
def listPre : List Char → List Char → Bool
  | [], _ => true
  | _ :: _, [] => false
  | a :: as, b :: bs => a == b && listPre as bs

/-- `pat` occurs at the end of `l` (Python `str.endswith`). -/
def listSuf (pat l : List Char) : Bool :=
  listPre pat.reverse l.reverse

/-- `pat` occurs somewhere in `l` (Python `in` on strings). -/
def hasSub (pat : List Char) : List Char → Bool
  | [] => listPre pat []
  | c :: rest => listPre pat (c :: rest) || hasSub pat (rest)

/-- Index of the first occurrence of `pat` in `l`, if any. -/
def findSub (pat : List Char) : List Char → Option Nat
  | [] => if listPre pat [] then some 0 else none
  | c :: rest =>
    if listPre pat (c :: rest) then some 0
    else (findSub pat rest).map (· + 1)

/-- Python `s.find(sub, start)`: first index `≥ start`, else `-1`. -/
def pyFindFrom (pat l : List Char) (start : Nat) : Int :=
  match findSub pat (l.drop start) with
  | some i => (i + start : Nat)
  | none => -1

/-- Python slice `l[start:stop]` with a possibly negative `stop`
(`-1` counts from the end), `start ≥ 0`. -/
def pySlice (l : List Char) (start : Nat) (stop : Int) : List Char :=
  let stopN : Nat := if stop < 0 then l.length - (-stop).toNat else stop.toNat
  (l.take stopN).drop start

/-- Python `s.split(sep)` for a single-character separator: keeps empty
fields, `"".split(c) = [""]`. -/
def pySplit (sep : Char) : List Char → List (List Char)
  | [] => [[]]
  | c :: rest =>
    if c == sep then [] :: pySplit sep rest
    else match pySplit sep rest with
      | [] => [[c]]
      | p :: ps => (c :: p) :: ps

/-- `"/".join parts`. -/
def joinSep (sep : Char) : List (List Char) → List Char
  | [] => []
  | [p] => p
  | p :: ps => p ++ sep :: joinSep sep ps

/-- Python `str.strip()` (whitespace at both ends). -/
def pyStripWs (l : List Char) : List Char :=
  ((l.dropWhile Char.isWhitespace).reverse.dropWhile Char.isWhitespace).reverse

/-- Python `s.rstrip(c)` for a single strip character. -/
def pyRstrip (strip : Char) (l : List Char) : List Char :=
  (l.reverse.dropWhile (· == strip)).reverse

/-- Python `s.lstrip(c)` for a single strip character. -/
def pyLstrip (strip : Char) (l : List Char) : List Char :=
  l.dropWhile (· == strip)

/-- Number of non-overlapping occurrences of `pat` in `l`, scanning left to
right (Python `str.count`); `pat` is assumed nonempty at call sites. -/
def countSub (pat : List Char) : List Char → Nat
  | [] => 0
  | c :: rest =>
    if listPre pat (c :: rest) then
      1 + countSub pat (rest.drop (pat.length - 1))
    else countSub pat rest
termination_by l => l.length
decreasing_by
  all_goals simp only [List.length_drop, List.length_cons]
  all_goals omega

/-- Python `s.split(sep, maxsplit)` for a multi-character separator. -/
def pySplitMax (pat : List Char) (maxsplit : Nat) (l : List Char) :
    List (List Char) :=
  match maxsplit with
  | 0 => [l]
  | m + 1 =>
    match findSub pat l with
    | none => [l]
    | some i =>
      l.take i :: pySplitMax pat m (l.drop (i + pat.length))

/-- Last element of a list of parts (Python `parts[-1]`; the scripts only
apply it to results of `split`, which are never empty). -/
def lastPart : List (List Char) → List Char
  | [] => []
  | [p] => p
  | _ :: p :: ps => lastPart (p :: ps)

/-- Python `s.replace(old, new)`: replace all non-overlapping occurrences,
scanning left to right (`old` nonempty at the call sites). -/
def replaceSub (pat rep : List Char) : List Char → List Char
  | [] => []
  | c :: rest =>
    if listPre pat (c :: rest) then rep ++ replaceSub pat rep (rest.drop (pat.length - 1))
    else c :: replaceSub pat rep rest
termination_by l => l.length
decreasing_by
  all_goals simp only [List.length_drop, List.length_cons]
  all_goals omega

/-- Split a list at the first occurrence of `pat`: the part before and the
part after the occurrence. -/
def splitAtSub (pat : List Char) : List Char → Option (List Char × List Char)
  | [] => if listPre pat [] then some ([], []) else none
  | c :: rest =>
    if listPre pat (c :: rest) then some ([], (c :: rest).drop pat.length)
    else (splitAtSub pat rest).map (fun p => (c :: p.1, p.2))

/-- `urllib.parse.urlparse(u).path` for the URL shapes handled by the
scripts: everything after the `scheme://netloc` part and before any query
or fragment; if the input has no `://`, the whole input (up to `?`/`#`) is
the path, as `urlparse` behaves on scheme-less host/path strings. -/
def urlPath (l : List Char) : List Char :=
  match splitAtSub "://".toList l with
  | some (_, rest) =>
    (rest.dropWhile (fun c => !(c == '/'))).takeWhile fun c => !(c == '?') && !(c == '#')
  | none => l.takeWhile fun c => !(c == '?') && !(c == '#')

/-- `re.sub(r'/refs/heads/([^/]+)/', r'/\1/', u)`: left-to-right scan
replacing every non-overlapping occurrence of a `/refs/heads/<seg>/` region
(`<seg>` nonempty and slash-free) by `/<seg>/`, continuing after the
consumed region. -/
def subRefsHeads : List Char → List Char
  | [] => []
  | c :: rest =>
    if c == '/' && listPre "refs/heads/".toList rest then
      let after := rest.drop 11
      let seg := after.takeWhile (fun d => !(d == '/'))
      if !seg.isEmpty && listPre ['/'] (after.drop seg.length) then
        '/' :: (seg ++ '/' :: subRefsHeads ((after.drop seg.length).drop 1))
      else c :: subRefsHeads rest
    else c :: subRefsHeads rest
termination_by l => l.length
decreasing_by
  all_goals simp only [List.length_drop, List.length_cons]
  all_goals omega

/-- Match `github\.com/([^/]+)/([^/]+)` at the head of `l`, returning the
two captured groups. The `[^/]+` groups are greedy; since a maximal
slash-free run followed by a required `/` admits no productive
backtracking, maximal-run matching is exact. -/
def matchGR (l : List Char) : Option (List Char × List Char) :=
  if listPre "github.com/".toList l then
    let rest := l.drop 11
    let s1 := rest.takeWhile (fun d => !(d == '/'))
    if s1.isEmpty then none
    else
      match rest.drop s1.length with
      | '/' :: r3 =>
        let s2 := r3.takeWhile (fun d => !(d == '/'))
        if s2.isEmpty then none else some (s1, s2)
      | _ => none
  else none

/-- `re.search(r'github\.com/([^/]+)/([^/]+)', s)`: leftmost position where
the whole pattern matches. -/
def searchGR : List Char → Option (List Char × List Char)
  | [] => none
  | c :: rest =>
    match matchGR (c :: rest) with
    | some r => some r
    | none => searchGR rest

/-- Consume one `[^/]+/` group: a nonempty slash-free run followed by `/`;
returns the remainder after the slash. -/
def seGroup (l : List Char) : Option (List Char) :=
  let s := l.takeWhile (fun d => !(d == '/'))
  if s.isEmpty then none
  else match l.drop s.length with
    | '/' :: r => some r
    | _ => none

/-- Match `raw\.githubusercontent\.com/[^/]+/[^/]+/[^/]+/(.+)` at the head
of `l`, returning the `(.+)` capture (the rest of the string, nonempty). -/
def matchRawPath (l : List Char) : Option (List Char) :=
  if listPre "raw.githubusercontent.com/".toList l then do
    let r1 ← seGroup (l.drop 26)
    let r2 ← seGroup r1
    let r3 ← seGroup r2
    if r3.isEmpty then none else some r3
  else none

/-- `re.search` for the raw-URL path pattern of `update-proxy.py`. -/
def searchRawPath : List Char → Option (List Char)
  | [] => none
  | c :: rest =>
    match matchRawPath (c :: rest) with
    | some r => some r
    | none => searchRawPath rest

/-- `pathlib.Path(p).name`: the final path component (ignoring a trailing
separator). -/
def pathName (p : String) : String :=
  ⟨lastPart (pySplit '/' (pyRstrip '/' p.data))⟩

end PyStr

open PyStr

/-! ## External collaborators -/

/-- Result of one `requests.get`: either a raised `requests.RequestException`
(transport failure) or a status code together with the decoded response
text (for the commit-resolution API endpoint the text models the
`resp.json()["sha"]` field). -/
inductive HttpResp where
  | exn : HttpResp
  | resp : Nat → String → HttpResp
deriving DecidableEq

/-- The remote host (GitHub), abstracted to the two operations the scripts
use: fetch raw bytes at an address, and resolve `owner/repo@branch` to the
commit sha of its tip. -/
structure Remote where
  fetchHttp : String → HttpResp
  apiCommit : String → String → String → HttpResp

/-- How a process invocation ends: `sys.exit(code)` (or a normal return of
`code` from `main`), or an uncaught Python exception. -/
inductive Term where
  | exited : Nat → Term
  | crashed : Term
deriving DecidableEq

/-- Which terminal message `update-proxy.py` reports on success. -/
inductive UpdateNote where
  | upToDate
  | dryRun
  | updated
deriving DecidableEq

/-- Observable outcome of one script invocation: how it terminated, the
filesystem writes it performed (path, content), the network requests it
issued, and (verify only) which informational upstream-freshness notice it
printed (`some true` = newer commit upstream, `some false` = at head,
`none` = no notice). -/
structure Outcome where
  term : Term
  writes : List (String × String) := []
  fetches : List String := []
  upstreamInfo : Option Bool := none
  updateNote : Option UpdateNote := none
deriving DecidableEq

/-- A remote skill's frontmatter mapping, restricted to the two keys the
validators inspect. `none` = key absent. -/
structure Manifest where
  name : Option String := none
  description : Option String := none
deriving DecidableEq

/-- The `metadata` mapping of a proxy record (`none` = key absent). -/
structure MetaMap where
  proxySource : Option String := none
  proxyRawUrl : Option String := none
  proxyCommit : Option String := none
  proxySha256 : Option String := none
  proxyBranch : Option String := none
  proxyCreatedBy : Option String := none
  proxyCreatedAt : Option String := none
deriving DecidableEq

/-- The frontmatter mapping of a proxy record. -/
structure ProxyFM where
  name : Option String := none
  description : Option String := none
  license : Option String := none
  metadata : Option MetaMap := none
deriving DecidableEq

/-- The PyYAML collaborator: `safe_load` on a remote skill's frontmatter
block (`none` models a raised `yaml.YAMLError`; a YAML `None` document is
already folded to the empty mapping, mirroring the `or {}` at the call
sites), `safe_load` on a proxy record's frontmatter block, and
`yaml.dump(fm, allow_unicode=True, sort_keys=False, width=120)`. -/
structure Yaml where
  loadManifest : String → Option Manifest
  loadProxy : String → Option ProxyFM
  dumpProxy : ProxyFM → String

/-- Python truthiness test for an optional string (`not x`). -/
def falsy : Option String → Bool
  | none => true
  | some s => s.isEmpty

/-- `f"https://api.github.com/repos/{owner}/{repo}/commits/{branch}"`. -/
def apiUrl (owner repo branch : String) : String :=
  "https://api.github.com/repos/" ++ owner ++ "/" ++ repo ++ "/commits/" ++ branch

/-- The fixed disclaimer text shared by the scripts. -/
def LIABILITY_DISCLAIMER : String :=
  "The creator of the 'Skill Proxy' is not liable for any damages arising\nfrom the use of this 'Skill Proxy'. The risk and responsibility lies\nexclusively with the user who uses this 'Skill Proxy'. If the 'Skill Proxy'\nuser is an agent, then the user who is responsible for that agent bears\nthe responsibility."

/-! ## `scripts/create-proxy.py` -/

namespace CreateProxy

/-- Result of `translate_url`: the translated
`(raw_content_url, owner, repo, branch, skill_path)` tuple, `sys.exit(1)`
(unsupported URL), or an uncaught `IndexError` on too-short inputs. -/
inductive TransResult where
  | ok : String → String → String → String → String → TransResult
  | usage : TransResult
  | err : TransResult
deriving DecidableEq

/-- `f"https://raw.githubusercontent.com/{owner}/{repo}/{branch}/{skill_path}"`. -/
def mkRawUrl (owner repo branch skill : List Char) : List Char :=
  "https://raw.githubusercontent.com/".toList ++ owner ++ '/' :: repo ++ '/' :: branch ++ '/' :: skill

/-- `translate_url` of `create-proxy.py` (lines 56–115). -/
def translate_url (input_url : String) : TransResult :=
  let u := pyRstrip '/' (pyStripWs input_url.data)
  if hasSub "raw.githubusercontent.com".toList u then
    let raw := subRefsHeads u
    let parts := pySplit '/' (pyLstrip '/' (urlPath raw))
    match parts with
    | owner :: repo :: branch :: rest =>
      let skill_path :=
        if rest.length > 0 then joinSep '/' rest else "SKILL.md".toList
      let skill_path :=
        if ¬ listSuf "SKILL.md".toList skill_path then
          pyRstrip '/' skill_path ++ "/SKILL.md".toList
        else skill_path
      .ok ⟨mkRawUrl owner repo branch skill_path⟩ ⟨owner⟩ ⟨repo⟩ ⟨branch⟩ ⟨skill_path⟩
    | _ => .err
  else if ¬ hasSub "github.com".toList u then .usage
  else
    let path := pySplit '/' (pyLstrip '/' (urlPath u))
    match path with
    | owner :: repo :: rest =>
      match rest with
      | [] =>
        .ok ⟨mkRawUrl owner repo "main".toList "SKILL.md".toList⟩
          ⟨owner⟩ ⟨repo⟩ "main" "SKILL.md"
      | r2 :: rest2 =>
        if r2 = "tree".toList then
          match rest2 with
          | [] => .err
          | branch :: rest3 =>
            let skill_path :=
              if rest3.length > 0 then
                pyRstrip '/' (joinSep '/' rest3) ++ "/SKILL.md".toList
              else "SKILL.md".toList
            .ok ⟨mkRawUrl owner repo branch skill_path⟩
              ⟨owner⟩ ⟨repo⟩ ⟨branch⟩ ⟨skill_path⟩
        else if r2 = "blob".toList then
          match rest2 with
          | [] => .err
          | branch :: rest3 =>
            let sp := joinSep '/' rest3
            let skill_path :=
              if ¬ listSuf "SKILL.md".toList sp then
                pyRstrip '/' sp ++ "/SKILL.md".toList
              else sp
            .ok ⟨mkRawUrl owner repo branch skill_path⟩
              ⟨owner⟩ ⟨repo⟩ ⟨branch⟩ ⟨skill_path⟩
        else
          .ok ⟨mkRawUrl owner repo r2 "SKILL.md".toList⟩
            ⟨owner⟩ ⟨repo⟩ ⟨r2⟩ "SKILL.md"
    | _ => .err

/-- `get_commit_hash` (lines 120–136), as a function of the API response;
the `Except` error is the `sys.exit` code (404 and every other non-200
status both exit 2, with different messages). -/
def get_commit_hash : HttpResp → Except Nat String
  | .exn => .error 2
  | .resp s sha =>
    if s = 404 then .error 2 else if s ≠ 200 then .error 2 else .ok sha

/-- `fetch_raw_content` (lines 139–151), as a function of the response. -/
def fetch_raw_content : HttpResp → Except Nat String
  | .exn => .error 2
  | .resp s body =>
    if s = 404 then .error 2 else if s ≠ 200 then .error 2 else .ok body

/-- Result of `parse_frontmatter`: the loaded mapping or `sys.exit(3)`. -/
inductive ParseFM where
  | ok : Manifest → ParseFM
  | exit3 : ParseFM
deriving DecidableEq

/-- `parse_frontmatter` (lines 156–169). -/
def parse_frontmatter (y : Yaml) (content : String) : ParseFM :=
  if ¬ listPre "---".toList content.data then .exit3
  else
    let e := pyFindFrom "---".toList content.data 3
    if e = -1 then .exit3
    else
      match y.loadManifest ⟨pySlice content.data 3 e⟩ with
      | none => .exit3
      | some fm => .ok fm

/-- `[a-z0-9]`. -/
def isLowerAlnumChar (c : Char) : Bool :=
  ('a' ≤ c && c ≤ 'z') || ('0' ≤ c && c ≤ '9')

/-- `[a-z0-9-]`. -/
def nameChar (c : Char) : Bool :=
  isLowerAlnumChar c || c == '-'

/-- Whether `^[a-z0-9][a-z0-9-]*[a-z0-9]$|^[a-z0-9]$` matches the whole
list: nonempty, every char in `[a-z0-9-]`, first and last in `[a-z0-9]`. -/
def bareNameMatch : List Char → Bool
  | [] => false
  | c :: rest =>
    isLowerAlnumChar c && rest.all nameChar &&
      (match rest.getLast? with
       | none => true
       | some d => isLowerAlnumChar d)

/-- `re.match(r'^[a-z0-9][a-z0-9-]*[a-z0-9]$|^[a-z0-9]$', name)`: in Python
`$` also matches just before a single trailing newline. -/
def pyNameMatch (l : List Char) : Bool :=
  bareNameMatch l || (l.getLast? == some '\n' && bareNameMatch l.dropLast)

/-- `validate_frontmatter` of `create-proxy.py` (lines 172–187). The
interpolated `{name!r}` reprs are rendered without quoting; only the
message texts' identities matter. -/
def validate_frontmatter (fm : Manifest) : List String :=
  let name := fm.name.getD ""
  let nameErrs : List String :=
    if name = "" then ["missing 'name'"]
    else if ¬ pyNameMatch name.data then ["invalid name format: " ++ name]
    else if hasSub "--".toList name.data then ["consecutive hyphens in name: " ++ name]
    else if name.length > 64 then ["name exceeds 64 characters"]
    else []
  let descErrs : List String :=
    if falsy fm.description then ["missing 'description'"]
    else if (fm.description.getD "").length > 1024 then ["description exceeds 1024 characters"]
    else []
  nameErrs ++ descErrs

/-- One step of the line scan inside `extract_summary`. -/
def firstSummaryLine : List (List Char) → List Char
  | [] => []
  | ln :: rest =>
    let l := pyStripWs ln
    if !l.isEmpty && ¬ listPre "#".toList l && ¬ listPre "|".toList l
        && ¬ listPre "```".toList l then l
    else firstSummaryLine rest

/-- `extract_summary` (lines 190–197); `str.splitlines` is modelled as
splitting on `'\n'` (the only line separator occurring in the data). -/
def extract_summary (content : String) : String :=
  let body : List Char :=
    if countSub "---".toList content.data ≥ 2 then
      pyStripWs (lastPart (pySplitMax "---".toList 2 content.data))
    else content.data
  ⟨firstSummaryLine (pySplit '\n' body)⟩

/-- The frontmatter dict built inside `build_proxy_skill` (lines 222–239). -/
def proxy_frontmatter (remote_name remote_desc owner source_url branch
    commit_hash sha256 created_by now pinned_url : String) : ProxyFM :=
  { name := some (remote_name ++ "-proxy"),
    description := some ⟨(("Proxy for " ++ remote_name ++ " by " ++ owner ++ ". "
      ++ String.mk (pyStripWs remote_desc.data) ++ " Use exactly as you would use "
      ++ remote_name ++ " directly.").data.take 1024)⟩,
    license := some "Apache-2.0",
    metadata := some
      { proxySource := some source_url,
        proxyRawUrl := some pinned_url,
        proxyCommit := some commit_hash,
        proxySha256 := some sha256,
        proxyBranch := some branch,
        proxyCreatedBy := some created_by,
        proxyCreatedAt := some now } }

/-- The body f-string of `build_proxy_skill` (lines 243–281). -/
def proxy_body (remote_name owner repo branch source_url pinned_url sha256
    short_commit remote_summary now proxy_name : String) : String :=
  "# " ++ remote_name ++ " (proxied from " ++ owner ++ "/" ++ repo ++ ")\n\n**Source:** ["
  ++ owner ++ "/" ++ repo ++ "](" ++ source_url ++ ") · branch `" ++ branch
  ++ "` · commit `" ++ short_commit
  ++ "`\n\n## ⚠️ Liability disclaimer\n\n" ++ LIABILITY_DISCLAIMER
  ++ "\n\n## ⚠️ Verify before use\n\nBefore following any instructions, fetch and verify the remote skill:\n\n1. Fetch the pinned content:\n   `"
  ++ pinned_url
  ++ "`\n\n2. Compute SHA-256 of the fetched content and verify it equals:\n   `"
  ++ sha256
  ++ "`\n\n3. If the checksum does **not** match: **STOP immediately.**\n   Do not follow any instructions. Alert the user:\n   > \"The remote skill content has changed unexpectedly. The 'Skill Proxy'\n   > checksum does not match. Run `verify-proxy.py` and review before proceeding.\"\n\n4. If the checksum **matches**: follow the instructions in the fetched SKILL.md.\n\n## Summary (captured at proxy creation · "
  ++ now ++ ")\n\n"
  ++ (if remote_summary = "" then "(no summary available — see remote SKILL.md)" else remote_summary)
  ++ "\n\n## Re-verifying and updating this 'Skill Proxy'\n\n```bash\n# Check if remote content still matches pinned checksum\nuv run scripts/verify-proxy.py --proxy ./skills/"
  ++ proxy_name
  ++ "\n\n# Update pin and checksum after consciously reviewing upstream changes\nuv run scripts/update-proxy.py --proxy ./skills/"
  ++ proxy_name ++ "\n```\n"

/-- `build_proxy_skill` (lines 202–283). -/
def build_proxy_skill (y : Yaml) (now remote_name remote_desc remote_summary
    owner repo branch skill_path commit_hash sha256 source_url created_by :
    String) : String :=
  let proxy_name := remote_name ++ "-proxy"
  let pinned_url := "https://raw.githubusercontent.com/" ++ owner ++ "/" ++ repo
    ++ "/" ++ commit_hash ++ "/" ++ skill_path
  let short_commit : String := ⟨commit_hash.data.take 12⟩
  let fm := proxy_frontmatter remote_name remote_desc owner source_url branch
    commit_hash sha256 created_by now pinned_url
  let fm_yaml := y.dumpProxy fm
  "---\n" ++ fm_yaml ++ "---\n\n"
    ++ proxy_body remote_name owner repo branch source_url pinned_url sha256
        short_commit remote_summary now proxy_name

/-- `main` of `create-proxy.py` (lines 288–384), as a function of its
arguments and collaborators. `now` is the formatted current UTC time. The
`skills-ref validate` subprocess at the end only prints diagnostics and is
omitted; `proxy_dir.mkdir` creates no file and is subsumed by the single
recorded write. -/
def main (y : Yaml) (digest : String → String) (now url output_dir
    created_by : String) (remote : Remote) : Outcome :=
  match translate_url url with
  | .usage => { term := .exited 1 }
  | .err => { term := .crashed }
  | .ok raw_url owner repo branch skill_path =>
    match fetch_raw_content (remote.fetchHttp raw_url) with
    | .error c => { term := .exited c, fetches := [raw_url] }
    | .ok content =>
      match parse_frontmatter y content with
      | .exit3 => { term := .exited 3, fetches := [raw_url] }
      | .ok fm =>
        match validate_frontmatter fm with
        | _ :: _ => { term := .exited 3, fetches := [raw_url] }
        | [] =>
          match get_commit_hash (remote.apiCommit owner repo branch) with
          | .error c =>
            { term := .exited c, fetches := [raw_url, apiUrl owner repo branch] }
          | .ok commit_hash =>
            let sha256 := digest content
            let summary := extract_summary content
            let remote_name := fm.name.getD ""
            let proxy_content := build_proxy_skill y now remote_name
              (fm.description.getD "") summary owner repo branch skill_path
              commit_hash sha256 url created_by
            let proxy_dir := output_dir ++ "/" ++ remote_name ++ "-proxy"
            { term := .exited 0,
              writes := [(proxy_dir ++ "/SKILL.md", proxy_content)],
              fetches := [raw_url, apiUrl owner repo branch] }

end CreateProxy

/-! ## `scripts/verify-proxy.py` -/

namespace VerifyProxy

/-- Result of `load_proxy_metadata`: the `metadata` mapping, `sys.exit(1)`
(no `SKILL.md`, or no leading frontmatter marker), or an uncaught
`yaml.YAMLError`. -/
inductive LoadMeta where
  | ok : MetaMap → LoadMeta
  | exit1 : LoadMeta
  | crash : LoadMeta
deriving DecidableEq

/-- `load_proxy_metadata` (lines 46–57). Note the absence of a `-1` check
on `find`: a record without a closing marker is sliced as `content[3:-1]`. -/
def load_proxy_metadata (y : Yaml) (fs : String → Option String)
    (proxy_dir : String) : LoadMeta :=
  match fs (proxy_dir ++ "/SKILL.md") with
  | none => .exit1
  | some content =>
    if ¬ listPre "---".toList content.data then .exit1
    else
      let e := pyFindFrom "---".toList content.data 3
      match y.loadProxy ⟨pySlice content.data 3 e⟩ with
      | none => .crash
      | some fm => .ok (fm.metadata.getD {})

/-- `fetch_pinned` (lines 60–69). -/
def fetch_pinned : HttpResp → Except Nat String
  | .exn => .error 2
  | .resp s body => if s ≠ 200 then .error 2 else .ok body

/-- `get_latest_commit` (lines 72–86): every failure — transport exception
or non-200 status — is absorbed by `except Exception: pass` and collapses to
`None`, indistinguishable from the check being skipped. -/
def get_latest_commit : HttpResp → Option String
  | .exn => none
  | .resp s sha => if s = 200 then some sha else none

/-- `main` of `verify-proxy.py` (lines 89–155). -/
def main (y : Yaml) (digest : String → String)
    (fs : String → Option String) (proxy_arg : String) (remote : Remote) :
    Outcome :=
  match load_proxy_metadata y fs proxy_arg with
  | .exit1 => { term := .exited 1 }
  | .crash => { term := .crashed }
  | .ok meta =>
    if falsy meta.proxyRawUrl || falsy meta.proxySha256 then { term := .exited 1 }
    else
      let pinned_url := meta.proxyRawUrl.getD ""
      let branch := meta.proxyBranch.getD "main"
      let source_url := meta.proxySource.getD ""
      match fetch_pinned (remote.fetchHttp pinned_url) with
      | .error c => { term := .exited c, fetches := [pinned_url] }
      | .ok content =>
        let actual_sha := digest content
        if actual_sha ≠ meta.proxySha256.getD "" then
          { term := .exited 4, fetches := [pinned_url] }
        else
          match searchGR source_url.data with
          | none => { term := .exited 0, fetches := [pinned_url] }
          | some (o, r) =>
            let owner : String := ⟨o⟩
            let repo : String := ⟨r⟩
            let latest := get_latest_commit (remote.apiCommit owner repo branch)
            let info : Option Bool :=
              match latest with
              | some l =>
                if l ≠ "" then
                  if some l ≠ meta.proxyCommit then some true else some false
                else none
              | none => none
            { term := .exited 0,
              fetches := [pinned_url, apiUrl owner repo branch],
              upstreamInfo := info }

end VerifyProxy

/-! ## `scripts/update-proxy.py` -/

namespace UpdateProxy

/-- Result of `load_proxy_skill_md`: the frontmatter mapping, or an uncaught
exception (`FileNotFoundError` from `read_text` — there is no existence
check, unlike the loader of `verify-proxy.py` — or a `yaml.YAMLError`). -/
inductive LoadFM where
  | ok : ProxyFM → LoadFM
  | crash : LoadFM
deriving DecidableEq

/-- `load_proxy_skill_md` (lines 59–65); the returned body is discarded by
`main` (`_body`) and is omitted here. -/
def load_proxy_skill_md (y : Yaml) (fs : String → Option String)
    (proxy_dir : String) : LoadFM :=
  match fs (proxy_dir ++ "/SKILL.md") with
  | none => .crash
  | some content =>
    let e := pyFindFrom "---".toList content.data 3
    match y.loadProxy ⟨pySlice content.data 3 e⟩ with
    | none => .crash
    | some fm => .ok fm

/-- `fetch_raw` (lines 68–77). -/
def fetch_raw : HttpResp → Except Nat String
  | .exn => .error 2
  | .resp s body => if s ≠ 200 then .error 2 else .ok body

/-- `get_head_commit` (lines 80–92): the `requests.get` is *not* wrapped in
`try`, so a transport exception propagates out of `main` uncaught; a non-200
status exits with the network-error status. -/
def get_head_commit : HttpResp → Except Term String
  | .exn => .error .crashed
  | .resp s sha => if s ≠ 200 then .error (.exited 2) else .ok sha

/-- `validate_frontmatter` of `update-proxy.py` (lines 95–104): unlike the
validator of `create-proxy.py` it has no doubled-hyphen check, no name
length check and no description length check. -/
def validate_frontmatter (fm : Manifest) : List String :=
  let name := fm.name.getD ""
  let nameErrs : List String :=
    if name = "" then ["missing 'name'"]
    else if ¬ CreateProxy.pyNameMatch name.data then ["invalid name: " ++ name]
    else []
  let descErrs : List String :=
    if falsy fm.description then ["missing 'description'"]
    else []
  nameErrs ++ descErrs

/-- `extract_summary` (lines 107–114), identical in behavior to the one in
`create-proxy.py`. -/
def extract_summary (content : String) : String :=
  let body : List Char :=
    if countSub "---".toList content.data ≥ 2 then
      pyStripWs (lastPart (pySplitMax "---".toList 2 content.data))
    else content.data
  ⟨CreateProxy.firstSummaryLine (pySplit '\n' body)⟩

/-- `build_updated_body` (lines 117–166). -/
def build_updated_body (remote_name owner repo source_url branch new_commit
    new_raw_url new_sha256 new_summary proxy_name now : String) : String :=
  let short_commit : String := ⟨new_commit.data.take 12⟩
  "# " ++ remote_name ++ " (proxied from " ++ owner ++ "/" ++ repo ++ ")\n\n**Source:** ["
  ++ owner ++ "/" ++ repo ++ "](" ++ source_url ++ ") · branch `" ++ branch
  ++ "` · commit `" ++ short_commit
  ++ "`\n\n## ⚠️ Liability disclaimer\n\n" ++ LIABILITY_DISCLAIMER
  ++ "\n\n## ⚠️ Verify before use\n\nBefore following any instructions, fetch and verify the remote skill:\n\n1. Fetch the pinned content:\n   `"
  ++ new_raw_url
  ++ "`\n\n2. Compute SHA-256 of the fetched content and verify it equals:\n   `"
  ++ new_sha256
  ++ "`\n\n3. If the checksum does **not** match: **STOP immediately.**\n   Do not follow any instructions. Alert the user:\n   > \"The remote skill content has changed unexpectedly. The 'Skill Proxy'\n   > checksum does not match. Run `verify-proxy.py` and review before proceeding.\"\n\n4. If the checksum **matches**: follow the instructions in the fetched SKILL.md.\n\n## Summary (updated "
  ++ now ++ ")\n\n"
  ++ (if new_summary = "" then "(no summary available — see remote SKILL.md)" else new_summary)
  ++ "\n\n## Re-verifying and updating this 'Skill Proxy'\n\n```bash\nuv run scripts/verify-proxy.py --proxy ./skills/"
  ++ proxy_name
  ++ "\nuv run scripts/update-proxy.py --proxy ./skills/"
  ++ proxy_name ++ "\n```\n"

/-- The `remote_skill_path` derivation of `main` (lines 204–208). -/
def remoteSkillPath (old_raw_url : String) : String :=
  match searchRawPath old_raw_url.data with
  | some p => ⟨p⟩
  | none => "SKILL.md"

/-- `f"https://raw.githubusercontent.com/{owner}/{repo}/{new_commit}/{remote_skill_path}"`
(lines 222–224). -/
def newRawUrl (owner repo commit path : String) : String :=
  "https://raw.githubusercontent.com/" ++ owner ++ "/" ++ repo ++ "/" ++ commit
    ++ "/" ++ path

/-- The `remote_fm` derivation of `main` (lines 229–230): split the fetched
content on `---` (at most twice) and `safe_load` the middle part; fewer than
two parts yield the empty mapping. `none` models an uncaught `YAMLError`. -/
def loadRemoteFM (y : Yaml) (new_content : String) : Option Manifest :=
  let parts := pySplitMax "---".toList 2 new_content.data
  if parts.length ≥ 2 then y.loadManifest ⟨parts.getD 1 []⟩ else some {}

/-- The metadata rewrite of `main` (lines 256–260). -/
def updatedMeta (meta : MetaMap) (new_commit new_sha256 new_raw_url now :
    String) : MetaMap :=
  { meta with
    proxyCommit := some new_commit,
    proxySha256 := some new_sha256,
    proxyRawUrl := some new_raw_url,
    proxyCreatedAt := some now }

/-- `main` of `update-proxy.py` (lines 169–302). The `skills-ref validate`
subprocess after the write only prints diagnostics and is omitted. -/
def main (y : Yaml) (digest : String → String) (now : String)
    (fs : String → Option String) (proxy_arg : String) (dry_run : Bool)
    (remote : Remote) : Outcome :=
  match load_proxy_skill_md y fs proxy_arg with
  | .crash => { term := .crashed }
  | .ok fm =>
    let meta := fm.metadata.getD {}
    let source_url := meta.proxySource.getD ""
    let branch := meta.proxyBranch.getD "main"
    let old_raw_url := meta.proxyRawUrl.getD ""
    let old_commit := meta.proxyCommit.getD ""
    match searchGR source_url.data with
    | none => { term := .exited 1 }
    | some (o, r) =>
      let owner : String := ⟨o⟩
      let repo : String := ⟨r⟩
      let remote_skill_path := remoteSkillPath old_raw_url
      match get_head_commit (remote.apiCommit owner repo branch) with
      | .error t => { term := t, fetches := [apiUrl owner repo branch] }
      | .ok new_commit =>
        if new_commit = old_commit then
          { term := .exited 0, fetches := [apiUrl owner repo branch],
            updateNote := some .upToDate }
        else
          let new_raw_url := newRawUrl owner repo new_commit remote_skill_path
          match fetch_raw (remote.fetchHttp new_raw_url) with
          | .error c =>
            { term := .exited c,
              fetches := [apiUrl owner repo branch, new_raw_url] }
          | .ok new_content =>
            match loadRemoteFM y new_content with
            | none =>
              { term := .crashed,
                fetches := [apiUrl owner repo branch, new_raw_url] }
            | some remote_fm =>
              match validate_frontmatter remote_fm with
              | _ :: _ =>
                { term := .exited 3,
                  fetches := [apiUrl owner repo branch, new_raw_url] }
              | [] =>
                let new_sha256 := digest new_content
                let new_summary := extract_summary new_content
                if dry_run then
                  { term := .exited 0,
                    fetches := [apiUrl owner repo branch, new_raw_url],
                    updateNote := some .dryRun }
                else
                  let meta2 := updatedMeta meta new_commit new_sha256 new_raw_url now
                  let fm2 : ProxyFM := { fm with metadata := some meta2 }
                  let remote_name := remote_fm.name.getD
                    ⟨replaceSub "-proxy".toList [] (pathName proxy_arg).data⟩
                  let new_body := build_updated_body remote_name owner repo
                    source_url branch new_commit new_raw_url new_sha256
                    new_summary (pathName proxy_arg) now
                  let new_skill_md := "---\n" ++ y.dumpProxy fm2 ++ "---\n\n" ++ new_body
                  { term := .exited 0,
                    writes := [(proxy_arg ++ "/SKILL.md", new_skill_md)],
                    fetches := [apiUrl owner repo branch, new_raw_url],
                    updateNote := some .updated }

end UpdateProxy

/-! ## Spec-side definitions and concrete fixtures used by the claims -/

/-- The six distinct validation error kinds named by the specification for
the validator of `create-proxy.py`. -/
inductive ErrKind where
  | missingName
  | invalidNameFormat
  | doubledHyphen
  | nameTooLong
  | missingDescription
  | descriptionTooLong
deriving DecidableEq

/-- Modelled from the spec (amended for C6): the validator reports, per
field, the first violated rule — name: missing/empty; not matching the
name pattern; containing `--`; longer than 64 characters — description:
missing or empty (*without* trimming; the claim's "empty after trimming"
is the amended part); longer than 1024 characters. -/
def specErrKinds (fm : Manifest) : List ErrKind :=
  let name := fm.name.getD ""
  (if name = "" then [ErrKind.missingName]
   else if ¬ CreateProxy.pyNameMatch name.data then [ErrKind.invalidNameFormat]
   else if hasSub "--".toList name.data then [ErrKind.doubledHyphen]
   else if name.length > 64 then [ErrKind.nameTooLong]
   else []) ++
  (if falsy fm.description then [ErrKind.missingDescription]
   else if (fm.description.getD "").length > 1024 then [ErrKind.descriptionTooLong]
   else [])

/-- The message `create-proxy.py`'s `validate_frontmatter` emits for each
error kind. -/
def errMessage (fm : Manifest) : ErrKind → String
  | .missingName => "missing 'name'"
  | .invalidNameFormat => "invalid name format: " ++ fm.name.getD ""
  | .doubledHyphen => "consecutive hyphens in name: " ++ fm.name.getD ""
  | .nameTooLong => "name exceeds 64 characters"
  | .missingDescription => "missing 'description'"
  | .descriptionTooLong => "description exceeds 1024 characters"

/-- The character set assumed for URL components (owner, repository,
branch, subpath segments) in the location-resolver claims: lowercase
alphanumerics, hyphen and underscore. -/
def compChars : List Char := "abcdefghijklmnopqrstuvwxyz0123456789-_".toList

/-- A concrete proxy-record metadata mapping (tracking
`https://github.com/o/r`, pinned at commit `c0`, checksum `D`). -/
def c9Meta : MetaMap :=
  { proxySource := some "https://github.com/o/r",
    proxyRawUrl := some "u",
    proxyCommit := some "c0",
    proxySha256 := some "D" }

/-- A concrete YAML collaborator: every remote frontmatter block loads as
a valid `demo-skill` manifest, every proxy frontmatter block loads as a
record with metadata `c9Meta`. -/
def c9Yaml : Yaml :=
  { loadManifest := fun _ => some { name := some "demo-skill", description := some "x" },
    loadProxy := fun _ => some { metadata := some c9Meta },
    dumpProxy := fun _ => "y\n" }

/-- A concrete filesystem holding one well-formed record file. -/
def c9Fs : String → Option String := fun _ => some "---\na\n---"

/-! ## Helper lemmas about the string primitives -/

namespace PyStr

theorem listPre_append_of_listPre (p l t : List Char) (h : listPre p l = true) :
    listPre p (l ++ t) = true := by
  induction p generalizing l with
  | nil => simp [listPre]
  | cons a as ih =>
    cases l with
    | nil => simp [listPre] at h
    | cons b bs =>
      simp only [listPre, Bool.and_eq_true] at h ⊢
      exact ⟨h.1, ih bs h.2⟩

theorem hasSub_nil (l : List Char) : hasSub [] l = true := by
  induction l with
  | nil => rfl
  | cons c cs ih => simp [hasSub, listPre, ih]

theorem hasSub_append_right (p a t : List Char) (h : hasSub p t = true) :
    hasSub p (a ++ t) = true := by
  induction a with
  | nil => simpa
  | cons c cs ih =>
    simp only [List.cons_append, hasSub, Bool.or_eq_true]
    exact Or.inr ih

theorem hasSub_append_left (p a t : List Char) (h : hasSub p a = true) :
    hasSub p (a ++ t) = true := by
  induction a with
  | nil =>
    cases p with
    | nil => simpa using hasSub_nil t
    | cons q qs => simp [hasSub, listPre] at h
  | cons c cs ih =>
    simp only [hasSub, Bool.or_eq_true] at h ⊢
    rcases h with h | h
    · exact Or.inl (listPre_append_of_listPre _ _ _ h)
    · exact Or.inr (ih h)

/-- `l` decomposes as its whitespace/char-stripped residue plus dropped
material on both sides. -/
theorem exists_decomp_rev_dropWhile (q : Char → Bool) (l : List Char) :
    ∃ t, l = (l.reverse.dropWhile q).reverse ++ t := by
  refine ⟨(l.reverse.takeWhile q).reverse, ?_⟩
  have h := List.takeWhile_append_dropWhile (p := q) (l := l.reverse)
  calc l = l.reverse.reverse := (List.reverse_reverse l).symm
    _ = (l.reverse.takeWhile q ++ l.reverse.dropWhile q).reverse := by rw [h]
    _ = (l.reverse.dropWhile q).reverse ++ (l.reverse.takeWhile q).reverse := by
        rw [List.reverse_append]

theorem hasSub_of_hasSub_stripped (p l : List Char)
    (h : hasSub p (pyRstrip '/' (pyStripWs l)) = true) : hasSub p l = true := by
  unfold pyRstrip at h
  obtain ⟨t2, ht2⟩ := exists_decomp_rev_dropWhile (· == '/') (pyStripWs l)
  have h2 : hasSub p (pyStripWs l) = true := by
    rw [ht2]; exact hasSub_append_left _ _ _ h
  unfold pyStripWs at h2
  obtain ⟨t1, ht1⟩ :=
    exists_decomp_rev_dropWhile Char.isWhitespace (l.dropWhile Char.isWhitespace)
  have h1 : hasSub p (l.dropWhile Char.isWhitespace) = true := by
    rw [ht1]; exact hasSub_append_left _ _ _ h2
  have hdecomp := List.takeWhile_append_dropWhile (p := Char.isWhitespace) (l := l)
  calc hasSub p l
      = hasSub p (l.takeWhile Char.isWhitespace ++ l.dropWhile Char.isWhitespace) := by
        rw [hdecomp]
    _ = true := hasSub_append_right _ _ _ h1

theorem listPre_self_append (p t : List Char) : listPre p (p ++ t) = true := by
  induction p with
  | nil => rfl
  | cons a as ih => simp [listPre, ih]

theorem hasSub_of_listPre (p l : List Char) (h : listPre p l = true) :
    hasSub p l = true := by
  cases l with
  | nil => simpa [hasSub] using h
  | cons c rest => simp [hasSub, h]

theorem listPre_exists (p : List Char) : ∀ l, listPre p l = true →
    ∃ t, l = p ++ t := by
  induction p with
  | nil => exact fun l _ => ⟨l, rfl⟩
  | cons a as ih =>
    intro l h
    cases l with
    | nil => simp [listPre] at h
    | cons b bs =>
      simp only [listPre, Bool.and_eq_true, beq_iff_eq] at h
      obtain ⟨rfl, h2⟩ := h
      obtain ⟨t, rfl⟩ := ih bs h2
      exact ⟨t, rfl⟩

theorem hasSub_exists (p : List Char) : ∀ l, hasSub p l = true →
    ∃ x y, l = x ++ (p ++ y) := by
  intro l
  induction l with
  | nil =>
    intro h
    simp only [hasSub] at h
    obtain ⟨t, ht⟩ := listPre_exists p [] h
    exact ⟨[], t, ht⟩
  | cons c rest ih =>
    intro h
    simp only [hasSub, Bool.or_eq_true] at h
    rcases h with h | h
    · obtain ⟨t, ht⟩ := listPre_exists p (c :: rest) h
      exact ⟨[], t, ht⟩
    · obtain ⟨x, y, hxy⟩ := ih h
      exact ⟨c :: x, y, by rw [hxy]; rfl⟩

theorem hasSub_false_of_count_lt (ch : Char) (p l : List Char)
    (h : l.count ch < p.count ch) : hasSub p l = false := by
  cases hS : hasSub p l with
  | false => rfl
  | true =>
    obtain ⟨x, y, rfl⟩ := hasSub_exists p l hS
    rw [List.count_append, List.count_append] at h
    omega

theorem pySplit_ne_nil (sep : Char) (l : List Char) : pySplit sep l ≠ [] := by
  cases l with
  | nil => simp [pySplit]
  | cons c rest =>
    simp only [pySplit]
    split
    · simp
    · cases pySplit sep rest <;> simp

theorem pySplit_cons (sep c : Char) (rest : List Char) :
    pySplit sep (c :: rest) =
      if c == sep then [] :: pySplit sep rest
      else
        match pySplit sep rest with
        | [] => [[c]]
        | p :: ps => (c :: p) :: ps := rfl

theorem pySplit_append (sep : Char) (a b : List Char) :
    pySplit sep (a ++ sep :: b) = pySplit sep a ++ pySplit sep b := by
  induction a with
  | nil =>
    simp [pySplit]
  | cons c a' ih =>
    rw [List.cons_append, pySplit_cons sep c (a' ++ sep :: b),
      pySplit_cons sep c a', ih]
    by_cases hc : c = sep
    · subst hc
      simp
    · have hc' : ¬ ((c == sep) = true) := by simpa using hc
      rw [if_neg hc', if_neg hc']
      rcases hps : pySplit sep a' with _ | ⟨p, ps⟩
      · exact absurd hps (pySplit_ne_nil sep a')
      · rfl

theorem pySplit_no_sep (sep : Char) (l : List Char)
    (h : ∀ c ∈ l, (c == sep) = false) : pySplit sep l = [l] := by
  induction l with
  | nil => rfl
  | cons c rest ih =>
    simp only [pySplit, h c (by simp), Bool.false_eq_true, if_false]
    rw [ih (fun d hd => h d (by simp [hd]))]

theorem joinSep_cons₂ (sep : Char) (p q : List Char) (qs : List (List Char)) :
    joinSep sep (p :: q :: qs) = p ++ sep :: joinSep sep (q :: qs) := rfl

theorem joinSep_pySplit (sep : Char) (l : List Char) :
    joinSep sep (pySplit sep l) = l := by
  induction l with
  | nil => rfl
  | cons c rest ih =>
    rw [pySplit_cons]
    by_cases hc : c = sep
    · rw [if_pos (by simp [hc])]
      rcases hps : pySplit sep rest with _ | ⟨p, ps⟩
      · exact absurd hps (pySplit_ne_nil sep rest)
      · rw [hps] at ih
        rw [joinSep_cons₂, List.nil_append, ih, hc]
    · rw [if_neg (by simp [hc])]
      rcases hps : pySplit sep rest with _ | ⟨p, ps⟩
      · exact absurd hps (pySplit_ne_nil sep rest)
      · rw [hps] at ih
        show joinSep sep ((c :: p) :: ps) = c :: rest
        cases ps with
        | nil => simpa [joinSep] using congrArg (c :: ·) ih
        | cons q qs =>
          rw [joinSep_cons₂, List.cons_append, ← joinSep_cons₂, ih]

theorem takeWhile_all (p : Char → Bool) (l : List Char)
    (h : ∀ c ∈ l, p c = true) : l.takeWhile p = l := by
  induction l with
  | nil => rfl
  | cons c rest ih =>
    rw [List.takeWhile_cons, if_pos (h c (by simp)),
      ih (fun d hd => h d (by simp [hd]))]

theorem dropWhile_all_append (p : Char → Bool) (a b : List Char)
    (h : ∀ c ∈ a, p c = true) : (a ++ b).dropWhile p = b.dropWhile p := by
  induction a with
  | nil => rfl
  | cons c a' ih =>
    rw [List.cons_append, List.dropWhile_cons, if_pos (h c (by simp))]
    exact ih (fun d hd => h d (by simp [hd]))

theorem dropWhile_head_not (p : Char → Bool) (l : List Char)
    (h : ∀ c, l.head? = some c → p c = false) : l.dropWhile p = l := by
  cases l with
  | nil => rfl
  | cons c rest => rw [List.dropWhile_cons, if_neg (by simp [h c rfl])]

theorem lastMem (l : List Char) (d : Char) (h : l.getLast? = some d) : d ∈ l := by
  obtain ⟨hne, rfl⟩ := List.mem_getLast?_eq_getLast h
  exact List.getLast_mem hne

theorem pyStripWs_eq_self (l : List Char)
    (h1 : ∀ c, l.head? = some c → c.isWhitespace = false)
    (h2 : ∀ c, l.getLast? = some c → c.isWhitespace = false) :
    pyStripWs l = l := by
  unfold pyStripWs
  rw [dropWhile_head_not _ _ h1]
  rw [dropWhile_head_not _ _ (fun c hc => h2 c (by rw [← List.head?_reverse]; exact hc))]
  exact List.reverse_reverse l

theorem pyRstrip_eq_self (strip : Char) (l : List Char)
    (h : ∀ c, l.getLast? = some c → (c == strip) = false) :
    pyRstrip strip l = l := by
  unfold pyRstrip
  rw [dropWhile_head_not _ _ (fun c hc => h c (by rw [← List.head?_reverse]; exact hc))]
  exact List.reverse_reverse l

theorem splitAtSub_https (X : List Char) :
    splitAtSub "://".toList ("https://".toList ++ X) = some ("https".toList, X) := rfl

theorem takeWhile_append_stop (p : Char → Bool) (xs : List Char) (y : Char)
    (ys : List Char) (hx : ∀ c ∈ xs, p c = true) (hy : p y = false) :
    (xs ++ y :: ys).takeWhile p = xs := by
  induction xs with
  | nil => simp [List.takeWhile_cons, hy]
  | cons c cs ih =>
    rw [List.cons_append, List.takeWhile_cons, if_pos (hx c (by simp)),
      ih (fun d hd => hx d (by simp [hd]))]

theorem urlPath_host (N P : List Char)
    (hN : ∀ c ∈ N, (c == '/') = false)
    (hP : ∀ c ∈ P, (!(c == '?') && !(c == '#')) = true) :
    urlPath ("https://".toList ++ (N ++ '/' :: P)) = '/' :: P := by
  unfold urlPath
  rw [splitAtSub_https]
  show ((N ++ '/' :: P).dropWhile fun c => !(c == '/')).takeWhile
    (fun c => !(c == '?') && !(c == '#')) = '/' :: P
  rw [dropWhile_all_append _ N ('/' :: P) (fun c hc => by simp [hN c hc])]
  rw [List.dropWhile_cons, if_neg (by simp)]
  refine takeWhile_all _ _ (fun c hc => ?_)
  rcases List.mem_cons.mp hc with rfl | h
  · decide
  · exact hP c h

theorem listPre_take (p : List Char) : ∀ (y : List Char) (n : Nat),
    listPre p y = true → p.length ≤ n → listPre p (y.take n) = true := by
  induction p with
  | nil => intro y n _ _; rfl
  | cons a as ih =>
    intro y n h hn
    cases y with
    | nil => simp [listPre] at h
    | cons b bs =>
      cases n with
      | zero => simp at hn
      | succ m =>
        simp only [List.take_succ_cons, listPre, Bool.and_eq_true] at h ⊢
        exact ⟨h.1, ih bs m h.2 (by simpa using hn)⟩

theorem listPre_append_take (p : List Char) : ∀ (x y : List Char) (n : Nat),
    listPre p (x ++ y) = true → p.length ≤ x.length + n →
    listPre p (x ++ y.take n) = true := by
  induction p with
  | nil => intro x y n _ _; rfl
  | cons a as ih =>
    intro x y n h hn
    cases x with
    | nil =>
      simpa using listPre_take (a :: as) y n (by simpa using h) (by simpa using hn)
    | cons b bs =>
      simp only [List.cons_append, listPre, Bool.and_eq_true] at h ⊢
      refine ⟨h.1, ih bs y n h.2 ?_⟩
      simp only [List.length_cons] at hn ⊢
      omega

theorem subRefsHeads_cons_no (c : Char) (rest : List Char)
    (hg : (c == '/' && listPre "refs/heads/".toList rest) = false) :
    subRefsHeads (c :: rest) = c :: subRefsHeads rest := by
  rw [subRefsHeads.eq_2,
    if_neg (by intro hh; rw [hg] at hh; exact Bool.false_ne_true hh)]

theorem subRefsHeads_eq_self (l : List Char)
    (h : hasSub "/refs/heads/".toList l = false) : subRefsHeads l = l := by
  induction l with
  | nil => rw [subRefsHeads.eq_1]
  | cons c rest ih =>
    simp only [hasSub, Bool.or_eq_false_iff] at h
    obtain ⟨h1, h2⟩ := h
    have hg : (c == '/' && listPre "refs/heads/".toList rest) = false := by
      cases hcc : c == '/' with
      | false => simp [hcc]
      | true =>
        have hc : c = '/' := by simpa using hcc
        cases hlp : listPre "refs/heads/".toList rest with
        | false => simp [hlp]
        | true =>
          exfalso
          have hpre : listPre "/refs/heads/".toList (c :: rest) = true := by
            subst hc
            simpa [listPre] using hlp
          rw [h1] at hpre
          exact Bool.false_ne_true hpre
    rw [subRefsHeads_cons_no c rest hg, ih h2]

theorem subRefsHeads_append (a b : List Char)
    (h : hasSub "/refs/heads/".toList (a ++ b.take 11) = false) :
    subRefsHeads (a ++ b) = a ++ subRefsHeads b := by
  induction a with
  | nil => rfl
  | cons c a' ih =>
    rw [List.cons_append] at h
    simp only [hasSub, Bool.or_eq_false_iff] at h
    obtain ⟨h1, h2⟩ := h
    have hg : (c == '/' && listPre "refs/heads/".toList (a' ++ b)) = false := by
      cases hcc : c == '/' with
      | false => simp [hcc]
      | true =>
        have hc : c = '/' := by simpa using hcc
        cases hlp : listPre "refs/heads/".toList (a' ++ b) with
        | false => simp [hlp]
        | true =>
          exfalso
          have hpre : listPre "/refs/heads/".toList (c :: (a' ++ b)) = true := by
            subst hc
            simpa [listPre] using hlp
          have hpre2 : listPre "/refs/heads/".toList
              ((c :: a') ++ b.take 11) = true := by
            have h12 : ("/refs/heads/".toList).length ≤ (c :: a').length + 11 := by
              simp
            exact listPre_append_take "/refs/heads/".toList (c :: a') b 11
              (by simpa using hpre) h12
          rw [List.cons_append] at hpre2
          rw [h1] at hpre2
          exact Bool.false_ne_true hpre2
    rw [List.cons_append, List.cons_append, subRefsHeads_cons_no c (a' ++ b) hg,
      ih h2]

theorem subRefsHeads_replace (bb Q : List Char) (hb : bb ≠ [])
    (hbs : ∀ c ∈ bb, (c == '/') = false) :
    subRefsHeads ('/' :: ("refs/heads/".toList ++ (bb ++ '/' :: Q))) =
      '/' :: (bb ++ '/' :: subRefsHeads Q) := by
  have hcond : (('/' : Char) == '/' &&
      listPre "refs/heads/".toList ("refs/heads/".toList ++ (bb ++ '/' :: Q)))
      = true := by
    simp only [beq_self_eq_true, Bool.true_and]
    exact listPre_self_append _ _
  rw [subRefsHeads.eq_2, if_pos hcond]
  have hdrop : ("refs/heads/".toList ++ (bb ++ '/' :: Q)).drop 11 =
      bb ++ '/' :: Q := by
    have h11 : (11 : Nat) = ("refs/heads/".toList).length := rfl
    rw [h11, List.drop_left]
  have htake : ((bb ++ '/' :: Q).takeWhile fun d => !(d == '/')) = bb :=
    takeWhile_append_stop _ bb '/' Q (fun c hc => by simp [hbs c hc]) (by simp)
  have hdropb : (bb ++ '/' :: Q).drop bb.length = '/' :: Q := List.drop_left bb _
  simp only [hdrop, htake, hdropb]
  rw [if_pos (by simp [listPre, hb])]
  simp

theorem compChars_not_slash : ∀ c ∈ compChars, (c == '/') = false := by decide

theorem compChars_not_qh : ∀ c ∈ compChars,
    (!(c == '?') && !(c == '#')) = true := by decide

theorem compChars_not_ws : ∀ c ∈ compChars, c.isWhitespace = false := by decide

theorem dot_not_compChar : ('.' : Char) ∉ compChars := by decide

theorem count_dot_zero (s : List Char) (hmem : ∀ c ∈ s, c ∈ compChars) :
    s.count '.' = 0 :=
  List.count_eq_zero.mpr (fun h => dot_not_compChar (hmem '.' h))

theorem lastQ_append (l₁ l₂ : List Char) (d : Char) (h : l₂.getLast? = some d) :
    (l₁ ++ l₂).getLast? = some d := by
  rw [List.getLast?_append, h]
  rfl

theorem lastGood (s : List Char) (hne : s ≠ [])
    (hmem : ∀ c ∈ s, c ∈ compChars) :
    ∃ d, s.getLast? = some d ∧ d ∈ compChars :=
  ⟨s.getLast hne, List.getLast?_eq_getLast_of_ne_nil hne,
    hmem _ (List.getLast_mem hne)⟩

/-- Both stripping passes of `translate_url` leave a URL alone when it
starts with `h` and ends with a component character. -/
theorem strip_noop (l : List Char) (h1 : l.head? = some 'h')
    (h2 : ∀ d, l.getLast? = some d → d ∈ compChars) :
    pyRstrip '/' (pyStripWs l) = l := by
  rw [pyStripWs_eq_self l
    (fun c hc => by rw [h1] at hc; injection hc with h; rw [← h]; decide)
    (fun c hc => compChars_not_ws c (h2 c hc))]
  exact pyRstrip_eq_self '/' l (fun c hc => compChars_not_slash c (h2 c hc))

/-- URL path extraction and splitting for a `https://<host>/<P>` address:
the path components are those of `P`. -/
theorem host_path_parts (N P : List Char) (hN : ∀ c ∈ N, (c == '/') = false)
    (hP : ∀ c ∈ P, (!(c == '?') && !(c == '#')) = true)
    (hHead : ∀ d, P.head? = some d → (d == '/') = false) :
    pySplit '/' (pyLstrip '/' (urlPath ("https://".toList ++ (N ++ '/' :: P))))
      = pySplit '/' P := by
  rw [urlPath_host N P hN hP]
  unfold pyLstrip
  rw [List.dropWhile_cons, if_pos (by simp), dropWhile_head_not _ _ hHead]

theorem headGoodAppend (s X : List Char) (hne : s ≠ [])
    (hmem : ∀ c ∈ s, c ∈ compChars) :
    ∀ d, (s ++ X).head? = some d → (d == '/') = false := by
  cases s with
  | nil => exact absurd rfl hne
  | cons c cs =>
    intro d hd
    simp only [List.cons_append, List.head?_cons, Option.some.injEq] at hd
    rw [← hd]
    exact compChars_not_slash c (hmem c (by simp))

end PyStr

/-! ## Location-resolver computations for the accepted URL shapes -/

theorem listSuf_append_self (S X : List Char) :
    listSuf S (X ++ S) = true := by
  unfold PyStr.listSuf
  rw [List.reverse_append]
  exact PyStr.listPre_self_append _ _

theorem compChars_not_dot : ∀ c ∈ compChars, (c == '.') = false := by decide

theorem count_dot_zero' (s : List Char) (hmem : ∀ c ∈ s, (c == '.') = false) :
    s.count '.' = 0 :=
  List.count_eq_zero.mpr (fun h => by have := hmem '.' h; simp at this)

theorem lastQ_string_append (s t : String) (d : Char)
    (h : t.data.getLast? = some d) : (s ++ t).data.getLast? = some d := by
  rw [String.data_append]
  exact PyStr.lastQ_append _ _ _ h

/-- A character outside the pattern's first character lets `hasSub` skip. -/
theorem hasSub_dotg_append (a b : List Char)
    (ha : ∀ c ∈ a, (c == '.') = false)
    (hb : hasSub ['.', 'g'] b = false) :
    hasSub ['.', 'g'] (a ++ b) = false := by
  induction a with
  | nil => exact hb
  | cons c a' ih =>
    rw [List.cons_append]
    show (listPre ['.', 'g'] (c :: (a' ++ b)) || hasSub ['.', 'g'] (a' ++ b))
      = false
    have h1 : listPre ['.', 'g'] (c :: (a' ++ b)) = false := by
      show (('.' == c) && listPre ['g'] (a' ++ b)) = false
      cases h2 : ('.' == c) with
      | false => rw [Bool.false_and]
      | true =>
        exfalso
        have hc : c = '.' := by
          have h3 : ('.' : Char) = c := by simpa using h2
          exact h3.symm
        rw [hc] at ha
        have := ha '.' (by simp)
        simp at this
    rw [h1, Bool.false_or]
    exact ih (fun d hd => ha d (by simp [hd]))

theorem hasSub_dotg_skip (R : List Char) :
    hasSub ['.', 'g'] ('.' :: 'c' :: R) = hasSub ['.', 'g'] ('c' :: R) := by
  show (listPre ['.', 'g'] ('.' :: 'c' :: R) || hasSub ['.', 'g'] ('c' :: R))
    = hasSub ['.', 'g'] ('c' :: R)
  rw [show listPre ['.', 'g'] ('.' :: 'c' :: R) = false by
    show (('.' == '.') && (('g' == 'c') && listPre [] R)) = false
    rfl]
  rw [Bool.false_or]

/-- The raw host marker contains the two-character fragment `.g`; a string
with no such fragment cannot contain the marker. -/
theorem hasSub_raw_false_of_dotg (l : List Char)
    (h : hasSub ['.', 'g'] l = false) :
    hasSub "raw.githubusercontent.com".toList l = false := by
  cases hS : hasSub "raw.githubusercontent.com".toList l with
  | false => rfl
  | true =>
    exfalso
    obtain ⟨x, y, rfl⟩ := PyStr.hasSub_exists _ l hS
    have hg : hasSub ['.', 'g']
        (x ++ ("raw.githubusercontent.com".toList ++ y)) = true := by
      apply PyStr.hasSub_append_right
      show hasSub ['.', 'g']
        ("raw".toList ++ (['.', 'g'] ++ ("ithubusercontent.com".toList ++ y)))
        = true
      apply PyStr.hasSub_append_right
      exact PyStr.hasSub_of_listPre _ _ (PyStr.listPre_self_append ['.', 'g'] _)
    rw [h] at hg
    exact Bool.false_ne_true hg

/-- Reduction of `translate_url` on a two-component `github.com` path. -/
theorem translate_github_two (u : String) (o r : List Char)
    (hstrip : pyRstrip '/' (pyStripWs u.data) = u.data)
    (hnoraw : hasSub "raw.githubusercontent.com".toList u.data = false)
    (hgh : hasSub "github.com".toList u.data = true)
    (hparts : pySplit '/' (pyLstrip '/' (urlPath u.data)) = [o, r]) :
    CreateProxy.translate_url u =
      .ok ⟨CreateProxy.mkRawUrl o r "main".toList "SKILL.md".toList⟩
        ⟨o⟩ ⟨r⟩ "main" "SKILL.md" := by
  simp only [CreateProxy.translate_url]
  rw [hstrip, hnoraw, hgh, if_neg Bool.false_ne_true,
    if_neg (fun hh => hh rfl), hparts]

/-- Reduction of `translate_url` on a `github.com` path whose third
component is `tree`. -/
theorem translate_github_tree (u : String) (o r b : List Char)
    (rest3 : List (List Char))
    (hstrip : pyRstrip '/' (pyStripWs u.data) = u.data)
    (hnoraw : hasSub "raw.githubusercontent.com".toList u.data = false)
    (hgh : hasSub "github.com".toList u.data = true)
    (hparts : pySplit '/' (pyLstrip '/' (urlPath u.data)) =
      o :: r :: "tree".toList :: b :: rest3) :
    CreateProxy.translate_url u =
      .ok ⟨CreateProxy.mkRawUrl o r b
          (if rest3.length > 0 then
            pyRstrip '/' (joinSep '/' rest3) ++ "/SKILL.md".toList
          else "SKILL.md".toList)⟩
        ⟨o⟩ ⟨r⟩ ⟨b⟩
        ⟨if rest3.length > 0 then
            pyRstrip '/' (joinSep '/' rest3) ++ "/SKILL.md".toList
          else "SKILL.md".toList⟩ := by
  simp only [CreateProxy.translate_url]
  rw [hstrip, hnoraw, hgh, if_neg Bool.false_ne_true,
    if_neg (fun hh => hh rfl), hparts]
  dsimp only
  rw [if_pos rfl]

/-- Reduction of `translate_url` on a `github.com` path whose third
component is `blob` and whose joined trailing components end in
`SKILL.md`. -/
theorem translate_github_blob (u : String) (o r b : List Char)
    (rest3 : List (List Char))
    (hstrip : pyRstrip '/' (pyStripWs u.data) = u.data)
    (hnoraw : hasSub "raw.githubusercontent.com".toList u.data = false)
    (hgh : hasSub "github.com".toList u.data = true)
    (hparts : pySplit '/' (pyLstrip '/' (urlPath u.data)) =
      o :: r :: "blob".toList :: b :: rest3)
    (hsuf : listSuf "SKILL.md".toList (joinSep '/' rest3) = true) :
    CreateProxy.translate_url u =
      .ok ⟨CreateProxy.mkRawUrl o r b (joinSep '/' rest3)⟩
        ⟨o⟩ ⟨r⟩ ⟨b⟩ ⟨joinSep '/' rest3⟩ := by
  simp only [CreateProxy.translate_url]
  rw [hstrip, hnoraw, hgh, if_neg Bool.false_ne_true,
    if_neg (fun hh => hh rfl), hparts]
  dsimp only
  rw [if_neg (by decide), if_pos rfl]
  rw [hsuf, if_neg (fun hh => hh rfl)]

/-- Reduction of `translate_url` on a raw-content URL whose (possibly
`refs/heads`-normalized) path splits into owner, repo, branch and a tail
whose artifact path ends in `SKILL.md`. -/
theorem translate_raw_reduce (u : String) (w : List Char) (o r b : List Char)
    (rest : List (List Char))
    (hstrip : pyRstrip '/' (pyStripWs u.data) = u.data)
    (hisraw : hasSub "raw.githubusercontent.com".toList u.data = true)
    (hsr : subRefsHeads u.data = w)
    (hparts : pySplit '/' (pyLstrip '/' (urlPath w)) = o :: r :: b :: rest)
    (hsuf : listSuf "SKILL.md".toList
      (if rest.length > 0 then joinSep '/' rest
        else "SKILL.md".toList) = true) :
    CreateProxy.translate_url u =
      .ok ⟨CreateProxy.mkRawUrl o r b
          (if rest.length > 0 then joinSep '/' rest else "SKILL.md".toList)⟩
        ⟨o⟩ ⟨r⟩ ⟨b⟩
        ⟨if rest.length > 0 then joinSep '/' rest else "SKILL.md".toList⟩ := by
  simp only [CreateProxy.translate_url]
  rw [hstrip, hisraw, if_pos rfl, hsr, hparts]
  dsimp only
  rw [hsuf, if_neg (fun hh => hh rfl)]

/-- Resolver on a bare collection root `https://github.com/{o}/{r}`:
owner `o`, repo `r`, default branch `main`, artifact path `SKILL.md`. -/
theorem translate_bare_root (o r : String)
    (ho1 : o.data ≠ []) (ho2 : ∀ c ∈ o.data, c ∈ compChars)
    (hr1 : r.data ≠ []) (hr2 : ∀ c ∈ r.data, c ∈ compChars) :
    CreateProxy.translate_url ("https://github.com/" ++ o ++ "/" ++ r) =
      .ok ("https://raw.githubusercontent.com/" ++ o ++ "/" ++ r
        ++ "/main/SKILL.md") o r "main" "SKILL.md" := by
  obtain ⟨dr, hdr, hdrC⟩ := PyStr.lastGood r.data hr1 hr2
  have hdataA : ("https://github.com/" ++ o ++ "/" ++ r).data =
      "https://github.com/".toList ++ (o.data ++ '/' :: r.data) := by
    simp only [String.data_append, List.append_assoc]
    rfl
  have hlastA : ("https://github.com/" ++ o ++ "/" ++ r).data.getLast? =
      some dr := by
    rw [hdataA]
    exact PyStr.lastQ_append _ _ _ (PyStr.lastQ_append o.data _ _
      (PyStr.lastQ_append ['/'] r.data dr hdr))
  have hstrip : pyRstrip '/' (pyStripWs ("https://github.com/" ++ o ++ "/"
      ++ r).data) = ("https://github.com/" ++ o ++ "/" ++ r).data := by
    refine PyStr.strip_noop _ (by rw [hdataA]; rfl) (fun d hd => ?_)
    rw [hlastA] at hd
    injection hd with h
    rw [← h]
    exact hdrC
  have hnoraw : hasSub "raw.githubusercontent.com".toList
      ("https://github.com/" ++ o ++ "/" ++ r).data = false := by
    apply PyStr.hasSub_false_of_count_lt '.'
    rw [hdataA, List.count_append, List.count_append]
    rw [count_dot_zero o.data ho2]
    have hcr : List.count '.' ('/' :: r.data) = 0 := by
      rw [show ('/' :: r.data) = ['/'] ++ r.data from rfl, List.count_append,
        count_dot_zero r.data hr2]
      rfl
    rw [hcr]
    decide
  have hgh : hasSub "github.com".toList
      ("https://github.com/" ++ o ++ "/" ++ r).data = true := by
    rw [hdataA]
    exact PyStr.hasSub_append_right _ "https://".toList _
      (PyStr.hasSub_of_listPre _ _ (PyStr.listPre_self_append
        "github.com".toList ('/' :: (o.data ++ '/' :: r.data))))
  have hparts : pySplit '/' (pyLstrip '/' (urlPath
      ("https://github.com/".toList ++ (o.data ++ '/' :: r.data)))) =
      [o.data, r.data] := by
    have hqh : ∀ c ∈ o.data ++ '/' :: r.data,
        (!(c == '?') && !(c == '#')) = true := by
      intro c hc
      rcases List.mem_append.mp hc with h | h
      · exact PyStr.compChars_not_qh c (ho2 c h)
      · rcases List.mem_cons.mp h with rfl | h
        · decide
        · exact PyStr.compChars_not_qh c (hr2 c h)
    have h0 := PyStr.host_path_parts "github.com".toList
      (o.data ++ '/' :: r.data) (by decide) hqh
      (PyStr.headGoodAppend o.data ('/' :: r.data) ho1 ho2)
    rw [show (pySplit '/' (pyLstrip '/' (urlPath ("https://github.com/".toList
        ++ (o.data ++ '/' :: r.data))))) = pySplit '/' (pyLstrip '/' (urlPath
        ("https://".toList ++ ("github.com".toList ++ '/' ::
          (o.data ++ '/' :: r.data))))) from rfl, h0]
    rw [pySplit_append '/' o.data r.data,
      pySplit_no_sep '/' o.data (fun c hc => PyStr.compChars_not_slash c (ho2 c hc)),
      pySplit_no_sep '/' r.data (fun c hc => PyStr.compChars_not_slash c (hr2 c hc))]
    rfl
  have hrawA : (⟨CreateProxy.mkRawUrl o.data r.data "main".toList
      "SKILL.md".toList⟩ : String) =
      "https://raw.githubusercontent.com/" ++ o ++ "/" ++ r
        ++ "/main/SKILL.md" := by
    apply String.ext
    show CreateProxy.mkRawUrl o.data r.data "main".toList "SKILL.md".toList = _
    simp only [CreateProxy.mkRawUrl, String.data_append, List.append_assoc]
    rfl
  simp only [CreateProxy.translate_url]
  rw [hstrip, hnoraw, hgh, if_neg Bool.false_ne_true,
    if_neg (fun hh => hh rfl), hdataA, hparts]
  rw [← hrawA]

/-- Resolver on a branch-qualified root `https://github.com/{o}/{r}/tree/{b}`:
owner `o`, repo `r`, branch `b`, artifact path `SKILL.md`. -/
theorem translate_tree_root (o r b : String)
    (ho1 : o.data ≠ []) (ho2 : ∀ c ∈ o.data, c ∈ compChars)
    (hr1 : r.data ≠ []) (hr2 : ∀ c ∈ r.data, c ∈ compChars)
    (hb1 : b.data ≠ []) (hb2 : ∀ c ∈ b.data, c ∈ compChars) :
    CreateProxy.translate_url
        ("https://github.com/" ++ o ++ "/" ++ r ++ "/tree/" ++ b) =
      .ok ("https://raw.githubusercontent.com/" ++ o ++ "/" ++ r
        ++ "/" ++ b ++ "/SKILL.md") o r b "SKILL.md" := by
  obtain ⟨db, hdb, hdbC⟩ := PyStr.lastGood b.data hb1 hb2
  have hdataA : ("https://github.com/" ++ o ++ "/" ++ r ++ "/tree/" ++ b).data =
      "https://github.com/".toList ++
        (o.data ++ ('/' :: (r.data ++ ('/' ::
          ("tree".toList ++ ('/' :: b.data)))))) := by
    simp only [String.data_append, List.append_assoc]
    rfl
  have hlastA : ("https://github.com/" ++ o ++ "/" ++ r ++ "/tree/"
      ++ b).data.getLast? = some db :=
    lastQ_string_append _ b db hdb
  have hstrip : pyRstrip '/' (pyStripWs ("https://github.com/" ++ o ++ "/"
      ++ r ++ "/tree/" ++ b).data) =
      ("https://github.com/" ++ o ++ "/" ++ r ++ "/tree/" ++ b).data := by
    refine PyStr.strip_noop _ (by rw [hdataA]; rfl) (fun d hd => ?_)
    rw [hlastA] at hd
    injection hd with h
    rw [← h]
    exact hdbC
  have hPdot : ∀ c ∈ o.data ++ ('/' :: (r.data ++ ('/' ::
      ("tree".toList ++ ('/' :: b.data))))), (c == '.') = false := by
    intro c hc
    simp only [List.mem_append, List.mem_cons] at hc
    rcases hc with h | h | h | h | h | h | h
    · exact compChars_not_dot c (ho2 c h)
    · rw [h]; rfl
    · exact compChars_not_dot c (hr2 c h)
    · rw [h]; rfl
    · revert h; revert c; decide
    · rw [h]; rfl
    · exact compChars_not_dot c (hb2 c h)
  have hnoraw : hasSub "raw.githubusercontent.com".toList
      ("https://github.com/" ++ o ++ "/" ++ r ++ "/tree/" ++ b).data
      = false := by
    apply PyStr.hasSub_false_of_count_lt '.'
    rw [hdataA, List.count_append, count_dot_zero' _ hPdot]
    decide
  have hgh : hasSub "github.com".toList
      ("https://github.com/" ++ o ++ "/" ++ r ++ "/tree/" ++ b).data
      = true := by
    rw [hdataA]
    exact PyStr.hasSub_append_right _ "https://".toList _
      (PyStr.hasSub_of_listPre _ _ (PyStr.listPre_self_append
        "github.com".toList _))
  have hqh : ∀ c ∈ o.data ++ ('/' :: (r.data ++ ('/' ::
      ("tree".toList ++ ('/' :: b.data))))),
      (!(c == '?') && !(c == '#')) = true := by
    intro c hc
    simp only [List.mem_append, List.mem_cons] at hc
    rcases hc with h | h | h | h | h | h | h
    · exact PyStr.compChars_not_qh c (ho2 c h)
    · rw [h]; rfl
    · exact PyStr.compChars_not_qh c (hr2 c h)
    · rw [h]; rfl
    · revert h; revert c; decide
    · rw [h]; rfl
    · exact PyStr.compChars_not_qh c (hb2 c h)
  have hparts : pySplit '/' (pyLstrip '/' (urlPath
      ("https://github.com/".toList ++
        (o.data ++ ('/' :: (r.data ++ ('/' ::
          ("tree".toList ++ ('/' :: b.data))))))))) =
      o.data :: r.data :: "tree".toList :: b.data :: [] := by
    have h0 := PyStr.host_path_parts "github.com".toList
      (o.data ++ ('/' :: (r.data ++ ('/' ::
        ("tree".toList ++ ('/' :: b.data)))))) (by decide) hqh
      (PyStr.headGoodAppend o.data _ ho1 ho2)
    rw [show (pySplit '/' (pyLstrip '/' (urlPath ("https://github.com/".toList
        ++ (o.data ++ ('/' :: (r.data ++ ('/' ::
          ("tree".toList ++ ('/' :: b.data)))))))))) =
        pySplit '/' (pyLstrip '/' (urlPath
        ("https://".toList ++ ("github.com".toList ++ '/' ::
          (o.data ++ ('/' :: (r.data ++ ('/' ::
            ("tree".toList ++ ('/' :: b.data)))))))))) from rfl, h0]
    rw [pySplit_append '/' o.data _,
      pySplit_no_sep '/' o.data (fun c hc => PyStr.compChars_not_slash c (ho2 c hc)),
      pySplit_append '/' r.data _,
      pySplit_no_sep '/' r.data (fun c hc => PyStr.compChars_not_slash c (hr2 c hc)),
      pySplit_append '/' "tree".toList _,
      pySplit_no_sep '/' b.data (fun c hc => PyStr.compChars_not_slash c (hb2 c hc))]
    rfl
  have hrawA : (⟨CreateProxy.mkRawUrl o.data r.data b.data
      "SKILL.md".toList⟩ : String) =
      "https://raw.githubusercontent.com/" ++ o ++ "/" ++ r
        ++ "/" ++ b ++ "/SKILL.md" := by
    apply String.ext
    show CreateProxy.mkRawUrl o.data r.data b.data "SKILL.md".toList = _
    simp only [CreateProxy.mkRawUrl, String.data_append, List.append_assoc]
    rfl
  rw [translate_github_tree _ o.data r.data b.data [] hstrip hnoraw hgh
    (by rw [hdataA]; exact hparts)]
  rw [← hrawA]
  rfl

/-- Resolver on a branch-and-subpath root
`https://github.com/{o}/{r}/tree/{b}/{sub}`: owner `o`, repo `r`, branch
`b`, artifact path `{sub}/SKILL.md`. -/
theorem translate_tree_sub (o r b sub : String)
    (ho1 : o.data ≠ []) (ho2 : ∀ c ∈ o.data, c ∈ compChars)
    (hr1 : r.data ≠ []) (hr2 : ∀ c ∈ r.data, c ∈ compChars)
    (hb1 : b.data ≠ []) (hb2 : ∀ c ∈ b.data, c ∈ compChars)
    (hs1 : sub.data ≠ [])
    (hs2 : ∀ c ∈ sub.data, c = '/' ∨ c ∈ compChars)
    (hs3 : ∀ d, sub.data.getLast? = some d → d ∈ compChars) :
    CreateProxy.translate_url
        ("https://github.com/" ++ o ++ "/" ++ r ++ "/tree/" ++ b
          ++ "/" ++ sub) =
      .ok ("https://raw.githubusercontent.com/" ++ o ++ "/" ++ r
        ++ "/" ++ b ++ "/" ++ sub ++ "/SKILL.md") o r b
        (sub ++ "/SKILL.md") := by
  have hds : sub.data.getLast? = some (sub.data.getLast hs1) :=
    List.getLast?_eq_getLast_of_ne_nil hs1
  have hdsC : sub.data.getLast hs1 ∈ compChars := hs3 _ hds
  have hdataA : ("https://github.com/" ++ o ++ "/" ++ r ++ "/tree/" ++ b
      ++ "/" ++ sub).data =
      "https://github.com/".toList ++
        (o.data ++ ('/' :: (r.data ++ ('/' ::
          ("tree".toList ++ ('/' :: (b.data ++ ('/' :: sub.data)))))))) := by
    simp only [String.data_append, List.append_assoc]
    rfl
  have hlastA : ("https://github.com/" ++ o ++ "/" ++ r ++ "/tree/" ++ b
      ++ "/" ++ sub).data.getLast? = some (sub.data.getLast hs1) :=
    lastQ_string_append _ sub _ hds
  have hstrip : pyRstrip '/' (pyStripWs ("https://github.com/" ++ o ++ "/"
      ++ r ++ "/tree/" ++ b ++ "/" ++ sub).data) =
      ("https://github.com/" ++ o ++ "/" ++ r ++ "/tree/" ++ b
        ++ "/" ++ sub).data := by
    refine PyStr.strip_noop _ (by rw [hdataA]; rfl) (fun d hd => ?_)
    rw [hlastA] at hd
    injection hd with h
    rw [← h]
    exact hdsC
  have hPdot : ∀ c ∈ o.data ++ ('/' :: (r.data ++ ('/' ::
      ("tree".toList ++ ('/' :: (b.data ++ ('/' :: sub.data))))))),
      (c == '.') = false := by
    intro c hc
    simp only [List.mem_append, List.mem_cons] at hc
    rcases hc with h | h | h | h | h | h | h | h | h
    · exact compChars_not_dot c (ho2 c h)
    · rw [h]; rfl
    · exact compChars_not_dot c (hr2 c h)
    · rw [h]; rfl
    · revert h; revert c; decide
    · rw [h]; rfl
    · exact compChars_not_dot c (hb2 c h)
    · rw [h]; rfl
    · rcases hs2 c h with h' | h'
      · rw [h']; rfl
      · exact compChars_not_dot c h'
  have hnoraw : hasSub "raw.githubusercontent.com".toList
      ("https://github.com/" ++ o ++ "/" ++ r ++ "/tree/" ++ b
        ++ "/" ++ sub).data = false := by
    apply PyStr.hasSub_false_of_count_lt '.'
    rw [hdataA, List.count_append, count_dot_zero' _ hPdot]
    decide
  have hgh : hasSub "github.com".toList
      ("https://github.com/" ++ o ++ "/" ++ r ++ "/tree/" ++ b
        ++ "/" ++ sub).data = true := by
    rw [hdataA]
    exact PyStr.hasSub_append_right _ "https://".toList _
      (PyStr.hasSub_of_listPre _ _ (PyStr.listPre_self_append
        "github.com".toList _))
  have hqh : ∀ c ∈ o.data ++ ('/' :: (r.data ++ ('/' ::
      ("tree".toList ++ ('/' :: (b.data ++ ('/' :: sub.data))))))),
      (!(c == '?') && !(c == '#')) = true := by
    intro c hc
    simp only [List.mem_append, List.mem_cons] at hc
    rcases hc with h | h | h | h | h | h | h | h | h
    · exact PyStr.compChars_not_qh c (ho2 c h)
    · rw [h]; rfl
    · exact PyStr.compChars_not_qh c (hr2 c h)
    · rw [h]; rfl
    · revert h; revert c; decide
    · rw [h]; rfl
    · exact PyStr.compChars_not_qh c (hb2 c h)
    · rw [h]; rfl
    · rcases hs2 c h with h' | h'
      · rw [h']; rfl
      · exact PyStr.compChars_not_qh c h'
  have hparts : pySplit '/' (pyLstrip '/' (urlPath
      ("https://github.com/".toList ++
        (o.data ++ ('/' :: (r.data ++ ('/' ::
          ("tree".toList ++ ('/' :: (b.data ++ ('/' :: sub.data))))))))))) =
      o.data :: r.data :: "tree".toList :: b.data ::
        pySplit '/' sub.data := by
    have h0 := PyStr.host_path_parts "github.com".toList
      (o.data ++ ('/' :: (r.data ++ ('/' ::
        ("tree".toList ++ ('/' :: (b.data ++ ('/' :: sub.data))))))))
      (by decide) hqh
      (PyStr.headGoodAppend o.data _ ho1 ho2)
    rw [show (pySplit '/' (pyLstrip '/' (urlPath ("https://github.com/".toList
        ++ (o.data ++ ('/' :: (r.data ++ ('/' ::
          ("tree".toList ++ ('/' :: (b.data ++ ('/' :: sub.data)))))))))))) =
        pySplit '/' (pyLstrip '/' (urlPath
        ("https://".toList ++ ("github.com".toList ++ '/' ::
          (o.data ++ ('/' :: (r.data ++ ('/' ::
            ("tree".toList ++ ('/' :: (b.data ++ ('/' :: sub.data))))))))))))
        from rfl, h0]
    rw [pySplit_append '/' o.data _,
      pySplit_no_sep '/' o.data (fun c hc => PyStr.compChars_not_slash c (ho2 c hc)),
      pySplit_append '/' r.data _,
      pySplit_no_sep '/' r.data (fun c hc => PyStr.compChars_not_slash c (hr2 c hc)),
      pySplit_append '/' "tree".toList _,
      pySplit_append '/' b.data _,
      pySplit_no_sep '/' b.data (fun c hc => PyStr.compChars_not_slash c (hb2 c hc))]
    rfl
  have hlen : (pySplit '/' sub.data).length > 0 :=
    List.length_pos.mpr (pySplit_ne_nil '/' sub.data)
  have hrstrip : pyRstrip '/' sub.data = sub.data :=
    PyStr.pyRstrip_eq_self '/' sub.data (fun c hc => by
      rw [hds] at hc
      injection hc with h
      rw [← h]
      exact PyStr.compChars_not_slash _ hdsC)
  have hrawA : (⟨CreateProxy.mkRawUrl o.data r.data b.data
      (sub.data ++ "/SKILL.md".toList)⟩ : String) =
      "https://raw.githubusercontent.com/" ++ o ++ "/" ++ r
        ++ "/" ++ b ++ "/" ++ sub ++ "/SKILL.md" := by
    apply String.ext
    show CreateProxy.mkRawUrl o.data r.data b.data
      (sub.data ++ "/SKILL.md".toList) = _
    simp only [CreateProxy.mkRawUrl, String.data_append, List.append_assoc]
    rfl
  rw [translate_github_tree _ o.data r.data b.data (pySplit '/' sub.data)
    hstrip hnoraw hgh (by rw [hdataA]; exact hparts)]
  rw [if_pos hlen, PyStr.joinSep_pySplit '/' sub.data, hrstrip, ← hrawA]
  rfl

theorem hasSub_dotg_cons (c : Char) (b : List Char) (hc : (c == '.') = false)
    (hb : hasSub ['.', 'g'] b = false) : hasSub ['.', 'g'] (c :: b) = false := by
  have h := hasSub_dotg_append [c] b
    (fun d hd => by simp at hd; rw [hd]; exact hc) hb
  simpa using h

/-- Resolver on a direct artifact pointer
`https://github.com/{o}/{r}/blob/{b}/SKILL.md`: owner `o`, repo `r`,
branch `b`, artifact path `SKILL.md`. -/
theorem translate_blob_direct (o r b : String)
    (ho1 : o.data ≠ []) (ho2 : ∀ c ∈ o.data, c ∈ compChars)
    (hr1 : r.data ≠ []) (hr2 : ∀ c ∈ r.data, c ∈ compChars)
    (hb1 : b.data ≠ []) (hb2 : ∀ c ∈ b.data, c ∈ compChars) :
    CreateProxy.translate_url
        ("https://github.com/" ++ o ++ "/" ++ r ++ "/blob/" ++ b
          ++ "/SKILL.md") =
      .ok ("https://raw.githubusercontent.com/" ++ o ++ "/" ++ r
        ++ "/" ++ b ++ "/SKILL.md") o r b "SKILL.md" := by
  have hdataA : ("https://github.com/" ++ o ++ "/" ++ r ++ "/blob/" ++ b
      ++ "/SKILL.md").data =
      "https://github.com/".toList ++
        (o.data ++ ('/' :: (r.data ++ ('/' ::
          ("blob".toList ++ ('/' :: (b.data ++
            ('/' :: "SKILL.md".toList)))))))) := by
    simp only [String.data_append, List.append_assoc]
    rfl
  have hlastA : ("https://github.com/" ++ o ++ "/" ++ r ++ "/blob/" ++ b
      ++ "/SKILL.md").data.getLast? = some 'd' :=
    lastQ_string_append _ "/SKILL.md" 'd' (by decide)
  have hstrip : pyRstrip '/' (pyStripWs ("https://github.com/" ++ o ++ "/"
      ++ r ++ "/blob/" ++ b ++ "/SKILL.md").data) =
      ("https://github.com/" ++ o ++ "/" ++ r ++ "/blob/" ++ b
        ++ "/SKILL.md").data := by
    refine PyStr.strip_noop _ (by rw [hdataA]; rfl) (fun d hd => ?_)
    rw [hlastA] at hd
    injection hd with h
    rw [← h]
    decide
  have hnoraw : hasSub "raw.githubusercontent.com".toList
      ("https://github.com/" ++ o ++ "/" ++ r ++ "/blob/" ++ b
        ++ "/SKILL.md").data = false := by
    apply hasSub_raw_false_of_dotg
    rw [hdataA]
    show hasSub ['.', 'g'] ("https://github".toList ++ ('.' :: 'c' ::
      ("om/".toList ++ (o.data ++ ('/' :: (r.data ++ ('/' ::
        ("blob".toList ++ ('/' :: (b.data ++
          ('/' :: "SKILL.md".toList))))))))))) = false
    refine hasSub_dotg_append _ _ (by decide) ?_
    rw [hasSub_dotg_skip]
    show hasSub ['.', 'g'] ("com/".toList ++ (o.data ++ ('/' :: (r.data ++
      ('/' :: ("blob".toList ++ ('/' :: (b.data ++
        ('/' :: "SKILL.md".toList))))))))) = false
    refine hasSub_dotg_append _ _ (by decide) ?_
    refine hasSub_dotg_append _ _
      (fun c hc => compChars_not_dot c (ho2 c hc)) ?_
    refine hasSub_dotg_cons '/' _ rfl ?_
    refine hasSub_dotg_append _ _
      (fun c hc => compChars_not_dot c (hr2 c hc)) ?_
    refine hasSub_dotg_cons '/' _ rfl ?_
    refine hasSub_dotg_append _ _ (by decide) ?_
    refine hasSub_dotg_cons '/' _ rfl ?_
    refine hasSub_dotg_append _ _
      (fun c hc => compChars_not_dot c (hb2 c hc)) ?_
    refine hasSub_dotg_cons '/' _ rfl ?_
    decide
  have hgh : hasSub "github.com".toList
      ("https://github.com/" ++ o ++ "/" ++ r ++ "/blob/" ++ b
        ++ "/SKILL.md").data = true := by
    rw [hdataA]
    exact PyStr.hasSub_append_right _ "https://".toList _
      (PyStr.hasSub_of_listPre _ _ (PyStr.listPre_self_append
        "github.com".toList _))
  have hqh : ∀ c ∈ o.data ++ ('/' :: (r.data ++ ('/' ::
      ("blob".toList ++ ('/' :: (b.data ++ ('/' :: "SKILL.md".toList))))))),
      (!(c == '?') && !(c == '#')) = true := by
    intro c hc
    simp only [List.mem_append, List.mem_cons] at hc
    rcases hc with h | h | h | h | h | h | h | h | h
    · exact PyStr.compChars_not_qh c (ho2 c h)
    · rw [h]; rfl
    · exact PyStr.compChars_not_qh c (hr2 c h)
    · rw [h]; rfl
    · revert h; revert c; decide
    · rw [h]; rfl
    · exact PyStr.compChars_not_qh c (hb2 c h)
    · rw [h]; rfl
    · revert h; revert c; decide
  have hparts :
      pySplit '/' (pyLstrip '/' (urlPath ("https://github.com/".toList ++ (o.data ++ ('/' :: (r.data ++ ('/' :: ("blob".toList ++ ('/' :: (b.data ++ ('/' :: "SKILL.md".toList))))))))))) =
      o.data :: r.data :: "blob".toList :: b.data ::
        ["SKILL.md".toList] := by
    have h0 := PyStr.host_path_parts "github.com".toList
      (o.data ++ ('/' :: (r.data ++ ('/' :: ("blob".toList ++ ('/' :: (b.data ++ ('/' :: "SKILL.md".toList))))))))
      (by decide) hqh
      (PyStr.headGoodAppend o.data _ ho1 ho2)
    rw [show (pySplit '/' (pyLstrip '/' (urlPath ("https://github.com/".toList ++ (o.data ++ ('/' :: (r.data ++ ('/' :: ("blob".toList ++ ('/' :: (b.data ++ ('/' :: "SKILL.md".toList)))))))))))) =
        (pySplit '/' (pyLstrip '/' (urlPath ("https://".toList ++ ("github.com".toList ++ '/' :: (o.data ++ ('/' :: (r.data ++ ('/' :: ("blob".toList ++ ('/' :: (b.data ++ ('/' :: "SKILL.md".toList))))))))))))) from rfl, h0]
    rw [pySplit_append '/' o.data _,
      pySplit_no_sep '/' o.data (fun c hc => PyStr.compChars_not_slash c (ho2 c hc)),
      pySplit_append '/' r.data _,
      pySplit_no_sep '/' r.data (fun c hc => PyStr.compChars_not_slash c (hr2 c hc)),
      pySplit_append '/' "blob".toList _,
      pySplit_append '/' b.data _,
      pySplit_no_sep '/' b.data (fun c hc => PyStr.compChars_not_slash c (hb2 c hc))]
    rfl
  have hrawA : (⟨CreateProxy.mkRawUrl o.data r.data b.data
      (joinSep '/' ["SKILL.md".toList])⟩ : String) =
      "https://raw.githubusercontent.com/" ++ o ++ "/" ++ r
        ++ "/" ++ b ++ "/SKILL.md" := by
    apply String.ext
    show CreateProxy.mkRawUrl o.data r.data b.data
      (joinSep '/' ["SKILL.md".toList]) = _
    simp only [CreateProxy.mkRawUrl, String.data_append, List.append_assoc]
    rfl
  rw [translate_github_blob _ o.data r.data b.data ["SKILL.md".toList]
    hstrip hnoraw hgh (by rw [hdataA]; exact hparts) (by decide)]
  rw [hrawA]
  rfl

/-- Resolver on a subpath-qualified artifact pointer
`https://github.com/{o}/{r}/blob/{b}/{sub}/SKILL.md`: owner `o`, repo `r`,
branch `b`, artifact path `{sub}/SKILL.md`. -/
theorem translate_blob_sub (o r b sub : String)
    (ho1 : o.data ≠ []) (ho2 : ∀ c ∈ o.data, c ∈ compChars)
    (hr1 : r.data ≠ []) (hr2 : ∀ c ∈ r.data, c ∈ compChars)
    (hb1 : b.data ≠ []) (hb2 : ∀ c ∈ b.data, c ∈ compChars)
    (hs2 : ∀ c ∈ sub.data, c = '/' ∨ c ∈ compChars) :
    CreateProxy.translate_url
        ("https://github.com/" ++ o ++ "/" ++ r ++ "/blob/" ++ b
          ++ "/" ++ sub ++ "/SKILL.md") =
      .ok ("https://raw.githubusercontent.com/" ++ o ++ "/" ++ r
        ++ "/" ++ b ++ "/" ++ sub ++ "/SKILL.md") o r b
        (sub ++ "/SKILL.md") := by
  have hdataA : ("https://github.com/" ++ o ++ "/" ++ r ++ "/blob/" ++ b
      ++ "/" ++ sub ++ "/SKILL.md").data =
      "https://github.com/".toList ++
        (o.data ++ ('/' :: (r.data ++ ('/' ::
          ("blob".toList ++ ('/' :: (b.data ++ ('/' ::
            (sub.data ++ ('/' :: "SKILL.md".toList)))))))))) := by
    simp only [String.data_append, List.append_assoc]
    rfl
  have hlastA : ("https://github.com/" ++ o ++ "/" ++ r ++ "/blob/" ++ b
      ++ "/" ++ sub ++ "/SKILL.md").data.getLast? = some 'd' :=
    lastQ_string_append _ "/SKILL.md" 'd' (by decide)
  have hstrip : pyRstrip '/' (pyStripWs ("https://github.com/" ++ o ++ "/"
      ++ r ++ "/blob/" ++ b ++ "/" ++ sub ++ "/SKILL.md").data) =
      ("https://github.com/" ++ o ++ "/" ++ r ++ "/blob/" ++ b
        ++ "/" ++ sub ++ "/SKILL.md").data := by
    refine PyStr.strip_noop _ (by rw [hdataA]; rfl) (fun d hd => ?_)
    rw [hlastA] at hd
    injection hd with h
    rw [← h]
    decide
  have hsubdot : ∀ c ∈ sub.data, (c == '.') = false := by
    intro c hc
    rcases hs2 c hc with h' | h'
    · rw [h']; rfl
    · exact compChars_not_dot c h'
  have hnoraw : hasSub "raw.githubusercontent.com".toList
      ("https://github.com/" ++ o ++ "/" ++ r ++ "/blob/" ++ b
        ++ "/" ++ sub ++ "/SKILL.md").data = false := by
    apply hasSub_raw_false_of_dotg
    rw [hdataA]
    show hasSub ['.', 'g'] ("https://github".toList ++ ('.' :: 'c' ::
      ("om/".toList ++ (o.data ++ ('/' :: (r.data ++ ('/' ::
        ("blob".toList ++ ('/' :: (b.data ++ ('/' ::
          (sub.data ++ ('/' :: "SKILL.md".toList))))))))))))) = false
    refine hasSub_dotg_append _ _ (by decide) ?_
    rw [hasSub_dotg_skip]
    show hasSub ['.', 'g'] ("com/".toList ++ (o.data ++ ('/' :: (r.data ++
      ('/' :: ("blob".toList ++ ('/' :: (b.data ++ ('/' ::
        (sub.data ++ ('/' :: "SKILL.md".toList))))))))))) = false
    refine hasSub_dotg_append _ _ (by decide) ?_
    refine hasSub_dotg_append _ _
      (fun c hc => compChars_not_dot c (ho2 c hc)) ?_
    refine hasSub_dotg_cons '/' _ rfl ?_
    refine hasSub_dotg_append _ _
      (fun c hc => compChars_not_dot c (hr2 c hc)) ?_
    refine hasSub_dotg_cons '/' _ rfl ?_
    refine hasSub_dotg_append _ _ (by decide) ?_
    refine hasSub_dotg_cons '/' _ rfl ?_
    refine hasSub_dotg_append _ _
      (fun c hc => compChars_not_dot c (hb2 c hc)) ?_
    refine hasSub_dotg_cons '/' _ rfl ?_
    refine hasSub_dotg_append _ _ hsubdot ?_
    refine hasSub_dotg_cons '/' _ rfl ?_
    decide
  have hgh : hasSub "github.com".toList
      ("https://github.com/" ++ o ++ "/" ++ r ++ "/blob/" ++ b
        ++ "/" ++ sub ++ "/SKILL.md").data = true := by
    rw [hdataA]
    exact PyStr.hasSub_append_right _ "https://".toList _
      (PyStr.hasSub_of_listPre _ _ (PyStr.listPre_self_append
        "github.com".toList _))
  have hqh : ∀ c ∈ o.data ++ ('/' :: (r.data ++ ('/' ::
      ("blob".toList ++ ('/' :: (b.data ++ ('/' ::
        (sub.data ++ ('/' :: "SKILL.md".toList))))))))),
      (!(c == '?') && !(c == '#')) = true := by
    intro c hc
    simp only [List.mem_append, List.mem_cons] at hc
    rcases hc with h | h | h | h | h | h | h | h | h | h | h
    · exact PyStr.compChars_not_qh c (ho2 c h)
    · rw [h]; rfl
    · exact PyStr.compChars_not_qh c (hr2 c h)
    · rw [h]; rfl
    · revert h; revert c; decide
    · rw [h]; rfl
    · exact PyStr.compChars_not_qh c (hb2 c h)
    · rw [h]; rfl
    · rcases hs2 c h with h' | h'
      · rw [h']; rfl
      · exact PyStr.compChars_not_qh c h'
    · rw [h]; rfl
    · revert h; revert c; decide
  have hparts :
      pySplit '/' (pyLstrip '/' (urlPath ("https://github.com/".toList ++ (o.data ++ ('/' :: (r.data ++ ('/' :: ("blob".toList ++ ('/' :: (b.data ++ ('/' :: (sub.data ++ ('/' :: "SKILL.md".toList))))))))))))) =
      o.data :: r.data :: "blob".toList :: b.data ::
        pySplit '/' (sub.data ++ ('/' :: "SKILL.md".toList)) := by
    have h0 := PyStr.host_path_parts "github.com".toList
      (o.data ++ ('/' :: (r.data ++ ('/' :: ("blob".toList ++ ('/' :: (b.data ++ ('/' :: (sub.data ++ ('/' :: "SKILL.md".toList))))))))))
      (by decide) hqh
      (PyStr.headGoodAppend o.data _ ho1 ho2)
    rw [show (pySplit '/' (pyLstrip '/' (urlPath ("https://github.com/".toList ++ (o.data ++ ('/' :: (r.data ++ ('/' :: ("blob".toList ++ ('/' :: (b.data ++ ('/' :: (sub.data ++ ('/' :: "SKILL.md".toList)))))))))))))) =
        (pySplit '/' (pyLstrip '/' (urlPath ("https://".toList ++ ("github.com".toList ++ '/' :: (o.data ++ ('/' :: (r.data ++ ('/' :: ("blob".toList ++ ('/' :: (b.data ++ ('/' :: (sub.data ++ ('/' :: "SKILL.md".toList))))))))))))))) from rfl, h0]
    rw [pySplit_append '/' o.data _,
      pySplit_no_sep '/' o.data (fun c hc => PyStr.compChars_not_slash c (ho2 c hc)),
      pySplit_append '/' r.data _,
      pySplit_no_sep '/' r.data (fun c hc => PyStr.compChars_not_slash c (hr2 c hc)),
      pySplit_append '/' "blob".toList _,
      pySplit_append '/' b.data _,
      pySplit_no_sep '/' b.data (fun c hc => PyStr.compChars_not_slash c (hb2 c hc))]
    rfl
  have hsuf : listSuf "SKILL.md".toList
      (joinSep '/' (pySplit '/' (sub.data ++ ('/' :: "SKILL.md".toList))))
      = true := by
    rw [PyStr.joinSep_pySplit '/']
    rw [show sub.data ++ ('/' :: "SKILL.md".toList) =
      (sub.data ++ ['/']) ++ "SKILL.md".toList by
        rw [List.append_assoc]; rfl]
    exact listSuf_append_self _ _
  have hrawA : (⟨CreateProxy.mkRawUrl o.data r.data b.data
      (sub.data ++ ('/' :: "SKILL.md".toList))⟩ : String) =
      "https://raw.githubusercontent.com/" ++ o ++ "/" ++ r
        ++ "/" ++ b ++ "/" ++ sub ++ "/SKILL.md" := by
    apply String.ext
    show CreateProxy.mkRawUrl o.data r.data b.data
      (sub.data ++ ('/' :: "SKILL.md".toList)) = _
    simp only [CreateProxy.mkRawUrl, String.data_append, List.append_assoc]
    rfl
  rw [translate_github_blob _ o.data r.data b.data
    (pySplit '/' (sub.data ++ ('/' :: "SKILL.md".toList)))
    hstrip hnoraw hgh (by rw [hdataA]; exact hparts) hsuf]
  rw [PyStr.joinSep_pySplit '/', ← hrawA]
  rfl

/-- Resolver on the canonical raw form
`https://raw.githubusercontent.com/{o}/{r}/{b}/SKILL.md` (no mutable-ref
segment anywhere in the address): the URL is its own translation. -/
theorem translate_raw_plain (o r b : String)
    (ho1 : o.data ≠ []) (ho2 : ∀ c ∈ o.data, c ∈ compChars)
    (hr2 : ∀ c ∈ r.data, c ∈ compChars)
    (hb2 : ∀ c ∈ b.data, c ∈ compChars)
    (hnorh : hasSub "/refs/heads/".toList
      ("https://raw.githubusercontent.com/" ++ o ++ "/" ++ r ++ "/" ++ b
        ++ "/SKILL.md").data = false) :
    CreateProxy.translate_url
        ("https://raw.githubusercontent.com/" ++ o ++ "/" ++ r ++ "/" ++ b
          ++ "/SKILL.md") =
      .ok ("https://raw.githubusercontent.com/" ++ o ++ "/" ++ r ++ "/" ++ b
        ++ "/SKILL.md") o r b "SKILL.md" := by
  have hdataA : ("https://raw.githubusercontent.com/" ++ o ++ "/" ++ r
      ++ "/" ++ b ++ "/SKILL.md").data =
      "https://raw.githubusercontent.com/".toList ++
        (o.data ++ ('/' :: (r.data ++ ('/' :: (b.data ++
          ('/' :: "SKILL.md".toList)))))) := by
    simp only [String.data_append, List.append_assoc]
    rfl
  have hlastA : ("https://raw.githubusercontent.com/" ++ o ++ "/" ++ r
      ++ "/" ++ b ++ "/SKILL.md").data.getLast? = some 'd' :=
    lastQ_string_append _ "/SKILL.md" 'd' (by decide)
  have hstrip : pyRstrip '/' (pyStripWs ("https://raw.githubusercontent.com/"
      ++ o ++ "/" ++ r ++ "/" ++ b ++ "/SKILL.md").data) =
      ("https://raw.githubusercontent.com/" ++ o ++ "/" ++ r ++ "/" ++ b
        ++ "/SKILL.md").data := by
    refine PyStr.strip_noop _ (by rw [hdataA]; rfl) (fun d hd => ?_)
    rw [hlastA] at hd
    injection hd with h
    rw [← h]
    decide
  have hisraw : hasSub "raw.githubusercontent.com".toList
      ("https://raw.githubusercontent.com/" ++ o ++ "/" ++ r ++ "/" ++ b
        ++ "/SKILL.md").data = true := by
    rw [hdataA]
    exact PyStr.hasSub_append_right _ "https://".toList _
      (PyStr.hasSub_of_listPre _ _ (PyStr.listPre_self_append
        "raw.githubusercontent.com".toList _))
  have hqh : ∀ c ∈ o.data ++ ('/' :: (r.data ++ ('/' :: (b.data ++
      ('/' :: "SKILL.md".toList))))),
      (!(c == '?') && !(c == '#')) = true := by
    intro c hc
    simp only [List.mem_append, List.mem_cons] at hc
    rcases hc with h | h | h | h | h | h | h
    · exact PyStr.compChars_not_qh c (ho2 c h)
    · rw [h]; rfl
    · exact PyStr.compChars_not_qh c (hr2 c h)
    · rw [h]; rfl
    · exact PyStr.compChars_not_qh c (hb2 c h)
    · rw [h]; rfl
    · revert h; revert c; decide
  have hparts :
      pySplit '/' (pyLstrip '/' (urlPath
        ("https://raw.githubusercontent.com/".toList ++
          (o.data ++ ('/' :: (r.data ++ ('/' :: (b.data ++
            ('/' :: "SKILL.md".toList))))))))) =
      o.data :: r.data :: b.data :: ["SKILL.md".toList] := by
    have h0 := PyStr.host_path_parts "raw.githubusercontent.com".toList
      (o.data ++ ('/' :: (r.data ++ ('/' :: (b.data ++
        ('/' :: "SKILL.md".toList))))))
      (by decide) hqh
      (PyStr.headGoodAppend o.data _ ho1 ho2)
    rw [show (pySplit '/' (pyLstrip '/' (urlPath
        ("https://raw.githubusercontent.com/".toList ++
          (o.data ++ ('/' :: (r.data ++ ('/' :: (b.data ++
            ('/' :: "SKILL.md".toList)))))))))) =
        (pySplit '/' (pyLstrip '/' (urlPath
        ("https://".toList ++ ("raw.githubusercontent.com".toList ++ '/' ::
          (o.data ++ ('/' :: (r.data ++ ('/' :: (b.data ++
            ('/' :: "SKILL.md".toList))))))))))) from rfl, h0]
    rw [pySplit_append '/' o.data _,
      pySplit_no_sep '/' o.data (fun c hc => PyStr.compChars_not_slash c (ho2 c hc)),
      pySplit_append '/' r.data _,
      pySplit_no_sep '/' r.data (fun c hc => PyStr.compChars_not_slash c (hr2 c hc)),
      pySplit_append '/' b.data _,
      pySplit_no_sep '/' b.data (fun c hc => PyStr.compChars_not_slash c (hb2 c hc))]
    rfl
  have hsr : subRefsHeads ("https://raw.githubusercontent.com/" ++ o ++ "/"
      ++ r ++ "/" ++ b ++ "/SKILL.md").data =
      "https://raw.githubusercontent.com/".toList ++
        (o.data ++ ('/' :: (r.data ++ ('/' :: (b.data ++
          ('/' :: "SKILL.md".toList)))))) := by
    rw [PyStr.subRefsHeads_eq_self _ hnorh]
    exact hdataA
  have hrawA : (⟨CreateProxy.mkRawUrl o.data r.data b.data
      "SKILL.md".toList⟩ : String) =
      "https://raw.githubusercontent.com/" ++ o ++ "/" ++ r ++ "/" ++ b
        ++ "/SKILL.md" := by
    apply String.ext
    show CreateProxy.mkRawUrl o.data r.data b.data "SKILL.md".toList = _
    simp only [CreateProxy.mkRawUrl, String.data_append, List.append_assoc]
    rfl
  rw [translate_raw_reduce _ _ o.data r.data b.data ["SKILL.md".toList]
    hstrip hisraw hsr hparts (by decide)]
  rw [← hrawA]
  rfl

/-- Resolver on the canonical raw form with a subpath
`https://raw.githubusercontent.com/{o}/{r}/{b}/{sub}/SKILL.md` (no
mutable-ref segment anywhere in the address). -/
theorem translate_raw_sub (o r b sub : String)
    (ho1 : o.data ≠ []) (ho2 : ∀ c ∈ o.data, c ∈ compChars)
    (hr2 : ∀ c ∈ r.data, c ∈ compChars)
    (hb2 : ∀ c ∈ b.data, c ∈ compChars)
    (hs2 : ∀ c ∈ sub.data, c = '/' ∨ c ∈ compChars)
    (hnorh : hasSub "/refs/heads/".toList
      ("https://raw.githubusercontent.com/" ++ o ++ "/" ++ r ++ "/" ++ b
        ++ "/" ++ sub ++ "/SKILL.md").data = false) :
    CreateProxy.translate_url
        ("https://raw.githubusercontent.com/" ++ o ++ "/" ++ r ++ "/" ++ b
          ++ "/" ++ sub ++ "/SKILL.md") =
      .ok ("https://raw.githubusercontent.com/" ++ o ++ "/" ++ r ++ "/" ++ b
        ++ "/" ++ sub ++ "/SKILL.md") o r b (sub ++ "/SKILL.md") := by
  have hdataA : ("https://raw.githubusercontent.com/" ++ o ++ "/" ++ r
      ++ "/" ++ b ++ "/" ++ sub ++ "/SKILL.md").data =
      "https://raw.githubusercontent.com/".toList ++
        (o.data ++ ('/' :: (r.data ++ ('/' :: (b.data ++ ('/' ::
          (sub.data ++ ('/' :: "SKILL.md".toList)))))))) := by
    simp only [String.data_append, List.append_assoc]
    rfl
  have hlastA : ("https://raw.githubusercontent.com/" ++ o ++ "/" ++ r
      ++ "/" ++ b ++ "/" ++ sub ++ "/SKILL.md").data.getLast? = some 'd' :=
    lastQ_string_append _ "/SKILL.md" 'd' (by decide)
  have hstrip : pyRstrip '/' (pyStripWs ("https://raw.githubusercontent.com/"
      ++ o ++ "/" ++ r ++ "/" ++ b ++ "/" ++ sub ++ "/SKILL.md").data) =
      ("https://raw.githubusercontent.com/" ++ o ++ "/" ++ r ++ "/" ++ b
        ++ "/" ++ sub ++ "/SKILL.md").data := by
    refine PyStr.strip_noop _ (by rw [hdataA]; rfl) (fun d hd => ?_)
    rw [hlastA] at hd
    injection hd with h
    rw [← h]
    decide
  have hisraw : hasSub "raw.githubusercontent.com".toList
      ("https://raw.githubusercontent.com/" ++ o ++ "/" ++ r ++ "/" ++ b
        ++ "/" ++ sub ++ "/SKILL.md").data = true := by
    rw [hdataA]
    exact PyStr.hasSub_append_right _ "https://".toList _
      (PyStr.hasSub_of_listPre _ _ (PyStr.listPre_self_append
        "raw.githubusercontent.com".toList _))
  have hqh : ∀ c ∈ o.data ++ ('/' :: (r.data ++ ('/' :: (b.data ++ ('/' ::
      (sub.data ++ ('/' :: "SKILL.md".toList))))))),
      (!(c == '?') && !(c == '#')) = true := by
    intro c hc
    simp only [List.mem_append, List.mem_cons] at hc
    rcases hc with h | h | h | h | h | h | h | h | h
    · exact PyStr.compChars_not_qh c (ho2 c h)
    · rw [h]; rfl
    · exact PyStr.compChars_not_qh c (hr2 c h)
    · rw [h]; rfl
    · exact PyStr.compChars_not_qh c (hb2 c h)
    · rw [h]; rfl
    · rcases hs2 c h with h' | h'
      · rw [h']; rfl
      · exact PyStr.compChars_not_qh c h'
    · rw [h]; rfl
    · revert h; revert c; decide
  have hparts :
      pySplit '/' (pyLstrip '/' (urlPath
        ("https://raw.githubusercontent.com/".toList ++
          (o.data ++ ('/' :: (r.data ++ ('/' :: (b.data ++ ('/' ::
            (sub.data ++ ('/' :: "SKILL.md".toList))))))))))) =
      o.data :: r.data :: b.data ::
        pySplit '/' (sub.data ++ ('/' :: "SKILL.md".toList)) := by
    have h0 := PyStr.host_path_parts "raw.githubusercontent.com".toList
      (o.data ++ ('/' :: (r.data ++ ('/' :: (b.data ++ ('/' ::
        (sub.data ++ ('/' :: "SKILL.md".toList))))))))
      (by decide) hqh
      (PyStr.headGoodAppend o.data _ ho1 ho2)
    rw [show (pySplit '/' (pyLstrip '/' (urlPath
        ("https://raw.githubusercontent.com/".toList ++
          (o.data ++ ('/' :: (r.data ++ ('/' :: (b.data ++ ('/' ::
            (sub.data ++ ('/' :: "SKILL.md".toList)))))))))))) =
        (pySplit '/' (pyLstrip '/' (urlPath
        ("https://".toList ++ ("raw.githubusercontent.com".toList ++ '/' ::
          (o.data ++ ('/' :: (r.data ++ ('/' :: (b.data ++ ('/' ::
            (sub.data ++ ('/' :: "SKILL.md".toList)))))))))))))
        from rfl, h0]
    rw [pySplit_append '/' o.data _,
      pySplit_no_sep '/' o.data (fun c hc => PyStr.compChars_not_slash c (ho2 c hc)),
      pySplit_append '/' r.data _,
      pySplit_no_sep '/' r.data (fun c hc => PyStr.compChars_not_slash c (hr2 c hc)),
      pySplit_append '/' b.data _,
      pySplit_no_sep '/' b.data (fun c hc => PyStr.compChars_not_slash c (hb2 c hc))]
    rfl
  have hsr : subRefsHeads ("https://raw.githubusercontent.com/" ++ o ++ "/"
      ++ r ++ "/" ++ b ++ "/" ++ sub ++ "/SKILL.md").data =
      "https://raw.githubusercontent.com/".toList ++
        (o.data ++ ('/' :: (r.data ++ ('/' :: (b.data ++ ('/' ::
          (sub.data ++ ('/' :: "SKILL.md".toList)))))))) := by
    rw [PyStr.subRefsHeads_eq_self _ hnorh]
    exact hdataA
  have hlen : (pySplit '/' (sub.data ++ ('/' :: "SKILL.md".toList))).length
      > 0 :=
    List.length_pos.mpr (pySplit_ne_nil '/' _)
  have hsuf : listSuf "SKILL.md".toList
      (if (pySplit '/' (sub.data ++ ('/' :: "SKILL.md".toList))).length > 0
        then joinSep '/' (pySplit '/' (sub.data ++ ('/' :: "SKILL.md".toList)))
        else "SKILL.md".toList) = true := by
    rw [if_pos hlen, PyStr.joinSep_pySplit '/']
    rw [show sub.data ++ ('/' :: "SKILL.md".toList) =
      (sub.data ++ ['/']) ++ "SKILL.md".toList by
        rw [List.append_assoc]; rfl]
    exact listSuf_append_self _ _
  have hrawA : (⟨CreateProxy.mkRawUrl o.data r.data b.data
      (sub.data ++ ('/' :: "SKILL.md".toList))⟩ : String) =
      "https://raw.githubusercontent.com/" ++ o ++ "/" ++ r ++ "/" ++ b
        ++ "/" ++ sub ++ "/SKILL.md" := by
    apply String.ext
    show CreateProxy.mkRawUrl o.data r.data b.data
      (sub.data ++ ('/' :: "SKILL.md".toList)) = _
    simp only [CreateProxy.mkRawUrl, String.data_append, List.append_assoc]
    rfl
  rw [translate_raw_reduce _ _ o.data r.data b.data
    (pySplit '/' (sub.data ++ ('/' :: "SKILL.md".toList)))
    hstrip hisraw hsr hparts hsuf]
  rw [if_pos hlen, PyStr.joinSep_pySplit '/', ← hrawA]
  rfl

/-- Resolver on the raw form with a mutable-ref segment
`https://raw.githubusercontent.com/{o}/{r}/refs/heads/{b}/SKILL.md`: the
`/refs/heads/{b}/` region is normalized to `/{b}/` and the result matches
the plain raw form. -/
theorem translate_raw_refs (o r b : String)
    (ho1 : o.data ≠ []) (ho2 : ∀ c ∈ o.data, c ∈ compChars)
    (hr2 : ∀ c ∈ r.data, c ∈ compChars)
    (hb1 : b.data ≠ []) (hb2 : ∀ c ∈ b.data, c ∈ compChars)
    (hbnd : hasSub "/refs/heads/".toList
      (("https://raw.githubusercontent.com/" ++ o ++ "/" ++ r).data ++
        "/refs/heads".toList) = false) :
    CreateProxy.translate_url
        ("https://raw.githubusercontent.com/" ++ o ++ "/" ++ r
          ++ "/refs/heads/" ++ b ++ "/SKILL.md") =
      .ok ("https://raw.githubusercontent.com/" ++ o ++ "/" ++ r ++ "/" ++ b
        ++ "/SKILL.md") o r b "SKILL.md" := by
  have hA : ("https://raw.githubusercontent.com/" ++ o ++ "/" ++ r).data =
      "https://raw.githubusercontent.com/".toList ++
        (o.data ++ ('/' :: r.data)) := by
    simp only [String.data_append, List.append_assoc]
    rfl
  rw [hA] at hbnd
  have hdataFull : ("https://raw.githubusercontent.com/" ++ o ++ "/" ++ r
      ++ "/refs/heads/" ++ b ++ "/SKILL.md").data =
      "https://raw.githubusercontent.com/".toList ++
        (o.data ++ ('/' :: (r.data ++ ('/' :: ("refs/heads/".toList ++
          (b.data ++ ('/' :: "SKILL.md".toList))))))) := by
    simp only [String.data_append, List.append_assoc]
    rfl
  have hdataB : ("https://raw.githubusercontent.com/" ++ o ++ "/" ++ r
      ++ "/refs/heads/" ++ b ++ "/SKILL.md").data =
      ("https://raw.githubusercontent.com/".toList ++
        (o.data ++ ('/' :: r.data))) ++
        ('/' :: ("refs/heads/".toList ++
          (b.data ++ ('/' :: "SKILL.md".toList)))) := by
    rw [hdataFull]
    simp only [List.append_assoc, List.cons_append]
  have hlastA : ("https://raw.githubusercontent.com/" ++ o ++ "/" ++ r
      ++ "/refs/heads/" ++ b ++ "/SKILL.md").data.getLast? = some 'd' :=
    lastQ_string_append _ "/SKILL.md" 'd' (by decide)
  have hstrip : pyRstrip '/' (pyStripWs ("https://raw.githubusercontent.com/"
      ++ o ++ "/" ++ r ++ "/refs/heads/" ++ b ++ "/SKILL.md").data) =
      ("https://raw.githubusercontent.com/" ++ o ++ "/" ++ r
        ++ "/refs/heads/" ++ b ++ "/SKILL.md").data := by
    refine PyStr.strip_noop _ (by rw [hdataFull]; rfl) (fun d hd => ?_)
    rw [hlastA] at hd
    injection hd with h
    rw [← h]
    decide
  have hisraw : hasSub "raw.githubusercontent.com".toList
      ("https://raw.githubusercontent.com/" ++ o ++ "/" ++ r
        ++ "/refs/heads/" ++ b ++ "/SKILL.md").data = true := by
    rw [hdataFull]
    exact PyStr.hasSub_append_right _ "https://".toList _
      (PyStr.hasSub_of_listPre _ _ (PyStr.listPre_self_append
        "raw.githubusercontent.com".toList _))
  have hsr : subRefsHeads ("https://raw.githubusercontent.com/" ++ o ++ "/"
      ++ r ++ "/refs/heads/" ++ b ++ "/SKILL.md").data =
      "https://raw.githubusercontent.com/".toList ++
        (o.data ++ ('/' :: (r.data ++ ('/' :: (b.data ++
          ('/' :: "SKILL.md".toList)))))) := by
    rw [hdataB, PyStr.subRefsHeads_append _ _
        (show hasSub "/refs/heads/".toList
          (("https://raw.githubusercontent.com/".toList ++
            (o.data ++ ('/' :: r.data))) ++
            (('/' :: ("refs/heads/".toList ++
              (b.data ++ ('/' :: "SKILL.md".toList)))).take 11)) = false
          from hbnd),
      PyStr.subRefsHeads_replace b.data "SKILL.md".toList hb1
        (fun c hc => PyStr.compChars_not_slash c (hb2 c hc)),
      PyStr.subRefsHeads_eq_self "SKILL.md".toList (by decide)]
    simp only [List.append_assoc, List.cons_append]
  have hqh : ∀ c ∈ o.data ++ ('/' :: (r.data ++ ('/' :: (b.data ++
      ('/' :: "SKILL.md".toList))))),
      (!(c == '?') && !(c == '#')) = true := by
    intro c hc
    simp only [List.mem_append, List.mem_cons] at hc
    rcases hc with h | h | h | h | h | h | h
    · exact PyStr.compChars_not_qh c (ho2 c h)
    · rw [h]; rfl
    · exact PyStr.compChars_not_qh c (hr2 c h)
    · rw [h]; rfl
    · exact PyStr.compChars_not_qh c (hb2 c h)
    · rw [h]; rfl
    · revert h; revert c; decide
  have hparts :
      pySplit '/' (pyLstrip '/' (urlPath
        ("https://raw.githubusercontent.com/".toList ++
          (o.data ++ ('/' :: (r.data ++ ('/' :: (b.data ++
            ('/' :: "SKILL.md".toList))))))))) =
      o.data :: r.data :: b.data :: ["SKILL.md".toList] := by
    have h0 := PyStr.host_path_parts "raw.githubusercontent.com".toList
      (o.data ++ ('/' :: (r.data ++ ('/' :: (b.data ++
        ('/' :: "SKILL.md".toList))))))
      (by decide) hqh
      (PyStr.headGoodAppend o.data _ ho1 ho2)
    rw [show (pySplit '/' (pyLstrip '/' (urlPath
        ("https://raw.githubusercontent.com/".toList ++
          (o.data ++ ('/' :: (r.data ++ ('/' :: (b.data ++
            ('/' :: "SKILL.md".toList)))))))))) =
        (pySplit '/' (pyLstrip '/' (urlPath
        ("https://".toList ++ ("raw.githubusercontent.com".toList ++ '/' ::
          (o.data ++ ('/' :: (r.data ++ ('/' :: (b.data ++
            ('/' :: "SKILL.md".toList))))))))))) from rfl, h0]
    rw [pySplit_append '/' o.data _,
      pySplit_no_sep '/' o.data (fun c hc => PyStr.compChars_not_slash c (ho2 c hc)),
      pySplit_append '/' r.data _,
      pySplit_no_sep '/' r.data (fun c hc => PyStr.compChars_not_slash c (hr2 c hc)),
      pySplit_append '/' b.data _,
      pySplit_no_sep '/' b.data (fun c hc => PyStr.compChars_not_slash c (hb2 c hc))]
    rfl
  have hrawA : (⟨CreateProxy.mkRawUrl o.data r.data b.data
      "SKILL.md".toList⟩ : String) =
      "https://raw.githubusercontent.com/" ++ o ++ "/" ++ r ++ "/" ++ b
        ++ "/SKILL.md" := by
    apply String.ext
    show CreateProxy.mkRawUrl o.data r.data b.data "SKILL.md".toList = _
    simp only [CreateProxy.mkRawUrl, String.data_append, List.append_assoc]
    rfl
  rw [translate_raw_reduce _ _ o.data r.data b.data ["SKILL.md".toList]
    hstrip hisraw hsr hparts (by decide)]
  rw [← hrawA]
  rfl

/-- Resolver on the raw form with a mutable-ref segment and a subpath
`https://raw.githubusercontent.com/{o}/{r}/refs/heads/{b}/{sub}/SKILL.md`:
normalized to the plain raw form with the same subpath. -/
theorem translate_raw_refs_sub (o r b sub : String)
    (ho1 : o.data ≠ []) (ho2 : ∀ c ∈ o.data, c ∈ compChars)
    (hr2 : ∀ c ∈ r.data, c ∈ compChars)
    (hb1 : b.data ≠ []) (hb2 : ∀ c ∈ b.data, c ∈ compChars)
    (hs2 : ∀ c ∈ sub.data, c = '/' ∨ c ∈ compChars)
    (hbnd : hasSub "/refs/heads/".toList
      (("https://raw.githubusercontent.com/" ++ o ++ "/" ++ r).data ++
        "/refs/heads".toList) = false)
    (hfq : hasSub "/refs/heads/".toList
      (sub.data ++ ('/' :: "SKILL.md".toList)) = false) :
    CreateProxy.translate_url
        ("https://raw.githubusercontent.com/" ++ o ++ "/" ++ r
          ++ "/refs/heads/" ++ b ++ "/" ++ sub ++ "/SKILL.md") =
      .ok ("https://raw.githubusercontent.com/" ++ o ++ "/" ++ r ++ "/" ++ b
        ++ "/" ++ sub ++ "/SKILL.md") o r b (sub ++ "/SKILL.md") := by
  have hA : ("https://raw.githubusercontent.com/" ++ o ++ "/" ++ r).data =
      "https://raw.githubusercontent.com/".toList ++
        (o.data ++ ('/' :: r.data)) := by
    simp only [String.data_append, List.append_assoc]
    rfl
  rw [hA] at hbnd
  have hdataFull : ("https://raw.githubusercontent.com/" ++ o ++ "/" ++ r
      ++ "/refs/heads/" ++ b ++ "/" ++ sub ++ "/SKILL.md").data =
      "https://raw.githubusercontent.com/".toList ++
        (o.data ++ ('/' :: (r.data ++ ('/' :: ("refs/heads/".toList ++
          (b.data ++ ('/' :: (sub.data ++
            ('/' :: "SKILL.md".toList))))))))) := by
    simp only [String.data_append, List.append_assoc]
    rfl
  have hdataB : ("https://raw.githubusercontent.com/" ++ o ++ "/" ++ r
      ++ "/refs/heads/" ++ b ++ "/" ++ sub ++ "/SKILL.md").data =
      ("https://raw.githubusercontent.com/".toList ++
        (o.data ++ ('/' :: r.data))) ++
        ('/' :: ("refs/heads/".toList ++
          (b.data ++ ('/' :: (sub.data ++
            ('/' :: "SKILL.md".toList)))))) := by
    rw [hdataFull]
    simp only [List.append_assoc, List.cons_append]
  have hlastA : ("https://raw.githubusercontent.com/" ++ o ++ "/" ++ r
      ++ "/refs/heads/" ++ b ++ "/" ++ sub
      ++ "/SKILL.md").data.getLast? = some 'd' :=
    lastQ_string_append _ "/SKILL.md" 'd' (by decide)
  have hstrip : pyRstrip '/' (pyStripWs ("https://raw.githubusercontent.com/"
      ++ o ++ "/" ++ r ++ "/refs/heads/" ++ b ++ "/" ++ sub
      ++ "/SKILL.md").data) =
      ("https://raw.githubusercontent.com/" ++ o ++ "/" ++ r
        ++ "/refs/heads/" ++ b ++ "/" ++ sub ++ "/SKILL.md").data := by
    refine PyStr.strip_noop _ (by rw [hdataFull]; rfl) (fun d hd => ?_)
    rw [hlastA] at hd
    injection hd with h
    rw [← h]
    decide
  have hisraw : hasSub "raw.githubusercontent.com".toList
      ("https://raw.githubusercontent.com/" ++ o ++ "/" ++ r
        ++ "/refs/heads/" ++ b ++ "/" ++ sub ++ "/SKILL.md").data = true := by
    rw [hdataFull]
    exact PyStr.hasSub_append_right _ "https://".toList _
      (PyStr.hasSub_of_listPre _ _ (PyStr.listPre_self_append
        "raw.githubusercontent.com".toList _))
  have hsr : subRefsHeads ("https://raw.githubusercontent.com/" ++ o ++ "/"
      ++ r ++ "/refs/heads/" ++ b ++ "/" ++ sub ++ "/SKILL.md").data =
      "https://raw.githubusercontent.com/".toList ++
        (o.data ++ ('/' :: (r.data ++ ('/' :: (b.data ++ ('/' ::
          (sub.data ++ ('/' :: "SKILL.md".toList)))))))) := by
    rw [hdataB, PyStr.subRefsHeads_append _ _
        (show hasSub "/refs/heads/".toList
          (("https://raw.githubusercontent.com/".toList ++
            (o.data ++ ('/' :: r.data))) ++
            (('/' :: ("refs/heads/".toList ++
              (b.data ++ ('/' :: (sub.data ++
                ('/' :: "SKILL.md".toList)))))).take 11)) = false
          from hbnd),
      PyStr.subRefsHeads_replace b.data
        (sub.data ++ ('/' :: "SKILL.md".toList)) hb1
        (fun c hc => PyStr.compChars_not_slash c (hb2 c hc)),
      PyStr.subRefsHeads_eq_self (sub.data ++ ('/' :: "SKILL.md".toList)) hfq]
    simp only [List.append_assoc, List.cons_append]
  have hqh : ∀ c ∈ o.data ++ ('/' :: (r.data ++ ('/' :: (b.data ++ ('/' ::
      (sub.data ++ ('/' :: "SKILL.md".toList))))))),
      (!(c == '?') && !(c == '#')) = true := by
    intro c hc
    simp only [List.mem_append, List.mem_cons] at hc
    rcases hc with h | h | h | h | h | h | h | h | h
    · exact PyStr.compChars_not_qh c (ho2 c h)
    · rw [h]; rfl
    · exact PyStr.compChars_not_qh c (hr2 c h)
    · rw [h]; rfl
    · exact PyStr.compChars_not_qh c (hb2 c h)
    · rw [h]; rfl
    · rcases hs2 c h with h' | h'
      · rw [h']; rfl
      · exact PyStr.compChars_not_qh c h'
    · rw [h]; rfl
    · revert h; revert c; decide
  have hparts :
      pySplit '/' (pyLstrip '/' (urlPath
        ("https://raw.githubusercontent.com/".toList ++
          (o.data ++ ('/' :: (r.data ++ ('/' :: (b.data ++ ('/' ::
            (sub.data ++ ('/' :: "SKILL.md".toList))))))))))) =
      o.data :: r.data :: b.data ::
        pySplit '/' (sub.data ++ ('/' :: "SKILL.md".toList)) := by
    have h0 := PyStr.host_path_parts "raw.githubusercontent.com".toList
      (o.data ++ ('/' :: (r.data ++ ('/' :: (b.data ++ ('/' ::
        (sub.data ++ ('/' :: "SKILL.md".toList))))))))
      (by decide) hqh
      (PyStr.headGoodAppend o.data _ ho1 ho2)
    rw [show (pySplit '/' (pyLstrip '/' (urlPath
        ("https://raw.githubusercontent.com/".toList ++
          (o.data ++ ('/' :: (r.data ++ ('/' :: (b.data ++ ('/' ::
            (sub.data ++ ('/' :: "SKILL.md".toList)))))))))))) =
        (pySplit '/' (pyLstrip '/' (urlPath
        ("https://".toList ++ ("raw.githubusercontent.com".toList ++ '/' ::
          (o.data ++ ('/' :: (r.data ++ ('/' :: (b.data ++ ('/' ::
            (sub.data ++ ('/' :: "SKILL.md".toList)))))))))))))
        from rfl, h0]
    rw [pySplit_append '/' o.data _,
      pySplit_no_sep '/' o.data (fun c hc => PyStr.compChars_not_slash c (ho2 c hc)),
      pySplit_append '/' r.data _,
      pySplit_no_sep '/' r.data (fun c hc => PyStr.compChars_not_slash c (hr2 c hc)),
      pySplit_append '/' b.data _,
      pySplit_no_sep '/' b.data (fun c hc => PyStr.compChars_not_slash c (hb2 c hc))]
    rfl
  have hlen : (pySplit '/' (sub.data ++ ('/' :: "SKILL.md".toList))).length
      > 0 :=
    List.length_pos.mpr (pySplit_ne_nil '/' _)
  have hsuf : listSuf "SKILL.md".toList
      (if (pySplit '/' (sub.data ++ ('/' :: "SKILL.md".toList))).length > 0
        then joinSep '/' (pySplit '/' (sub.data ++ ('/' :: "SKILL.md".toList)))
        else "SKILL.md".toList) = true := by
    rw [if_pos hlen, PyStr.joinSep_pySplit '/']
    rw [show sub.data ++ ('/' :: "SKILL.md".toList) =
      (sub.data ++ ['/']) ++ "SKILL.md".toList by
        rw [List.append_assoc]; rfl]
    exact listSuf_append_self _ _
  have hrawA : (⟨CreateProxy.mkRawUrl o.data r.data b.data
      (sub.data ++ ('/' :: "SKILL.md".toList))⟩ : String) =
      "https://raw.githubusercontent.com/" ++ o ++ "/" ++ r ++ "/" ++ b
        ++ "/" ++ sub ++ "/SKILL.md" := by
    apply String.ext
    show CreateProxy.mkRawUrl o.data r.data b.data
      (sub.data ++ ('/' :: "SKILL.md".toList)) = _
    simp only [CreateProxy.mkRawUrl, String.data_append, List.append_assoc]
    rfl
  rw [translate_raw_reduce _ _ o.data r.data b.data
    (pySplit '/' (sub.data ++ ('/' :: "SKILL.md".toList)))
    hstrip hisraw hsr hparts hsuf]
  rw [if_pos hlen, PyStr.joinSep_pySplit '/', ← hrawA]
  rfl

/-! ## Claims -/

/-- Every failed response — transport exception or non-200 status — makes
`fetch_raw_content` exit 2. -/
theorem fetch_raw_content_fail (r : HttpResp)
    (h : r = .exn ∨ ∃ s body, r = .resp s body ∧ s ≠ 200) :
    CreateProxy.fetch_raw_content r = .error 2 := by
  rcases h with rfl | ⟨s, body, rfl, hs⟩
  · rfl
  · simp only [CreateProxy.fetch_raw_content]
    by_cases h4 : s = 404
    · rw [if_pos h4]
    · rw [if_neg h4, if_pos hs]

/-- Every failed response makes `get_commit_hash` exit 2. -/
theorem get_commit_hash_fail (r : HttpResp)
    (h : r = .exn ∨ ∃ s body, r = .resp s body ∧ s ≠ 200) :
    CreateProxy.get_commit_hash r = .error 2 := by
  rcases h with rfl | ⟨s, body, rfl, hs⟩
  · rfl
  · simp only [CreateProxy.get_commit_hash]
    by_cases h4 : s = 404
    · rw [if_pos h4]
    · rw [if_neg h4, if_pos hs]

/-- Every failed response makes `fetch_pinned` exit 2. -/
theorem fetch_pinned_fail (r : HttpResp)
    (h : r = .exn ∨ ∃ s body, r = .resp s body ∧ s ≠ 200) :
    VerifyProxy.fetch_pinned r = .error 2 := by
  rcases h with rfl | ⟨s, body, rfl, hs⟩
  · rfl
  · simp only [VerifyProxy.fetch_pinned]
    rw [if_pos hs]

/-- Every failed response makes the `fetch_raw` of `update-proxy.py`
exit 2. -/
theorem fetch_raw_fail (r : HttpResp)
    (h : r = .exn ∨ ∃ s body, r = .resp s body ∧ s ≠ 200) :
    UpdateProxy.fetch_raw r = .error 2 := by
  rcases h with rfl | ⟨s, body, rfl, hs⟩
  · rfl
  · simp only [UpdateProxy.fetch_raw]
    rw [if_pos hs]

/-- A non-200 response makes `get_head_commit` exit 2 (a transport
exception instead propagates: `get_head_commit .exn = .error .crashed` by
definition). -/
theorem get_head_commit_non200 (s : Nat) (sha : String) (hs : s ≠ 200) :
    UpdateProxy.get_head_commit (.resp s sha) = .error (.exited 2) := by
  simp only [UpdateProxy.get_head_commit]
  rw [if_pos hs]

theorem falsy_some_of_ne (s : String) (h : s ≠ "") : falsy (some s) = false := by
  show s.isEmpty = false
  rw [Bool.eq_false_iff]
  intro ht
  exact h ((String.isEmpty_iff s).mp ht)

/-- **C10.** For every record path argument whose directory contains no
`SKILL.md` file, Update terminates with an uncaught file-not-found
exception rather than exiting with the usage-error status and a
diagnostic, because `load_proxy_skill_md` reads the record without first
checking the file exists — unlike Verify's `load_proxy_metadata`, which
checks and exits with the usage-error status 1. -/
theorem update_missing_record_crashes_verify_exits
    (y : Yaml) (digest : String → String) (now : String)
    (fs : String → Option String) (dir : String) (dry : Bool) (remote : Remote)
    (h : fs (dir ++ "/SKILL.md") = none) :
    (UpdateProxy.main y digest now fs dir dry remote).term = .crashed ∧
    (VerifyProxy.main y digest fs dir remote).term = .exited 1 ∧
    Term.crashed ≠ Term.exited 1 := by
  refine ⟨?_, ?_, by simp⟩
  · simp [UpdateProxy.main, UpdateProxy.load_proxy_skill_md, h]
  · simp [VerifyProxy.main, VerifyProxy.load_proxy_metadata, h]

/-- Witness for C10 at a concrete missing file. -/
theorem update_missing_record_crashes_verify_exits_witness :
    ((fun _ : String => (none : Option String)) ("p" ++ "/SKILL.md") = none) ∧
    ((UpdateProxy.main ⟨fun _ => some {}, fun _ => some {}, fun _ => "y\n"⟩
        (fun _ => "d") "t" (fun _ => none) "p" false
        ⟨fun _ => .exn, fun _ _ _ => .exn⟩).term = .crashed ∧
      (VerifyProxy.main ⟨fun _ => some {}, fun _ => some {}, fun _ => "y\n"⟩
        (fun _ => "d") (fun _ => none) "p"
        ⟨fun _ => .exn, fun _ _ _ => .exn⟩).term = .exited 1 ∧
      Term.crashed ≠ Term.exited 1) :=
  ⟨rfl, update_missing_record_crashes_verify_exits _ _ _ _ _ _ _ rfl⟩

/-- **C8.** For every input string that contains neither the canonical
raw-content host marker `raw.githubusercontent.com` nor the standard host
marker `github.com`, `translate_url` makes Create fail with the usage-error
exit status 1 (distinct from the network-error status 2) before any
network access and before any write. -/
theorem create_unsupported_url_usage_error
    (y : Yaml) (digest : String → String) (now url output_dir created_by : String)
    (remote : Remote)
    (h1 : hasSub "raw.githubusercontent.com".toList url.data = false)
    (h2 : hasSub "github.com".toList url.data = false) :
    CreateProxy.main y digest now url output_dir created_by remote =
      { term := .exited 1 } ∧
    Term.exited 1 ≠ Term.exited 2 := by
  have hu1 : hasSub "raw.githubusercontent.com".toList
      (pyRstrip '/' (pyStripWs url.data)) = false := by
    cases hc : hasSub "raw.githubusercontent.com".toList
        (pyRstrip '/' (pyStripWs url.data)) with
    | false => rfl
    | true =>
      have hx := PyStr.hasSub_of_hasSub_stripped _ _ hc
      rw [h1] at hx
      exact (Bool.false_ne_true hx).elim
  have hu2 : hasSub "github.com".toList
      (pyRstrip '/' (pyStripWs url.data)) = false := by
    cases hc : hasSub "github.com".toList
        (pyRstrip '/' (pyStripWs url.data)) with
    | false => rfl
    | true =>
      have hx := PyStr.hasSub_of_hasSub_stripped _ _ hc
      rw [h2] at hx
      exact (Bool.false_ne_true hx).elim
  have htrans : CreateProxy.translate_url url = .usage := by
    unfold CreateProxy.translate_url
    simp only [hu1, hu2]
    simp
  refine ⟨?_, by simp⟩
  unfold CreateProxy.main
  rw [htrans]

/-- **C2.** For every proxy record whose pinned raw-fetch address now
returns content whose digest differs from the recorded `proxy-sha256`,
Verify reports Mismatch and exits with status 4 — non-zero and distinct
from the usage-error (1), network-error (2) and validation-failure (3)
statuses — and in both the Intact and Mismatch branches Verify performs no
filesystem write. -/
theorem verify_mismatch_exit4_never_writes
    (y : Yaml) (digest : String → String) (fs : String → Option String)
    (dir : String) (remote : Remote) (meta : MetaMap) (pu es content : String)
    (hload : VerifyProxy.load_proxy_metadata y fs dir = .ok meta)
    (hpu : meta.proxyRawUrl = some pu) (hpu' : pu ≠ "")
    (hes : meta.proxySha256 = some es) (hes' : es ≠ "")
    (hfetch : remote.fetchHttp pu = .resp 200 content) :
    (digest content ≠ es →
      VerifyProxy.main y digest fs dir remote =
        { term := .exited 4, fetches := [pu] }) ∧
    (digest content = es →
      (VerifyProxy.main y digest fs dir remote).term = .exited 0 ∧
      (VerifyProxy.main y digest fs dir remote).writes = []) ∧
    (Term.exited 4 ≠ Term.exited 1 ∧ Term.exited 4 ≠ Term.exited 2 ∧
      Term.exited 4 ≠ Term.exited 3 ∧ Term.exited 4 ≠ Term.exited 0) := by
  have hmain : VerifyProxy.main y digest fs dir remote =
      (if digest content ≠ es then
        { term := .exited 4, fetches := [pu] }
      else
        match searchGR (meta.proxySource.getD "").data with
        | none => { term := .exited 0, fetches := [pu] }
        | some (o, r) =>
          { term := .exited 0,
            fetches := [pu, apiUrl ⟨o⟩ ⟨r⟩ (meta.proxyBranch.getD "main")],
            upstreamInfo :=
              match VerifyProxy.get_latest_commit
                  (remote.apiCommit ⟨o⟩ ⟨r⟩ (meta.proxyBranch.getD "main")) with
              | some l =>
                if l ≠ "" then
                  if some l ≠ meta.proxyCommit then some true else some false
                else none
              | none => none }) := by
    simp only [VerifyProxy.main, hload]
    rw [hpu, hes]
    rw [falsy_some_of_ne pu hpu', falsy_some_of_ne es hes']
    simp only [Bool.or_self, Option.getD_some]
    rw [if_neg Bool.false_ne_true, hfetch]
    simp only [VerifyProxy.fetch_pinned]
    rw [if_neg (by simp)]
  refine ⟨?_, ?_, by simp, by simp, by simp, by simp⟩
  · intro hne
    rw [hmain, if_pos hne]
  · intro heq
    rw [hmain, if_neg (by simpa using heq)]
    rcases searchGR (meta.proxySource.getD "").data with _ | ⟨o, r⟩
    · exact ⟨rfl, rfl⟩
    · exact ⟨rfl, rfl⟩

/-- Witness for C2 at a concrete record, remote and digest function. -/
theorem verify_mismatch_exit4_never_writes_witness :
    (VerifyProxy.load_proxy_metadata
        ⟨fun _ => some {},
         fun _ => some { metadata := some { proxyRawUrl := some "u", proxySha256 := some "E" } },
         fun _ => "y\n"⟩
        (fun _ => some "---\na\n---") "p" =
      .ok { proxyRawUrl := some "u", proxySha256 := some "E" }) ∧
    (("D" : String) ≠ "E") ∧
    ((VerifyProxy.main
        ⟨fun _ => some {},
         fun _ => some { metadata := some { proxyRawUrl := some "u", proxySha256 := some "E" } },
         fun _ => "y\n"⟩
        (fun _ => "D") (fun _ => some "---\na\n---") "p"
        ⟨fun _ => .resp 200 "c", fun _ _ _ => .exn⟩ =
      { term := .exited 4, fetches := ["u"] })) := by
  refine ⟨by decide, by decide, ?_⟩
  exact (verify_mismatch_exit4_never_writes
    ⟨fun _ => some {},
     fun _ => some { metadata := some { proxyRawUrl := some "u", proxySha256 := some "E" } },
     fun _ => "y\n"⟩
    (fun _ => "D") (fun _ => some "---\na\n---") "p"
    ⟨fun _ => .resp 200 "c", fun _ _ _ => .exn⟩
    { proxyRawUrl := some "u", proxySha256 := some "E" }
    "u" "E" "c"
    (by decide) rfl (by decide) rfl (by decide) rfl).1 (by decide)

/-- **C3.** For every fetched manifest on which the validator returns a
non-empty error list, the invoking operation — Create or Update — aborts
with the validation-failed exit status 3 and performs no filesystem write,
leaving any existing persisted record byte-for-byte unchanged. -/
theorem validation_failure_blocks_all_writes :
    (∀ (y : Yaml) (digest : String → String)
        (now url output_dir created_by : String) (remote : Remote)
        (ru o r b sp content : String) (fm : Manifest),
      CreateProxy.translate_url url = .ok ru o r b sp →
      remote.fetchHttp ru = .resp 200 content →
      CreateProxy.parse_frontmatter y content = .ok fm →
      CreateProxy.validate_frontmatter fm ≠ [] →
      CreateProxy.main y digest now url output_dir created_by remote =
        { term := .exited 3, fetches := [ru] }) ∧
    (∀ (y : Yaml) (digest : String → String) (now : String)
        (fs : String → Option String) (dir : String) (dry : Bool)
        (remote : Remote) (fm : ProxyFM) (o r : List Char)
        (sha content : String) (rfm : Manifest),
      UpdateProxy.load_proxy_skill_md y fs dir = .ok fm →
      searchGR ((fm.metadata.getD {}).proxySource.getD "").data = some (o, r) →
      remote.apiCommit ⟨o⟩ ⟨r⟩ ((fm.metadata.getD {}).proxyBranch.getD "main") =
        .resp 200 sha →
      sha ≠ (fm.metadata.getD {}).proxyCommit.getD "" →
      remote.fetchHttp (UpdateProxy.newRawUrl ⟨o⟩ ⟨r⟩ sha
          (UpdateProxy.remoteSkillPath
            ((fm.metadata.getD {}).proxyRawUrl.getD ""))) = .resp 200 content →
      UpdateProxy.loadRemoteFM y content = some rfm →
      UpdateProxy.validate_frontmatter rfm ≠ [] →
      UpdateProxy.main y digest now fs dir dry remote =
        { term := .exited 3,
          fetches :=
            [apiUrl ⟨o⟩ ⟨r⟩ ((fm.metadata.getD {}).proxyBranch.getD "main"),
              UpdateProxy.newRawUrl ⟨o⟩ ⟨r⟩ sha
                (UpdateProxy.remoteSkillPath
                  ((fm.metadata.getD {}).proxyRawUrl.getD ""))] }) := by
  constructor
  · intro y digest now url output_dir created_by remote ru o r b sp content fm
      htrans hfetch hparse hval
    simp only [CreateProxy.main, htrans, hfetch, CreateProxy.fetch_raw_content]
    rw [if_neg (by simp), if_neg (by simp)]
    simp only [hparse]
    rcases hv : CreateProxy.validate_frontmatter fm with _ | ⟨e, es⟩
    · exact absurd hv hval
    · rfl
  · intro y digest now fs dir dry remote fm o r sha content rfm
      hload hsg happi hne hfetch hrfm hval
    have hgh : UpdateProxy.get_head_commit
        (remote.apiCommit ⟨o⟩ ⟨r⟩ ((fm.metadata.getD {}).proxyBranch.getD "main")) =
        .ok sha := by
      rw [happi]; simp [UpdateProxy.get_head_commit]
    have hfr : UpdateProxy.fetch_raw
        (remote.fetchHttp (UpdateProxy.newRawUrl ⟨o⟩ ⟨r⟩ sha
          (UpdateProxy.remoteSkillPath
            ((fm.metadata.getD {}).proxyRawUrl.getD "")))) = .ok content := by
      rw [hfetch]; simp [UpdateProxy.fetch_raw]
    simp only [UpdateProxy.main, hload, hsg, hgh]
    rw [if_neg hne]
    simp only [hfr, hrfm]
    rcases hv : UpdateProxy.validate_frontmatter rfm with _ | ⟨e, es⟩
    · exact absurd hv hval
    · rfl

/-- Witness for C3: a concrete run of each operation against a remote
manifest whose name fails validation. -/
theorem validation_failure_blocks_all_writes_witness :
    (CreateProxy.validate_frontmatter { name := some "-bad" } ≠ []) ∧
    (CreateProxy.main
        ⟨fun _ => some { name := some "-bad" }, fun _ => some {}, fun _ => "y\n"⟩
        (fun _ => "D") "t" "https://github.com/o/r" "./skills" "me"
        ⟨fun _ => .resp 200 "---\na\n---", fun _ _ _ => .resp 200 "c0"⟩ =
      { term := .exited 3,
        fetches := ["https://raw.githubusercontent.com/o/r/main/SKILL.md"] }) ∧
    (UpdateProxy.validate_frontmatter { name := some "-bad" } ≠ []) ∧
    (UpdateProxy.main
        ⟨fun _ => some { name := some "-bad" },
         fun _ => some { metadata := some { proxySource := some "https://github.com/o/r", proxyCommit := some "c0" } },
         fun _ => "y\n"⟩
        (fun _ => "D") "t" (fun _ => some "---\na\n---") "p" false
        ⟨fun _ => .resp 200 "---\nb\n---", fun _ _ _ => .resp 200 "c1"⟩ =
      { term := .exited 3,
        fetches := ["https://api.github.com/repos/o/r/commits/main",
          "https://raw.githubusercontent.com/o/r/c1/SKILL.md"] }) := by
  refine ⟨by decide, ?_, by decide, ?_⟩
  · exact validation_failure_blocks_all_writes.1 _ _ _ _ _ _ _
      "https://raw.githubusercontent.com/o/r/main/SKILL.md" "o" "r" "main"
      "SKILL.md" _ { name := some "-bad" } (by decide) rfl (by decide) (by decide)
  · exact validation_failure_blocks_all_writes.2 _ _ _ _ _ _ _
      { metadata := some { proxySource := some "https://github.com/o/r", proxyCommit := some "c0" } }
      "o".toList "r".toList "c1" "---\nb\n---" { name := some "-bad" }
      (by decide) (by decide) rfl (by decide) rfl (by decide) (by decide)

/-- Counterexample for C5: the two validators are *not* equivalent — the
update-side validator has no doubled-hyphen check, so `a--b` is rejected by
Create's validator but accepted by Update's. -/
theorem validators_not_equivalent_counterexample :
    CreateProxy.validate_frontmatter { name := some "a--b", description := some "x" } ≠ [] ∧
    UpdateProxy.validate_frontmatter { name := some "a--b", description := some "x" } = [] := by
  decide

/-- **C5 (amended).** The validator of `update-proxy.py` accepts every
manifest the validator of `create-proxy.py` accepts (it runs a subset of
Create's checks: missing name, name format, missing description — but not
the doubled-hyphen check, the 64-character name bound or the
1024-character description bound), so Update rejects only manifests Create
would also reject; the converse fails. -/
theorem update_validator_accepts_create_valid (fm : Manifest)
    (h : CreateProxy.validate_frontmatter fm = []) :
    UpdateProxy.validate_frontmatter fm = [] := by
  simp only [CreateProxy.validate_frontmatter] at h
  simp only [UpdateProxy.validate_frontmatter]
  simp only [List.append_eq_nil] at h
  obtain ⟨h1, h2⟩ := h
  by_cases hn : fm.name.getD "" = "" <;>
    by_cases hm : CreateProxy.pyNameMatch (fm.name.getD "").data = true <;>
      by_cases hd : falsy fm.description = true <;>
        simp_all

/-- Witness for the amended C5 at a concrete valid manifest. -/
theorem update_validator_accepts_create_valid_witness :
    CreateProxy.validate_frontmatter { name := some "demo-skill", description := some "x" } = [] ∧
    UpdateProxy.validate_frontmatter { name := some "demo-skill", description := some "x" } = [] :=
  ⟨by decide, update_validator_accepts_create_valid _ (by decide)⟩

/-- Counterexample for C6: a description consisting of one space is empty
after trimming, yet the validator reports no error for it — the code tests
Python truthiness (`not fm.get("description")`), which accepts
whitespace-only descriptions, so the claimed "description missing or empty
after trimming" error kind does not match the code. -/
theorem validator_accepts_whitespace_description_counterexample :
    CreateProxy.validate_frontmatter { name := some "a", description := some " " } = [] ∧
    pyStripWs " ".toList = [] ∧ (" " : String) ≠ "" := by
  refine ⟨by decide, by decide, by decide⟩

/-- **C6 (amended).** The validator reports exactly the six distinct error
kinds, at most one per field with the first violated rule per field
winning: name missing/empty; name not matching the pattern; name containing
`--`; name longer than 64 characters; description missing or empty (a
whitespace-only description is accepted — not "empty after trimming");
description longer than 1024 characters — and a manifest violating none of
these yields the empty error list. -/
theorem validate_frontmatter_reports_spec_kinds (fm : Manifest) :
    CreateProxy.validate_frontmatter fm = (specErrKinds fm).map (errMessage fm) := by
  simp only [CreateProxy.validate_frontmatter, specErrKinds]
  split_ifs <;> rfl

/-- Witness for C8 at a concrete unsupported URL. -/
theorem create_unsupported_url_usage_error_witness :
    (hasSub "raw.githubusercontent.com".toList "https://gitlab.com/o/r".data = false) ∧
    (hasSub "github.com".toList "https://gitlab.com/o/r".data = false) ∧
    (CreateProxy.main ⟨fun _ => some {}, fun _ => some {}, fun _ => "y\n"⟩
        (fun _ => "d") "t" "https://gitlab.com/o/r" "./skills" "me"
        ⟨fun _ => .exn, fun _ _ _ => .exn⟩ =
      { term := .exited 1 } ∧
      Term.exited 1 ≠ Term.exited 2) :=
  ⟨by decide, by decide,
    create_unsupported_url_usage_error _ _ _ _ _ _ _ (by decide) (by decide)⟩

/-- Counterexample for C9: a transport failure during Verify's optional
upstream-revision check is silently swallowed — the whole outcome (exit
status 0, no error, no upstream notice) is byte-identical to the outcome
when the API merely returns a failing status, and carries no trace of the
error. -/
theorem upstream_check_error_swallowed_counterexample :
    (Remote.apiCommit ⟨fun _ => .resp 200 "c", fun _ _ _ => .exn⟩ "o" "r" "main" = .exn) ∧
    VerifyProxy.main c9Yaml (fun _ => "D") c9Fs "p"
        ⟨fun _ => .resp 200 "c", fun _ _ _ => .exn⟩ =
      VerifyProxy.main c9Yaml (fun _ => "D") c9Fs "p"
        ⟨fun _ => .resp 200 "c", fun _ _ _ => .resp 500 "boom"⟩ ∧
    (VerifyProxy.main c9Yaml (fun _ => "D") c9Fs "p"
        ⟨fun _ => .resp 200 "c", fun _ _ _ => .exn⟩).term = .exited 0 ∧
    (VerifyProxy.main c9Yaml (fun _ => "D") c9Fs "p"
        ⟨fun _ => .resp 200 "c", fun _ _ _ => .exn⟩).upstreamInfo = none := by
  refine ⟨rfl, by decide, by decide, by decide⟩

/-- **C9 (amended).** No transport failure or unexpected status code in
Create (content fetch, commit resolution), Verify's pinned-content fetch,
or Update (commit resolution, content fetch) is silently swallowed: each
aborts the invocation with the network-error exit status 2 — except a
transport exception during Update's commit resolution, which propagates as
an uncaught exception (reported as a traceback, not as exit status 2). The
exception to the claim is Verify's optional upstream-revision check:
`get_latest_commit` absorbs every failure into `None`, and Verify reports
nothing and still exits 0 (see the counterexample). -/
theorem remote_errors_abort_except_upstream_check :
    (∀ (y : Yaml) (digest : String → String)
        (now url output_dir created_by : String) (remote : Remote)
        (ru o r b sp : String),
      CreateProxy.translate_url url = .ok ru o r b sp →
      (remote.fetchHttp ru = .exn ∨
        ∃ s body, remote.fetchHttp ru = .resp s body ∧ s ≠ 200) →
      CreateProxy.main y digest now url output_dir created_by remote =
        { term := .exited 2, fetches := [ru] }) ∧
    (∀ (y : Yaml) (digest : String → String)
        (now url output_dir created_by : String) (remote : Remote)
        (ru o r b sp content : String) (fm : Manifest),
      CreateProxy.translate_url url = .ok ru o r b sp →
      remote.fetchHttp ru = .resp 200 content →
      CreateProxy.parse_frontmatter y content = .ok fm →
      CreateProxy.validate_frontmatter fm = [] →
      (remote.apiCommit o r b = .exn ∨
        ∃ s body, remote.apiCommit o r b = .resp s body ∧ s ≠ 200) →
      CreateProxy.main y digest now url output_dir created_by remote =
        { term := .exited 2, fetches := [ru, apiUrl o r b] }) ∧
    (∀ (y : Yaml) (digest : String → String) (fs : String → Option String)
        (dir : String) (remote : Remote) (meta : MetaMap) (pu es : String),
      VerifyProxy.load_proxy_metadata y fs dir = .ok meta →
      meta.proxyRawUrl = some pu → pu ≠ "" →
      meta.proxySha256 = some es → es ≠ "" →
      (remote.fetchHttp pu = .exn ∨
        ∃ s body, remote.fetchHttp pu = .resp s body ∧ s ≠ 200) →
      VerifyProxy.main y digest fs dir remote =
        { term := .exited 2, fetches := [pu] }) ∧
    (∀ (y : Yaml) (digest : String → String) (now : String)
        (fs : String → Option String) (dir : String) (dry : Bool)
        (remote : Remote) (fm : ProxyFM) (o r : List Char),
      UpdateProxy.load_proxy_skill_md y fs dir = .ok fm →
      searchGR ((fm.metadata.getD {}).proxySource.getD "").data = some (o, r) →
      ((remote.apiCommit ⟨o⟩ ⟨r⟩
          ((fm.metadata.getD {}).proxyBranch.getD "main") = .exn →
        UpdateProxy.main y digest now fs dir dry remote =
          { term := .crashed,
            fetches := [apiUrl ⟨o⟩ ⟨r⟩
              ((fm.metadata.getD {}).proxyBranch.getD "main")] }) ∧
       (∀ (s : Nat) (body : String),
        remote.apiCommit ⟨o⟩ ⟨r⟩
          ((fm.metadata.getD {}).proxyBranch.getD "main") = .resp s body →
        s ≠ 200 →
        UpdateProxy.main y digest now fs dir dry remote =
          { term := .exited 2,
            fetches := [apiUrl ⟨o⟩ ⟨r⟩
              ((fm.metadata.getD {}).proxyBranch.getD "main")] }))) ∧
    (∀ (y : Yaml) (digest : String → String) (now : String)
        (fs : String → Option String) (dir : String) (dry : Bool)
        (remote : Remote) (fm : ProxyFM) (o r : List Char) (sha : String),
      UpdateProxy.load_proxy_skill_md y fs dir = .ok fm →
      searchGR ((fm.metadata.getD {}).proxySource.getD "").data = some (o, r) →
      remote.apiCommit ⟨o⟩ ⟨r⟩
        ((fm.metadata.getD {}).proxyBranch.getD "main") = .resp 200 sha →
      sha ≠ (fm.metadata.getD {}).proxyCommit.getD "" →
      (remote.fetchHttp (UpdateProxy.newRawUrl ⟨o⟩ ⟨r⟩ sha
          (UpdateProxy.remoteSkillPath
            ((fm.metadata.getD {}).proxyRawUrl.getD ""))) = .exn ∨
        ∃ s body,
          remote.fetchHttp (UpdateProxy.newRawUrl ⟨o⟩ ⟨r⟩ sha
            (UpdateProxy.remoteSkillPath
              ((fm.metadata.getD {}).proxyRawUrl.getD ""))) = .resp s body ∧
          s ≠ 200) →
      UpdateProxy.main y digest now fs dir dry remote =
        { term := .exited 2,
          fetches :=
            [apiUrl ⟨o⟩ ⟨r⟩ ((fm.metadata.getD {}).proxyBranch.getD "main"),
              UpdateProxy.newRawUrl ⟨o⟩ ⟨r⟩ sha
                (UpdateProxy.remoteSkillPath
                  ((fm.metadata.getD {}).proxyRawUrl.getD ""))] }) ∧
    (∀ resp : HttpResp,
      (resp = .exn ∨ ∃ s body, resp = .resp s body ∧ s ≠ 200) →
      VerifyProxy.get_latest_commit resp = none) := by
  refine ⟨?_, ?_, ?_, ?_, ?_, ?_⟩
  · intro y digest now url output_dir created_by remote ru o r b sp htrans hfail
    simp only [CreateProxy.main, htrans, fetch_raw_content_fail _ hfail]
  · intro y digest now url output_dir created_by remote ru o r b sp content fm
      htrans hfetch hparse hval hfail
    have h1 : CreateProxy.fetch_raw_content (remote.fetchHttp ru) = .ok content := by
      rw [hfetch]; simp [CreateProxy.fetch_raw_content]
    simp only [CreateProxy.main, htrans, h1, hparse, hval,
      get_commit_hash_fail _ hfail]
  · intro y digest fs dir remote meta pu es hload hpu hpu' hes hes' hfail
    simp only [VerifyProxy.main, hload]
    rw [hpu, hes]
    rw [falsy_some_of_ne pu hpu', falsy_some_of_ne es hes']
    simp only [Bool.or_self, Option.getD_some]
    rw [if_neg Bool.false_ne_true]
    simp only [fetch_pinned_fail _ hfail]
  · intro y digest now fs dir dry remote fm o r hload hsg
    constructor
    · intro hexn
      have h2 : UpdateProxy.get_head_commit (remote.apiCommit ⟨o⟩ ⟨r⟩
          ((fm.metadata.getD {}).proxyBranch.getD "main")) = .error .crashed := by
        rw [hexn]; rfl
      simp only [UpdateProxy.main, hload, hsg, h2]
    · intro s body hresp hs
      have h2 : UpdateProxy.get_head_commit (remote.apiCommit ⟨o⟩ ⟨r⟩
          ((fm.metadata.getD {}).proxyBranch.getD "main")) = .error (.exited 2) := by
        rw [hresp]; exact get_head_commit_non200 s body hs
      simp only [UpdateProxy.main, hload, hsg, h2]
  · intro y digest now fs dir dry remote fm o r sha hload hsg happi hne hfail
    have hgh : UpdateProxy.get_head_commit (remote.apiCommit ⟨o⟩ ⟨r⟩
        ((fm.metadata.getD {}).proxyBranch.getD "main")) = .ok sha := by
      rw [happi]; simp [UpdateProxy.get_head_commit]
    simp only [UpdateProxy.main, hload, hsg, hgh]
    rw [if_neg hne]
    simp only [fetch_raw_fail _ hfail]
  · intro resp h
    rcases h with rfl | ⟨s, body, rfl, hs⟩
    · rfl
    · simp only [VerifyProxy.get_latest_commit]
      rw [if_neg hs]

/-- Witness for the amended C9: each failure point exercised at a concrete
remote. -/
theorem remote_errors_abort_except_upstream_check_witness :
    (CreateProxy.main c9Yaml (fun _ => "D") "t" "https://github.com/o/r" "./skills" "me"
        ⟨fun _ => .exn, fun _ _ _ => .exn⟩ =
      { term := .exited 2,
        fetches := ["https://raw.githubusercontent.com/o/r/main/SKILL.md"] }) ∧
    (CreateProxy.main c9Yaml (fun _ => "D") "t" "https://github.com/o/r" "./skills" "me"
        ⟨fun _ => .resp 200 "---\na\n---", fun _ _ _ => .resp 500 "x"⟩ =
      { term := .exited 2,
        fetches := ["https://raw.githubusercontent.com/o/r/main/SKILL.md",
          "https://api.github.com/repos/o/r/commits/main"] }) ∧
    (VerifyProxy.main c9Yaml (fun _ => "D") c9Fs "p"
        ⟨fun _ => .exn, fun _ _ _ => .exn⟩ =
      { term := .exited 2, fetches := ["u"] }) ∧
    (UpdateProxy.main c9Yaml (fun _ => "D") "t" c9Fs "p" false
        ⟨fun _ => .exn, fun _ _ _ => .exn⟩ =
      { term := .crashed,
        fetches := ["https://api.github.com/repos/o/r/commits/main"] }) ∧
    (UpdateProxy.main c9Yaml (fun _ => "D") "t" c9Fs "p" false
        ⟨fun _ => .exn, fun _ _ _ => .resp 500 "x"⟩ =
      { term := .exited 2,
        fetches := ["https://api.github.com/repos/o/r/commits/main"] }) ∧
    (UpdateProxy.main c9Yaml (fun _ => "D") "t" c9Fs "p" false
        ⟨fun _ => .exn, fun _ _ _ => .resp 200 "c1"⟩ =
      { term := .exited 2,
        fetches := ["https://api.github.com/repos/o/r/commits/main",
          "https://raw.githubusercontent.com/o/r/c1/SKILL.md"] }) ∧
    (VerifyProxy.get_latest_commit .exn = none) := by
  refine ⟨?_, ?_, ?_, ?_, ?_, ?_, ?_⟩
  · exact remote_errors_abort_except_upstream_check.1 c9Yaml (fun _ => "D") "t"
      "https://github.com/o/r" "./skills" "me" ⟨fun _ => .exn, fun _ _ _ => .exn⟩
      "https://raw.githubusercontent.com/o/r/main/SKILL.md" "o" "r" "main"
      "SKILL.md" (by decide) (Or.inl rfl)
  · exact remote_errors_abort_except_upstream_check.2.1 c9Yaml (fun _ => "D") "t"
      "https://github.com/o/r" "./skills" "me"
      ⟨fun _ => .resp 200 "---\na\n---", fun _ _ _ => .resp 500 "x"⟩
      "https://raw.githubusercontent.com/o/r/main/SKILL.md" "o" "r" "main"
      "SKILL.md" "---\na\n---" { name := some "demo-skill", description := some "x" }
      (by decide) rfl (by decide) (by decide)
      (Or.inr ⟨500, "x", rfl, by decide⟩)
  · exact remote_errors_abort_except_upstream_check.2.2.1 c9Yaml (fun _ => "D")
      c9Fs "p" ⟨fun _ => .exn, fun _ _ _ => .exn⟩ c9Meta "u" "D"
      (by decide) rfl (by decide) rfl (by decide) (Or.inl rfl)
  · exact (remote_errors_abort_except_upstream_check.2.2.2.1 c9Yaml (fun _ => "D")
      "t" c9Fs "p" false ⟨fun _ => .exn, fun _ _ _ => .exn⟩
      { metadata := some c9Meta } "o".toList "r".toList
      (by decide) (by decide)).1 rfl
  · exact (remote_errors_abort_except_upstream_check.2.2.2.1 c9Yaml (fun _ => "D")
      "t" c9Fs "p" false ⟨fun _ => .exn, fun _ _ _ => .resp 500 "x"⟩
      { metadata := some c9Meta } "o".toList "r".toList
      (by decide) (by decide)).2 500 "x" rfl (by decide)
  · exact remote_errors_abort_except_upstream_check.2.2.2.2.1 c9Yaml (fun _ => "D")
      "t" c9Fs "p" false ⟨fun _ => .exn, fun _ _ _ => .resp 200 "c1"⟩
      { metadata := some c9Meta } "o".toList "r".toList "c1"
      (by decide) (by decide) rfl (by decide) (Or.inl rfl)
  · exact remote_errors_abort_except_upstream_check.2.2.2.2.2 .exn (Or.inl rfl)

/-- **C4.** If the revision freshly resolved from the tracked branch equals
the already-pinned `proxy-commit`, Update is a no-op reporting UpToDate
with exit status 0 and performs no write; consequently, after a first
Update that did rewrite the record, a second Update with no upstream
change (the branch still resolves to the same revision, and the record
loads back as the rewritten frontmatter) reports UpToDate and performs no
write, leaving the persisted record byte-identical. -/
theorem update_up_to_date_noop_and_idempotent :
    (∀ (y : Yaml) (digest : String → String) (now : String)
        (fs : String → Option String) (dir : String) (dry : Bool)
        (remote : Remote) (fm : ProxyFM) (o r : List Char) (sha : String),
      UpdateProxy.load_proxy_skill_md y fs dir = .ok fm →
      searchGR ((fm.metadata.getD {}).proxySource.getD "").data = some (o, r) →
      remote.apiCommit ⟨o⟩ ⟨r⟩
        ((fm.metadata.getD {}).proxyBranch.getD "main") = .resp 200 sha →
      sha = (fm.metadata.getD {}).proxyCommit.getD "" →
      UpdateProxy.main y digest now fs dir dry remote =
        { term := .exited 0,
          fetches := [apiUrl ⟨o⟩ ⟨r⟩
            ((fm.metadata.getD {}).proxyBranch.getD "main")],
          updateNote := some .upToDate }) ∧
    (∀ (y y₂ : Yaml) (digest digest₂ : String → String) (now now₂ : String)
        (fs fs₂ : String → Option String) (dir : String) (dry₂ : Bool)
        (remote remote₂ : Remote) (fm : ProxyFM) (o r : List Char)
        (sha content : String) (rfm : Manifest) (meta2 : MetaMap)
        (fm2 : ProxyFM),
      UpdateProxy.load_proxy_skill_md y fs dir = .ok fm →
      searchGR ((fm.metadata.getD {}).proxySource.getD "").data = some (o, r) →
      remote.apiCommit ⟨o⟩ ⟨r⟩
        ((fm.metadata.getD {}).proxyBranch.getD "main") = .resp 200 sha →
      sha ≠ (fm.metadata.getD {}).proxyCommit.getD "" →
      remote.fetchHttp (UpdateProxy.newRawUrl ⟨o⟩ ⟨r⟩ sha
        (UpdateProxy.remoteSkillPath
          ((fm.metadata.getD {}).proxyRawUrl.getD ""))) = .resp 200 content →
      UpdateProxy.loadRemoteFM y content = some rfm →
      UpdateProxy.validate_frontmatter rfm = [] →
      meta2 = UpdateProxy.updatedMeta (fm.metadata.getD {}) sha (digest content)
        (UpdateProxy.newRawUrl ⟨o⟩ ⟨r⟩ sha
          (UpdateProxy.remoteSkillPath
            ((fm.metadata.getD {}).proxyRawUrl.getD ""))) now →
      fm2 = { fm with metadata := some meta2 } →
      UpdateProxy.load_proxy_skill_md y₂ fs₂ dir = .ok fm2 →
      remote₂.apiCommit ⟨o⟩ ⟨r⟩
        ((fm2.metadata.getD {}).proxyBranch.getD "main") = .resp 200 sha →
      ((UpdateProxy.main y digest now fs dir false remote).term = .exited 0 ∧
        (UpdateProxy.main y digest now fs dir false remote).updateNote =
          some .updated ∧
        (UpdateProxy.main y digest now fs dir false remote).writes =
          [(dir ++ "/SKILL.md",
            "---\n" ++ y.dumpProxy fm2 ++ "---\n\n" ++
              UpdateProxy.build_updated_body
                (rfm.name.getD ⟨replaceSub "-proxy".toList []
                  (pathName dir).data⟩)
                ⟨o⟩ ⟨r⟩ ((fm.metadata.getD {}).proxySource.getD "")
                ((fm.metadata.getD {}).proxyBranch.getD "main") sha
                (UpdateProxy.newRawUrl ⟨o⟩ ⟨r⟩ sha
                  (UpdateProxy.remoteSkillPath
                    ((fm.metadata.getD {}).proxyRawUrl.getD "")))
                (digest content) (UpdateProxy.extract_summary content)
                (pathName dir) now)] ∧
        UpdateProxy.main y₂ digest₂ now₂ fs₂ dir dry₂ remote₂ =
          { term := .exited 0,
            fetches := [apiUrl ⟨o⟩ ⟨r⟩
              ((fm2.metadata.getD {}).proxyBranch.getD "main")],
            updateNote := some .upToDate })) := by
  have hpart1 : ∀ (y : Yaml) (digest : String → String) (now : String)
      (fs : String → Option String) (dir : String) (dry : Bool)
      (remote : Remote) (fm : ProxyFM) (o r : List Char) (sha : String),
      UpdateProxy.load_proxy_skill_md y fs dir = .ok fm →
      searchGR ((fm.metadata.getD {}).proxySource.getD "").data = some (o, r) →
      remote.apiCommit ⟨o⟩ ⟨r⟩
        ((fm.metadata.getD {}).proxyBranch.getD "main") = .resp 200 sha →
      sha = (fm.metadata.getD {}).proxyCommit.getD "" →
      UpdateProxy.main y digest now fs dir dry remote =
        { term := .exited 0,
          fetches := [apiUrl ⟨o⟩ ⟨r⟩
            ((fm.metadata.getD {}).proxyBranch.getD "main")],
          updateNote := some .upToDate } := by
    intro y digest now fs dir dry remote fm o r sha hload hsg happi heq
    have hgh : UpdateProxy.get_head_commit (remote.apiCommit ⟨o⟩ ⟨r⟩
        ((fm.metadata.getD {}).proxyBranch.getD "main")) = .ok sha := by
      rw [happi]; simp [UpdateProxy.get_head_commit]
    simp only [UpdateProxy.main, hload, hsg, hgh]
    rw [if_pos heq]
  refine ⟨hpart1, ?_⟩
  intro y y₂ digest digest₂ now now₂ fs fs₂ dir dry₂ remote remote₂ fm o r sha
    content rfm meta2 fm2 hload hsg happi hne hfetch hrfm hval hmeta2 hfm2
    hload₂ happi₂
  subst hfm2
  subst hmeta2
  have hgh : UpdateProxy.get_head_commit (remote.apiCommit ⟨o⟩ ⟨r⟩
      ((fm.metadata.getD {}).proxyBranch.getD "main")) = .ok sha := by
    rw [happi]; simp [UpdateProxy.get_head_commit]
  have hfr : UpdateProxy.fetch_raw
      (remote.fetchHttp (UpdateProxy.newRawUrl ⟨o⟩ ⟨r⟩ sha
        (UpdateProxy.remoteSkillPath
          ((fm.metadata.getD {}).proxyRawUrl.getD "")))) = .ok content := by
    rw [hfetch]; simp [UpdateProxy.fetch_raw]
  have hrun1 : UpdateProxy.main y digest now fs dir false remote =
      { term := .exited 0,
        writes :=
          [(dir ++ "/SKILL.md",
            "---\n" ++ y.dumpProxy
              { fm with metadata := some (UpdateProxy.updatedMeta
                  (fm.metadata.getD {}) sha (digest content)
                  (UpdateProxy.newRawUrl ⟨o⟩ ⟨r⟩ sha
                    (UpdateProxy.remoteSkillPath
                      ((fm.metadata.getD {}).proxyRawUrl.getD ""))) now) } ++
            "---\n\n" ++
              UpdateProxy.build_updated_body
                (rfm.name.getD ⟨replaceSub "-proxy".toList []
                  (pathName dir).data⟩)
                ⟨o⟩ ⟨r⟩ ((fm.metadata.getD {}).proxySource.getD "")
                ((fm.metadata.getD {}).proxyBranch.getD "main") sha
                (UpdateProxy.newRawUrl ⟨o⟩ ⟨r⟩ sha
                  (UpdateProxy.remoteSkillPath
                    ((fm.metadata.getD {}).proxyRawUrl.getD "")))
                (digest content) (UpdateProxy.extract_summary content)
                (pathName dir) now)],
        fetches :=
          [apiUrl ⟨o⟩ ⟨r⟩ ((fm.metadata.getD {}).proxyBranch.getD "main"),
            UpdateProxy.newRawUrl ⟨o⟩ ⟨r⟩ sha
              (UpdateProxy.remoteSkillPath
                ((fm.metadata.getD {}).proxyRawUrl.getD ""))],
        updateNote := some .updated } := by
    simp only [UpdateProxy.main, hload, hsg, hgh]
    rw [if_neg hne]
    simp only [hfr, hrfm, hval]
    rfl
  have hsg₂ : searchGR ((({ fm with metadata := some (UpdateProxy.updatedMeta
      (fm.metadata.getD {}) sha (digest content)
      (UpdateProxy.newRawUrl ⟨o⟩ ⟨r⟩ sha
        (UpdateProxy.remoteSkillPath
          ((fm.metadata.getD {}).proxyRawUrl.getD ""))) now) } :
      ProxyFM).metadata.getD {}).proxySource.getD "").data = some (o, r) := by
    simpa [UpdateProxy.updatedMeta] using hsg
  have heq₂ : sha = (({ fm with metadata := some (UpdateProxy.updatedMeta
      (fm.metadata.getD {}) sha (digest content)
      (UpdateProxy.newRawUrl ⟨o⟩ ⟨r⟩ sha
        (UpdateProxy.remoteSkillPath
          ((fm.metadata.getD {}).proxyRawUrl.getD ""))) now) } :
      ProxyFM).metadata.getD {}).proxyCommit.getD "" := by
    simp [UpdateProxy.updatedMeta]
  refine ⟨by rw [hrun1], by rw [hrun1], by rw [hrun1], ?_⟩
  exact hpart1 y₂ digest₂ now₂ fs₂ dir dry₂ remote₂ _ o r sha hload₂ hsg₂
    happi₂ heq₂

/-- Witness for C4: a concrete up-to-date run, and a concrete
update-then-update sequence whose second run is an UpToDate no-op. -/
theorem update_up_to_date_noop_and_idempotent_witness :
    (UpdateProxy.main c9Yaml (fun _ => "D") "t" c9Fs "p" false
        ⟨fun _ => .exn, fun _ _ _ => .resp 200 "c0"⟩ =
      { term := .exited 0,
        fetches := ["https://api.github.com/repos/o/r/commits/main"],
        updateNote := some .upToDate }) ∧
    (UpdateProxy.main
        ⟨fun _ => some { name := some "demo-skill", description := some "x" },
         fun _ => some { metadata := some (UpdateProxy.updatedMeta c9Meta "c1" "D" (UpdateProxy.newRawUrl "o" "r" "c1" "SKILL.md") "t") },
         fun _ => "y\n"⟩
        (fun _ => "D") "t2" c9Fs "p" false
        ⟨fun _ => .exn, fun _ _ _ => .resp 200 "c1"⟩ =
      { term := .exited 0,
        fetches := ["https://api.github.com/repos/o/r/commits/main"],
        updateNote := some .upToDate }) := by
  constructor
  · exact update_up_to_date_noop_and_idempotent.1 c9Yaml (fun _ => "D") "t"
      c9Fs "p" false ⟨fun _ => .exn, fun _ _ _ => .resp 200 "c0"⟩
      { metadata := some c9Meta } "o".toList "r".toList "c0"
      (by decide) (by decide) rfl (by decide)
  · exact (update_up_to_date_noop_and_idempotent.2 c9Yaml
      ⟨fun _ => some { name := some "demo-skill", description := some "x" },
       fun _ => some { metadata := some (UpdateProxy.updatedMeta c9Meta "c1" "D" (UpdateProxy.newRawUrl "o" "r" "c1" "SKILL.md") "t") },
       fun _ => "y\n"⟩
      (fun _ => "D") (fun _ => "D") "t" "t2" c9Fs c9Fs "p" false
      ⟨fun _ => .resp 200 "---\nb\n---", fun _ _ _ => .resp 200 "c1"⟩
      ⟨fun _ => .exn, fun _ _ _ => .resp 200 "c1"⟩
      { metadata := some c9Meta } "o".toList "r".toList "c1" "---\nb\n---"
      { name := some "demo-skill", description := some "x" }
      (UpdateProxy.updatedMeta c9Meta "c1" "D" (UpdateProxy.newRawUrl "o" "r" "c1" "SKILL.md") "t")
      { metadata := some (UpdateProxy.updatedMeta c9Meta "c1" "D" (UpdateProxy.newRawUrl "o" "r" "c1" "SKILL.md") "t") }
      (by decide) (by decide) rfl (by decide) rfl (by decide) (by decide)
      (by decide) (by decide) (by decide) rfl).2.2.2

/-- **C1.** For every remote artifact reachable at a resolvable branch
whose manifest passes validation, Create exits 0 and writes a proxy record
whose frontmatter metadata carries `proxy-sha256 = digest content` — the
digest of the fetched content (the scripts hash the UTF-8 bytes of the
fetched text, `hashlib.sha256(content.encode("utf-8"))`, modelled by the
shared `digest` collaborator) — and `proxy-commit = sha`, the revision
resolved from the tracked branch; and Verify run immediately afterwards on
the written record, with the remote serving the same content at the pinned
address, reports Intact and exits 0 without writing. -/
theorem create_pins_digest_and_commit_then_verify_intact
    (y y₂ : Yaml) (digest : String → String)
    (now url output_dir created_by : String) (remote remote₂ : Remote)
    (ru o r b sp content sha : String) (fm : Manifest)
    (fs₂ : String → Option String) (proxyDir pinned : String)
    (htrans : CreateProxy.translate_url url = .ok ru o r b sp)
    (hfetch : remote.fetchHttp ru = .resp 200 content)
    (hparse : CreateProxy.parse_frontmatter y content = .ok fm)
    (hval : CreateProxy.validate_frontmatter fm = [])
    (happi : remote.apiCommit o r b = .resp 200 sha)
    (hpinned : pinned = "https://raw.githubusercontent.com/" ++ o ++ "/" ++ r
      ++ "/" ++ sha ++ "/" ++ sp)
    (hload₂ : VerifyProxy.load_proxy_metadata y₂ fs₂ proxyDir =
      .ok ((CreateProxy.proxy_frontmatter (fm.name.getD "")
        (fm.description.getD "") o url b sha (digest content) created_by now
        pinned).metadata.getD {}))
    (hfetch₂ : remote₂.fetchHttp pinned = .resp 200 content)
    (hdnz : digest content ≠ "") :
    (CreateProxy.main y digest now url output_dir created_by remote =
      { term := .exited 0,
        writes := [(output_dir ++ "/" ++ fm.name.getD "" ++ "-proxy" ++ "/SKILL.md",
          CreateProxy.build_proxy_skill y now (fm.name.getD "")
            (fm.description.getD "") (CreateProxy.extract_summary content)
            o r b sp sha (digest content) url created_by)],
        fetches := [ru, apiUrl o r b] }) ∧
    ((CreateProxy.proxy_frontmatter (fm.name.getD "") (fm.description.getD "")
        o url b sha (digest content) created_by now
        pinned).metadata.getD {}).proxySha256 = some (digest content) ∧
    ((CreateProxy.proxy_frontmatter (fm.name.getD "") (fm.description.getD "")
        o url b sha (digest content) created_by now
        pinned).metadata.getD {}).proxyCommit = some sha ∧
    (VerifyProxy.main y₂ digest fs₂ proxyDir remote₂).term = .exited 0 ∧
    (VerifyProxy.main y₂ digest fs₂ proxyDir remote₂).writes = [] := by
  have h1 : CreateProxy.fetch_raw_content (remote.fetchHttp ru) = .ok content := by
    rw [hfetch]; simp [CreateProxy.fetch_raw_content]
  have h2 : CreateProxy.get_commit_hash (remote.apiCommit o r b) = .ok sha := by
    rw [happi]; simp [CreateProxy.get_commit_hash]
  have hpne : pinned ≠ "" := by
    rw [hpinned]
    intro hcon
    have := congrArg String.data hcon
    simp [String.data_append] at this
  have hmetaB : (CreateProxy.proxy_frontmatter (fm.name.getD "")
      (fm.description.getD "") o url b sha (digest content) created_by now
      pinned).metadata.getD {} =
      { proxySource := some url, proxyRawUrl := some pinned,
        proxyCommit := some sha, proxySha256 := some (digest content),
        proxyBranch := some b, proxyCreatedBy := some created_by,
        proxyCreatedAt := some now } := rfl
  refine ⟨?_, rfl, rfl, ?_, ?_⟩
  · simp only [CreateProxy.main, htrans, h1, hparse, hval, h2]
  all_goals {
    have hverify : VerifyProxy.main y₂ digest fs₂ proxyDir remote₂ =
        (match searchGR url.data with
        | none => { term := .exited 0, fetches := [pinned] }
        | some (vo, vr) =>
          { term := .exited 0,
            fetches := [pinned, apiUrl ⟨vo⟩ ⟨vr⟩ b],
            upstreamInfo :=
              match VerifyProxy.get_latest_commit
                  (remote₂.apiCommit ⟨vo⟩ ⟨vr⟩ b) with
              | some l =>
                if l ≠ "" then
                  if some l ≠ some sha then some true else some false
                else none
              | none => none }) := by
      simp only [VerifyProxy.main, hload₂, hmetaB]
      rw [falsy_some_of_ne pinned hpne, falsy_some_of_ne _ hdnz]
      simp only [Bool.or_self, Option.getD_some]
      rw [if_neg Bool.false_ne_true, hfetch₂]
      simp only [VerifyProxy.fetch_pinned]
      rw [if_neg (by simp)]
      dsimp only
      rw [if_neg (by simp)]
    rw [hverify]
    rcases searchGR url.data with _ | ⟨vo, vr⟩
    · rfl
    · rfl
  }

/-- Witness for C1: a concrete end-to-end create-then-verify scenario. -/
theorem create_pins_digest_and_commit_then_verify_intact_witness :
    ((CreateProxy.main c9Yaml (fun _ => "D") "t" "https://github.com/o/r"
        "./skills" "me"
        ⟨fun _ => .resp 200 "---\na\n---", fun _ _ _ => .resp 200 "c0"⟩).term =
      .exited 0) ∧
    ((CreateProxy.proxy_frontmatter "demo-skill" "x" "o"
        "https://github.com/o/r" "main" "c0" "D" "me" "t"
        "https://raw.githubusercontent.com/o/r/c0/SKILL.md").metadata.getD
        {}).proxySha256 = some "D" ∧
    ((CreateProxy.proxy_frontmatter "demo-skill" "x" "o"
        "https://github.com/o/r" "main" "c0" "D" "me" "t"
        "https://raw.githubusercontent.com/o/r/c0/SKILL.md").metadata.getD
        {}).proxyCommit = some "c0" ∧
    ((VerifyProxy.main
        ⟨fun _ => some {},
         fun _ => some (CreateProxy.proxy_frontmatter "demo-skill" "x" "o"
           "https://github.com/o/r" "main" "c0" "D" "me" "t"
           "https://raw.githubusercontent.com/o/r/c0/SKILL.md"),
         fun _ => "y\n"⟩
        (fun _ => "D") c9Fs "p"
        ⟨fun _ => .resp 200 "---\na\n---", fun _ _ _ => .exn⟩).term =
      .exited 0) ∧
    ((VerifyProxy.main
        ⟨fun _ => some {},
         fun _ => some (CreateProxy.proxy_frontmatter "demo-skill" "x" "o"
           "https://github.com/o/r" "main" "c0" "D" "me" "t"
           "https://raw.githubusercontent.com/o/r/c0/SKILL.md"),
         fun _ => "y\n"⟩
        (fun _ => "D") c9Fs "p"
        ⟨fun _ => .resp 200 "---\na\n---", fun _ _ _ => .exn⟩).writes = []) := by
  have h := create_pins_digest_and_commit_then_verify_intact c9Yaml
    ⟨fun _ => some {},
     fun _ => some (CreateProxy.proxy_frontmatter "demo-skill" "x" "o"
       "https://github.com/o/r" "main" "c0" "D" "me" "t"
       "https://raw.githubusercontent.com/o/r/c0/SKILL.md"),
     fun _ => "y\n"⟩
    (fun _ => "D") "t" "https://github.com/o/r" "./skills" "me"
    ⟨fun _ => .resp 200 "---\na\n---", fun _ _ _ => .resp 200 "c0"⟩
    ⟨fun _ => .resp 200 "---\na\n---", fun _ _ _ => .exn⟩
    "https://raw.githubusercontent.com/o/r/main/SKILL.md" "o" "r" "main"
    "SKILL.md" "---\na\n---" "c0"
    { name := some "demo-skill", description := some "x" } c9Fs "p"
    "https://raw.githubusercontent.com/o/r/c0/SKILL.md"
    (by decide) rfl (by decide) (by decide) rfl (by decide) (by decide) rfl
    (by decide)
  exact ⟨by rw [h.1], h.2.1, h.2.2.1, h.2.2.2.1, h.2.2.2.2⟩

/-- Counterexample for C7: two accepted shapes denoting the same artifact
(the bare root `https://github.com/refs/heads` for owner `refs`, repo
`heads`, and its canonical raw form
`https://raw.githubusercontent.com/refs/heads/main/SKILL.md`) do not
resolve to the same tuple: the mutable-ref normalizer rewrites the raw
address's `/refs/heads/main/` region — which is here owner/repo/branch
material, not a mutable-ref marker — leaving a two-component path on
which the resolver crashes with an IndexError, while the bare root
resolves to `(refs, heads, main, SKILL.md)`. -/
theorem resolver_refs_heads_collision_counterexample :
    CreateProxy.translate_url "https://github.com/refs/heads" =
      .ok "https://raw.githubusercontent.com/refs/heads/main/SKILL.md"
        "refs" "heads" "main" "SKILL.md" ∧
    CreateProxy.translate_url
        "https://raw.githubusercontent.com/refs/heads/main/SKILL.md" =
      .err := by
  refine ⟨by decide, ?_⟩
  have hu : pyRstrip '/' (pyStripWs
      ("https://raw.githubusercontent.com/refs/heads/main/SKILL.md"
        : String).data) =
      "https://raw.githubusercontent.com".toList ++ ('/' ::
        ("refs/heads/".toList ++ ("main".toList ++
          ('/' :: "SKILL.md".toList)))) := by decide
  have hsr : subRefsHeads (pyRstrip '/' (pyStripWs
      ("https://raw.githubusercontent.com/refs/heads/main/SKILL.md"
        : String).data)) =
      "https://raw.githubusercontent.com/main/SKILL.md".toList := by
    rw [hu, PyStr.subRefsHeads_append _ _ (by decide),
      PyStr.subRefsHeads_replace "main".toList "SKILL.md".toList
        (by decide) (by decide),
      PyStr.subRefsHeads_eq_self "SKILL.md".toList (by decide)]
    decide
  simp only [CreateProxy.translate_url]
  rw [if_pos (show hasSub "raw.githubusercontent.com".toList
      (pyRstrip '/' (pyStripWs
        ("https://raw.githubusercontent.com/refs/heads/main/SKILL.md"
          : String).data)) = true by decide)]
  rw [hsr]
  decide

/-- **C7 (amended).** For every owner, repo, branch and subpath built from
ordinary component characters (lowercase alphanumerics, `-`, `_`, and `/`
separators in the subpath) whose raw-form addresses do not accidentally
contain a `/refs/heads/` mutable-ref region, all accepted location-string
shapes denoting the same artifact resolve to the same
`(owner, repo, branch, skill-path)` tuple: the bare root resolves with
branch `main` and artifact path `SKILL.md`; the branch-qualified root,
the direct blob pointer, the canonical raw form, and the raw form with a
mutable-ref segment all resolve to `(o, r, b, SKILL.md)`; and the four
subpath-qualified shapes all resolve to `(o, r, b, sub/SKILL.md)`.
(Without the no-accidental-`/refs/heads/` proviso the claim fails, per the
counterexample.) -/
theorem location_resolver_shape_agreement (o r b sub : String)
    (ho1 : o.data ≠ []) (ho2 : ∀ c ∈ o.data, c ∈ compChars)
    (hr1 : r.data ≠ []) (hr2 : ∀ c ∈ r.data, c ∈ compChars)
    (hb1 : b.data ≠ []) (hb2 : ∀ c ∈ b.data, c ∈ compChars)
    (hs1 : sub.data ≠ []) (hs2 : ∀ c ∈ sub.data, c = '/' ∨ c ∈ compChars)
    (hsl : sub.data.getLast hs1 ∈ compChars)
    (hnorh1 : hasSub "/refs/heads/".toList
      ("https://raw.githubusercontent.com/" ++ o ++ "/" ++ r ++ "/" ++ b
        ++ "/SKILL.md").data = false)
    (hnorh2 : hasSub "/refs/heads/".toList
      ("https://raw.githubusercontent.com/" ++ o ++ "/" ++ r ++ "/" ++ b
        ++ "/" ++ sub ++ "/SKILL.md").data = false)
    (hbnd : hasSub "/refs/heads/".toList
      (("https://raw.githubusercontent.com/" ++ o ++ "/" ++ r).data ++
        "/refs/heads".toList) = false)
    (hfq : hasSub "/refs/heads/".toList
      (sub.data ++ ('/' :: "SKILL.md".toList)) = false) :
    (CreateProxy.translate_url ("https://github.com/" ++ o ++ "/" ++ r) =
      .ok ("https://raw.githubusercontent.com/" ++ o ++ "/" ++ r
        ++ "/main/SKILL.md") o r "main" "SKILL.md") ∧
    (CreateProxy.translate_url
        ("https://github.com/" ++ o ++ "/" ++ r ++ "/tree/" ++ b) =
      .ok ("https://raw.githubusercontent.com/" ++ o ++ "/" ++ r ++ "/" ++ b
        ++ "/SKILL.md") o r b "SKILL.md") ∧
    (CreateProxy.translate_url
        ("https://github.com/" ++ o ++ "/" ++ r ++ "/blob/" ++ b
          ++ "/SKILL.md") =
      .ok ("https://raw.githubusercontent.com/" ++ o ++ "/" ++ r ++ "/" ++ b
        ++ "/SKILL.md") o r b "SKILL.md") ∧
    (CreateProxy.translate_url
        ("https://raw.githubusercontent.com/" ++ o ++ "/" ++ r ++ "/" ++ b
          ++ "/SKILL.md") =
      .ok ("https://raw.githubusercontent.com/" ++ o ++ "/" ++ r ++ "/" ++ b
        ++ "/SKILL.md") o r b "SKILL.md") ∧
    (CreateProxy.translate_url
        ("https://raw.githubusercontent.com/" ++ o ++ "/" ++ r
          ++ "/refs/heads/" ++ b ++ "/SKILL.md") =
      .ok ("https://raw.githubusercontent.com/" ++ o ++ "/" ++ r ++ "/" ++ b
        ++ "/SKILL.md") o r b "SKILL.md") ∧
    (CreateProxy.translate_url
        ("https://github.com/" ++ o ++ "/" ++ r ++ "/tree/" ++ b
          ++ "/" ++ sub) =
      .ok ("https://raw.githubusercontent.com/" ++ o ++ "/" ++ r ++ "/" ++ b
        ++ "/" ++ sub ++ "/SKILL.md") o r b (sub ++ "/SKILL.md")) ∧
    (CreateProxy.translate_url
        ("https://github.com/" ++ o ++ "/" ++ r ++ "/blob/" ++ b
          ++ "/" ++ sub ++ "/SKILL.md") =
      .ok ("https://raw.githubusercontent.com/" ++ o ++ "/" ++ r ++ "/" ++ b
        ++ "/" ++ sub ++ "/SKILL.md") o r b (sub ++ "/SKILL.md")) ∧
    (CreateProxy.translate_url
        ("https://raw.githubusercontent.com/" ++ o ++ "/" ++ r ++ "/" ++ b
          ++ "/" ++ sub ++ "/SKILL.md") =
      .ok ("https://raw.githubusercontent.com/" ++ o ++ "/" ++ r ++ "/" ++ b
        ++ "/" ++ sub ++ "/SKILL.md") o r b (sub ++ "/SKILL.md")) ∧
    (CreateProxy.translate_url
        ("https://raw.githubusercontent.com/" ++ o ++ "/" ++ r
          ++ "/refs/heads/" ++ b ++ "/" ++ sub ++ "/SKILL.md") =
      .ok ("https://raw.githubusercontent.com/" ++ o ++ "/" ++ r ++ "/" ++ b
        ++ "/" ++ sub ++ "/SKILL.md") o r b (sub ++ "/SKILL.md")) := by
  have hs3 : ∀ d, sub.data.getLast? = some d → d ∈ compChars := by
    intro d hd
    rw [List.getLast?_eq_getLast_of_ne_nil hs1] at hd
    injection hd with h
    rw [← h]
    exact hsl
  exact ⟨translate_bare_root o r ho1 ho2 hr1 hr2,
    translate_tree_root o r b ho1 ho2 hr1 hr2 hb1 hb2,
    translate_blob_direct o r b ho1 ho2 hr1 hr2 hb1 hb2,
    translate_raw_plain o r b ho1 ho2 hr2 hb2 hnorh1,
    translate_raw_refs o r b ho1 ho2 hr2 hb1 hb2 hbnd,
    translate_tree_sub o r b sub ho1 ho2 hr1 hr2 hb1 hb2 hs1 hs2 hs3,
    translate_blob_sub o r b sub ho1 ho2 hr1 hr2 hb1 hb2 hs2,
    translate_raw_sub o r b sub ho1 ho2 hr2 hb2 hs2 hnorh2,
    translate_raw_refs_sub o r b sub ho1 ho2 hr2 hb1 hb2 hs2 hbnd hfq⟩

/-- Witness for the amended C7 at owner `alice`, repo `proj`, branch `dev`
and subpath `pkg/tool`: every side condition holds and all nine shapes
resolve as stated. -/
theorem location_resolver_shape_agreement_witness :
    ("alice" : String).data ≠ [] ∧
    (∀ c ∈ ("alice" : String).data, c ∈ compChars) ∧
    ("proj" : String).data ≠ [] ∧
    (∀ c ∈ ("proj" : String).data, c ∈ compChars) ∧
    ("dev" : String).data ≠ [] ∧
    (∀ c ∈ ("dev" : String).data, c ∈ compChars) ∧
    ("pkg/tool" : String).data ≠ [] ∧
    (∀ c ∈ ("pkg/tool" : String).data, c = '/' ∨ c ∈ compChars) ∧
    ("pkg/tool" : String).data.getLast (by decide) ∈ compChars ∧
    hasSub "/refs/heads/".toList
      ("https://raw.githubusercontent.com/" ++ "alice" ++ "/" ++ "proj"
        ++ "/" ++ "dev" ++ "/SKILL.md").data = false ∧
    hasSub "/refs/heads/".toList
      ("https://raw.githubusercontent.com/" ++ "alice" ++ "/" ++ "proj"
        ++ "/" ++ "dev" ++ "/" ++ "pkg/tool" ++ "/SKILL.md").data = false ∧
    hasSub "/refs/heads/".toList
      (("https://raw.githubusercontent.com/" ++ "alice" ++ "/"
        ++ "proj").data ++ "/refs/heads".toList) = false ∧
    hasSub "/refs/heads/".toList
      (("pkg/tool" : String).data ++ ('/' :: "SKILL.md".toList)) = false ∧
    ((CreateProxy.translate_url
        ("https://github.com/" ++ "alice" ++ "/" ++ "proj") =
      .ok ("https://raw.githubusercontent.com/" ++ "alice" ++ "/" ++ "proj"
        ++ "/main/SKILL.md") "alice" "proj" "main" "SKILL.md") ∧
    (CreateProxy.translate_url
        ("https://github.com/" ++ "alice" ++ "/" ++ "proj" ++ "/tree/"
          ++ "dev") =
      .ok ("https://raw.githubusercontent.com/" ++ "alice" ++ "/" ++ "proj"
        ++ "/" ++ "dev" ++ "/SKILL.md") "alice" "proj" "dev" "SKILL.md") ∧
    (CreateProxy.translate_url
        ("https://github.com/" ++ "alice" ++ "/" ++ "proj" ++ "/blob/"
          ++ "dev" ++ "/SKILL.md") =
      .ok ("https://raw.githubusercontent.com/" ++ "alice" ++ "/" ++ "proj"
        ++ "/" ++ "dev" ++ "/SKILL.md") "alice" "proj" "dev" "SKILL.md") ∧
    (CreateProxy.translate_url
        ("https://raw.githubusercontent.com/" ++ "alice" ++ "/" ++ "proj"
          ++ "/" ++ "dev" ++ "/SKILL.md") =
      .ok ("https://raw.githubusercontent.com/" ++ "alice" ++ "/" ++ "proj"
        ++ "/" ++ "dev" ++ "/SKILL.md") "alice" "proj" "dev" "SKILL.md") ∧
    (CreateProxy.translate_url
        ("https://raw.githubusercontent.com/" ++ "alice" ++ "/" ++ "proj"
          ++ "/refs/heads/" ++ "dev" ++ "/SKILL.md") =
      .ok ("https://raw.githubusercontent.com/" ++ "alice" ++ "/" ++ "proj"
        ++ "/" ++ "dev" ++ "/SKILL.md") "alice" "proj" "dev" "SKILL.md") ∧
    (CreateProxy.translate_url
        ("https://github.com/" ++ "alice" ++ "/" ++ "proj" ++ "/tree/"
          ++ "dev" ++ "/" ++ "pkg/tool") =
      .ok ("https://raw.githubusercontent.com/" ++ "alice" ++ "/" ++ "proj"
        ++ "/" ++ "dev" ++ "/" ++ "pkg/tool" ++ "/SKILL.md")
        "alice" "proj" "dev" ("pkg/tool" ++ "/SKILL.md")) ∧
    (CreateProxy.translate_url
        ("https://github.com/" ++ "alice" ++ "/" ++ "proj" ++ "/blob/"
          ++ "dev" ++ "/" ++ "pkg/tool" ++ "/SKILL.md") =
      .ok ("https://raw.githubusercontent.com/" ++ "alice" ++ "/" ++ "proj"
        ++ "/" ++ "dev" ++ "/" ++ "pkg/tool" ++ "/SKILL.md")
        "alice" "proj" "dev" ("pkg/tool" ++ "/SKILL.md")) ∧
    (CreateProxy.translate_url
        ("https://raw.githubusercontent.com/" ++ "alice" ++ "/" ++ "proj"
          ++ "/" ++ "dev" ++ "/" ++ "pkg/tool" ++ "/SKILL.md") =
      .ok ("https://raw.githubusercontent.com/" ++ "alice" ++ "/" ++ "proj"
        ++ "/" ++ "dev" ++ "/" ++ "pkg/tool" ++ "/SKILL.md")
        "alice" "proj" "dev" ("pkg/tool" ++ "/SKILL.md")) ∧
    (CreateProxy.translate_url
        ("https://raw.githubusercontent.com/" ++ "alice" ++ "/" ++ "proj"
          ++ "/refs/heads/" ++ "dev" ++ "/" ++ "pkg/tool" ++ "/SKILL.md") =
      .ok ("https://raw.githubusercontent.com/" ++ "alice" ++ "/" ++ "proj"
        ++ "/" ++ "dev" ++ "/" ++ "pkg/tool" ++ "/SKILL.md")
        "alice" "proj" "dev" ("pkg/tool" ++ "/SKILL.md"))) :=
  ⟨by decide, by decide, by decide, by decide, by decide, by decide,
    by decide, by decide, by decide, by decide, by decide, by decide,
    by decide,
    location_resolver_shape_agreement "alice" "proj" "dev" "pkg/tool"
      (by decide) (by decide) (by decide) (by decide) (by decide)
      (by decide) (by decide) (by decide) (by decide) (by decide)
      (by decide) (by decide) (by decide)⟩
